import Mathlib

/-!
# The migration model of `state/migration/model.go`

A shallow embedding of the migration `model` aggregate: its validation pass
(`model.Validate`, `model.validateRelations`, `model.service`), its import from
an untyped document (`DeserializeModel`, `importModel`, `importModelV1`), its
accessors and builders, and `Parse` of `version/version.go`; together with the
small parts of the libraries it calls (`juju/errors`, `juju/utils/set`,
`juju/schema`, `fmt` verbs) and of the sibling entity files it relies on.

Go's `error` results are `Option Err` (`none` is the `nil` error); loops with an
early `return` are recursive functions over the slice that stop at the first
error. The import functions keep Go's pair of results, the model (or nil) and
the error (or nil). Code that the import calls and that is not at hand is the
parameter `Collaborators`.
-/

namespace migration

/-! ## Library: `github.com/juju/errors` -/

/-- An error value: the text of `Error()` and whether its cause is of the
not-valid class (what `errors.IsNotValid` tests). -/
structure Err where
  msg : String
  notValid : Bool
deriving DecidableEq

/-- The function `errors.NotValidf(format)`: the message is the formatted text followed by
`" not valid"`, and the error is of the not-valid class. -/
def NotValidf (text : String) : Err := { msg := text ++ " not valid", notValid := true }

/-- The function `errors.Errorf(format, args...)`: a plain error carrying the formatted text. -/
def Errorf (text : String) : Err := { msg := text, notValid := false }

/-- The function `errors.Trace(err)`: records a location; message and cause are unchanged. -/
def Trace (err : Err) : Err := err

/-- The function `errors.IsNotValid(err)`. -/
def IsNotValid (err : Err) : Bool := err.notValid

/-! ## Library: `fmt` verbs used by the messages -/

/-- The verb `%s` applied to a `[]string`: the elements separated by one space,
inside square brackets. -/
def fmtStrings (l : List String) : String := "[" ++ " ".intercalate l ++ "]"

/-- The verb `%d` applied to an `int`. -/
def fmtInt (n : Int) : String := toString n

/-- Printable runes from U+0100 to U+0AC9, as ranges with both ends in. -/
def printRanges01 : List (Nat × Nat) :=
  [(0x0100, 0x0377), (0x037A, 0x037F), (0x0384, 0x038A), (0x038C, 0x038C), (0x038E, 0x03A1),
   (0x03A3, 0x052F), (0x0531, 0x0556), (0x0559, 0x058A), (0x058D, 0x058F), (0x0591, 0x05C7),
   (0x05D0, 0x05EA), (0x05EF, 0x05F4), (0x0606, 0x061B), (0x061D, 0x06DC), (0x06DE, 0x070D),
   (0x0710, 0x074A), (0x074D, 0x07B1), (0x07C0, 0x07FA), (0x07FD, 0x082D), (0x0830, 0x083E),
   (0x0840, 0x085B), (0x085E, 0x085E), (0x0860, 0x086A), (0x0870, 0x088E), (0x0898, 0x08E1),
   (0x08E3, 0x0983), (0x0985, 0x098C), (0x098F, 0x0990), (0x0993, 0x09A8), (0x09AA, 0x09B0),
   (0x09B2, 0x09B2), (0x09B6, 0x09B9), (0x09BC, 0x09C4), (0x09C7, 0x09C8), (0x09CB, 0x09CE),
   (0x09D7, 0x09D7), (0x09DC, 0x09DD), (0x09DF, 0x09E3), (0x09E6, 0x09FE), (0x0A01, 0x0A03),
   (0x0A05, 0x0A0A), (0x0A0F, 0x0A10), (0x0A13, 0x0A28), (0x0A2A, 0x0A30), (0x0A32, 0x0A33),
   (0x0A35, 0x0A36), (0x0A38, 0x0A39), (0x0A3C, 0x0A3C), (0x0A3E, 0x0A42), (0x0A47, 0x0A48),
   (0x0A4B, 0x0A4D), (0x0A51, 0x0A51), (0x0A59, 0x0A5C), (0x0A5E, 0x0A5E), (0x0A66, 0x0A76),
   (0x0A81, 0x0A83), (0x0A85, 0x0A8D), (0x0A8F, 0x0A91), (0x0A93, 0x0AA8), (0x0AAA, 0x0AB0),
   (0x0AB2, 0x0AB3), (0x0AB5, 0x0AB9), (0x0ABC, 0x0AC5), (0x0AC7, 0x0AC9)]

/-- Printable runes from U+0ACB to U+0D48, as ranges with both ends in. -/
def printRanges02 : List (Nat × Nat) :=
  [(0x0ACB, 0x0ACD), (0x0AD0, 0x0AD0), (0x0AE0, 0x0AE3), (0x0AE6, 0x0AF1), (0x0AF9, 0x0AFF),
   (0x0B01, 0x0B03), (0x0B05, 0x0B0C), (0x0B0F, 0x0B10), (0x0B13, 0x0B28), (0x0B2A, 0x0B30),
   (0x0B32, 0x0B33), (0x0B35, 0x0B39), (0x0B3C, 0x0B44), (0x0B47, 0x0B48), (0x0B4B, 0x0B4D),
   (0x0B55, 0x0B57), (0x0B5C, 0x0B5D), (0x0B5F, 0x0B63), (0x0B66, 0x0B77), (0x0B82, 0x0B83),
   (0x0B85, 0x0B8A), (0x0B8E, 0x0B90), (0x0B92, 0x0B95), (0x0B99, 0x0B9A), (0x0B9C, 0x0B9C),
   (0x0B9E, 0x0B9F), (0x0BA3, 0x0BA4), (0x0BA8, 0x0BAA), (0x0BAE, 0x0BB9), (0x0BBE, 0x0BC2),
   (0x0BC6, 0x0BC8), (0x0BCA, 0x0BCD), (0x0BD0, 0x0BD0), (0x0BD7, 0x0BD7), (0x0BE6, 0x0BFA),
   (0x0C00, 0x0C0C), (0x0C0E, 0x0C10), (0x0C12, 0x0C28), (0x0C2A, 0x0C39), (0x0C3C, 0x0C44),
   (0x0C46, 0x0C48), (0x0C4A, 0x0C4D), (0x0C55, 0x0C56), (0x0C58, 0x0C5A), (0x0C5D, 0x0C5D),
   (0x0C60, 0x0C63), (0x0C66, 0x0C6F), (0x0C77, 0x0C8C), (0x0C8E, 0x0C90), (0x0C92, 0x0CA8),
   (0x0CAA, 0x0CB3), (0x0CB5, 0x0CB9), (0x0CBC, 0x0CC4), (0x0CC6, 0x0CC8), (0x0CCA, 0x0CCD),
   (0x0CD5, 0x0CD6), (0x0CDD, 0x0CDE), (0x0CE0, 0x0CE3), (0x0CE6, 0x0CEF), (0x0CF1, 0x0CF3),
   (0x0D00, 0x0D0C), (0x0D0E, 0x0D10), (0x0D12, 0x0D44), (0x0D46, 0x0D48)]

/-- Printable runes from U+0D4A to U+176C, as ranges with both ends in. -/
def printRanges03 : List (Nat × Nat) :=
  [(0x0D4A, 0x0D4F), (0x0D54, 0x0D63), (0x0D66, 0x0D7F), (0x0D81, 0x0D83), (0x0D85, 0x0D96),
   (0x0D9A, 0x0DB1), (0x0DB3, 0x0DBB), (0x0DBD, 0x0DBD), (0x0DC0, 0x0DC6), (0x0DCA, 0x0DCA),
   (0x0DCF, 0x0DD4), (0x0DD6, 0x0DD6), (0x0DD8, 0x0DDF), (0x0DE6, 0x0DEF), (0x0DF2, 0x0DF4),
   (0x0E01, 0x0E3A), (0x0E3F, 0x0E5B), (0x0E81, 0x0E82), (0x0E84, 0x0E84), (0x0E86, 0x0E8A),
   (0x0E8C, 0x0EA3), (0x0EA5, 0x0EA5), (0x0EA7, 0x0EBD), (0x0EC0, 0x0EC4), (0x0EC6, 0x0EC6),
   (0x0EC8, 0x0ECE), (0x0ED0, 0x0ED9), (0x0EDC, 0x0EDF), (0x0F00, 0x0F47), (0x0F49, 0x0F6C),
   (0x0F71, 0x0F97), (0x0F99, 0x0FBC), (0x0FBE, 0x0FCC), (0x0FCE, 0x0FDA), (0x1000, 0x10C5),
   (0x10C7, 0x10C7), (0x10CD, 0x10CD), (0x10D0, 0x1248), (0x124A, 0x124D), (0x1250, 0x1256),
   (0x1258, 0x1258), (0x125A, 0x125D), (0x1260, 0x1288), (0x128A, 0x128D), (0x1290, 0x12B0),
   (0x12B2, 0x12B5), (0x12B8, 0x12BE), (0x12C0, 0x12C0), (0x12C2, 0x12C5), (0x12C8, 0x12D6),
   (0x12D8, 0x1310), (0x1312, 0x1315), (0x1318, 0x135A), (0x135D, 0x137C), (0x1380, 0x1399),
   (0x13A0, 0x13F5), (0x13F8, 0x13FD), (0x1400, 0x167F), (0x1681, 0x169C), (0x16A0, 0x16F8),
   (0x1700, 0x1715), (0x171F, 0x1736), (0x1740, 0x1753), (0x1760, 0x176C)]

/-- Printable runes from U+176E to U+2CF3, as ranges with both ends in. -/
def printRanges04 : List (Nat × Nat) :=
  [(0x176E, 0x1770), (0x1772, 0x1773), (0x1780, 0x17DD), (0x17E0, 0x17E9), (0x17F0, 0x17F9),
   (0x1800, 0x180D), (0x180F, 0x1819), (0x1820, 0x1878), (0x1880, 0x18AA), (0x18B0, 0x18F5),
   (0x1900, 0x191E), (0x1920, 0x192B), (0x1930, 0x193B), (0x1940, 0x1940), (0x1944, 0x196D),
   (0x1970, 0x1974), (0x1980, 0x19AB), (0x19B0, 0x19C9), (0x19D0, 0x19DA), (0x19DE, 0x1A1B),
   (0x1A1E, 0x1A5E), (0x1A60, 0x1A7C), (0x1A7F, 0x1A89), (0x1A90, 0x1A99), (0x1AA0, 0x1AAD),
   (0x1AB0, 0x1ACE), (0x1B00, 0x1B4C), (0x1B50, 0x1B7E), (0x1B80, 0x1BF3), (0x1BFC, 0x1C37),
   (0x1C3B, 0x1C49), (0x1C4D, 0x1C88), (0x1C90, 0x1CBA), (0x1CBD, 0x1CC7), (0x1CD0, 0x1CFA),
   (0x1D00, 0x1F15), (0x1F18, 0x1F1D), (0x1F20, 0x1F45), (0x1F48, 0x1F4D), (0x1F50, 0x1F57),
   (0x1F59, 0x1F59), (0x1F5B, 0x1F5B), (0x1F5D, 0x1F5D), (0x1F5F, 0x1F7D), (0x1F80, 0x1FB4),
   (0x1FB6, 0x1FC4), (0x1FC6, 0x1FD3), (0x1FD6, 0x1FDB), (0x1FDD, 0x1FEF), (0x1FF2, 0x1FF4),
   (0x1FF6, 0x1FFE), (0x2010, 0x2027), (0x2030, 0x205E), (0x2070, 0x2071), (0x2074, 0x208E),
   (0x2090, 0x209C), (0x20A0, 0x20C0), (0x20D0, 0x20F0), (0x2100, 0x218B), (0x2190, 0x2426),
   (0x2440, 0x244A), (0x2460, 0x2B73), (0x2B76, 0x2B95), (0x2B97, 0x2CF3)]

/-- Printable runes from U+2CF9 to U+FB17, as ranges with both ends in. -/
def printRanges05 : List (Nat × Nat) :=
  [(0x2CF9, 0x2D25), (0x2D27, 0x2D27), (0x2D2D, 0x2D2D), (0x2D30, 0x2D67), (0x2D6F, 0x2D70),
   (0x2D7F, 0x2D96), (0x2DA0, 0x2DA6), (0x2DA8, 0x2DAE), (0x2DB0, 0x2DB6), (0x2DB8, 0x2DBE),
   (0x2DC0, 0x2DC6), (0x2DC8, 0x2DCE), (0x2DD0, 0x2DD6), (0x2DD8, 0x2DDE), (0x2DE0, 0x2E5D),
   (0x2E80, 0x2E99), (0x2E9B, 0x2EF3), (0x2F00, 0x2FD5), (0x2FF0, 0x2FFB), (0x3001, 0x303F),
   (0x3041, 0x3096), (0x3099, 0x30FF), (0x3105, 0x312F), (0x3131, 0x318E), (0x3190, 0x31E3),
   (0x31F0, 0x321E), (0x3220, 0xA48C), (0xA490, 0xA4C6), (0xA4D0, 0xA62B), (0xA640, 0xA6F7),
   (0xA700, 0xA7CA), (0xA7D0, 0xA7D1), (0xA7D3, 0xA7D3), (0xA7D5, 0xA7D9), (0xA7F2, 0xA82C),
   (0xA830, 0xA839), (0xA840, 0xA877), (0xA880, 0xA8C5), (0xA8CE, 0xA8D9), (0xA8E0, 0xA953),
   (0xA95F, 0xA97C), (0xA980, 0xA9CD), (0xA9CF, 0xA9D9), (0xA9DE, 0xA9FE), (0xAA00, 0xAA36),
   (0xAA40, 0xAA4D), (0xAA50, 0xAA59), (0xAA5C, 0xAAC2), (0xAADB, 0xAAF6), (0xAB01, 0xAB06),
   (0xAB09, 0xAB0E), (0xAB11, 0xAB16), (0xAB20, 0xAB26), (0xAB28, 0xAB2E), (0xAB30, 0xAB6B),
   (0xAB70, 0xABED), (0xABF0, 0xABF9), (0xAC00, 0xD7A3), (0xD7B0, 0xD7C6), (0xD7CB, 0xD7FB),
   (0xF900, 0xFA6D), (0xFA70, 0xFAD9), (0xFB00, 0xFB06), (0xFB13, 0xFB17)]

/-- Printable runes from U+FB1D to U+107B0, as ranges with both ends in. -/
def printRanges06 : List (Nat × Nat) :=
  [(0xFB1D, 0xFB36), (0xFB38, 0xFB3C), (0xFB3E, 0xFB3E), (0xFB40, 0xFB41), (0xFB43, 0xFB44),
   (0xFB46, 0xFBC2), (0xFBD3, 0xFD8F), (0xFD92, 0xFDC7), (0xFDCF, 0xFDCF), (0xFDF0, 0xFE19),
   (0xFE20, 0xFE52), (0xFE54, 0xFE66), (0xFE68, 0xFE6B), (0xFE70, 0xFE74), (0xFE76, 0xFEFC),
   (0xFF01, 0xFFBE), (0xFFC2, 0xFFC7), (0xFFCA, 0xFFCF), (0xFFD2, 0xFFD7), (0xFFDA, 0xFFDC),
   (0xFFE0, 0xFFE6), (0xFFE8, 0xFFEE), (0xFFFC, 0xFFFD), (0x10000, 0x1000B), (0x1000D, 0x10026),
   (0x10028, 0x1003A), (0x1003C, 0x1003D), (0x1003F, 0x1004D), (0x10050, 0x1005D),
   (0x10080, 0x100FA), (0x10100, 0x10102), (0x10107, 0x10133), (0x10137, 0x1018E),
   (0x10190, 0x1019C), (0x101A0, 0x101A0), (0x101D0, 0x101FD), (0x10280, 0x1029C),
   (0x102A0, 0x102D0), (0x102E0, 0x102FB), (0x10300, 0x10323), (0x1032D, 0x1034A),
   (0x10350, 0x1037A), (0x10380, 0x1039D), (0x1039F, 0x103C3), (0x103C8, 0x103D5),
   (0x10400, 0x1049D), (0x104A0, 0x104A9), (0x104B0, 0x104D3), (0x104D8, 0x104FB),
   (0x10500, 0x10527), (0x10530, 0x10563), (0x1056F, 0x1057A), (0x1057C, 0x1058A),
   (0x1058C, 0x10592), (0x10594, 0x10595), (0x10597, 0x105A1), (0x105A3, 0x105B1),
   (0x105B3, 0x105B9), (0x105BB, 0x105BC), (0x10600, 0x10736), (0x10740, 0x10755),
   (0x10760, 0x10767), (0x10780, 0x10785), (0x10787, 0x107B0)]

/-- Printable runes from U+107B2 to U+1129D, as ranges with both ends in. -/
def printRanges07 : List (Nat × Nat) :=
  [(0x107B2, 0x107BA), (0x10800, 0x10805), (0x10808, 0x10808), (0x1080A, 0x10835),
   (0x10837, 0x10838), (0x1083C, 0x1083C), (0x1083F, 0x10855), (0x10857, 0x1089E),
   (0x108A7, 0x108AF), (0x108E0, 0x108F2), (0x108F4, 0x108F5), (0x108FB, 0x1091B),
   (0x1091F, 0x10939), (0x1093F, 0x1093F), (0x10980, 0x109B7), (0x109BC, 0x109CF),
   (0x109D2, 0x10A03), (0x10A05, 0x10A06), (0x10A0C, 0x10A13), (0x10A15, 0x10A17),
   (0x10A19, 0x10A35), (0x10A38, 0x10A3A), (0x10A3F, 0x10A48), (0x10A50, 0x10A58),
   (0x10A60, 0x10A9F), (0x10AC0, 0x10AE6), (0x10AEB, 0x10AF6), (0x10B00, 0x10B35),
   (0x10B39, 0x10B55), (0x10B58, 0x10B72), (0x10B78, 0x10B91), (0x10B99, 0x10B9C),
   (0x10BA9, 0x10BAF), (0x10C00, 0x10C48), (0x10C80, 0x10CB2), (0x10CC0, 0x10CF2),
   (0x10CFA, 0x10D27), (0x10D30, 0x10D39), (0x10E60, 0x10E7E), (0x10E80, 0x10EA9),
   (0x10EAB, 0x10EAD), (0x10EB0, 0x10EB1), (0x10EFD, 0x10F27), (0x10F30, 0x10F59),
   (0x10F70, 0x10F89), (0x10FB0, 0x10FCB), (0x10FE0, 0x10FF6), (0x11000, 0x1104D),
   (0x11052, 0x11075), (0x1107F, 0x110BC), (0x110BE, 0x110C2), (0x110D0, 0x110E8),
   (0x110F0, 0x110F9), (0x11100, 0x11134), (0x11136, 0x11147), (0x11150, 0x11176),
   (0x11180, 0x111DF), (0x111E1, 0x111F4), (0x11200, 0x11211), (0x11213, 0x11241),
   (0x11280, 0x11286), (0x11288, 0x11288), (0x1128A, 0x1128D), (0x1128F, 0x1129D)]

/-- Printable runes from U+1129F to U+11D65, as ranges with both ends in. -/
def printRanges08 : List (Nat × Nat) :=
  [(0x1129F, 0x112A9), (0x112B0, 0x112EA), (0x112F0, 0x112F9), (0x11300, 0x11303),
   (0x11305, 0x1130C), (0x1130F, 0x11310), (0x11313, 0x11328), (0x1132A, 0x11330),
   (0x11332, 0x11333), (0x11335, 0x11339), (0x1133B, 0x11344), (0x11347, 0x11348),
   (0x1134B, 0x1134D), (0x11350, 0x11350), (0x11357, 0x11357), (0x1135D, 0x11363),
   (0x11366, 0x1136C), (0x11370, 0x11374), (0x11400, 0x1145B), (0x1145D, 0x11461),
   (0x11480, 0x114C7), (0x114D0, 0x114D9), (0x11580, 0x115B5), (0x115B8, 0x115DD),
   (0x11600, 0x11644), (0x11650, 0x11659), (0x11660, 0x1166C), (0x11680, 0x116B9),
   (0x116C0, 0x116C9), (0x11700, 0x1171A), (0x1171D, 0x1172B), (0x11730, 0x11746),
   (0x11800, 0x1183B), (0x118A0, 0x118F2), (0x118FF, 0x11906), (0x11909, 0x11909),
   (0x1190C, 0x11913), (0x11915, 0x11916), (0x11918, 0x11935), (0x11937, 0x11938),
   (0x1193B, 0x11946), (0x11950, 0x11959), (0x119A0, 0x119A7), (0x119AA, 0x119D7),
   (0x119DA, 0x119E4), (0x11A00, 0x11A47), (0x11A50, 0x11AA2), (0x11AB0, 0x11AF8),
   (0x11B00, 0x11B09), (0x11C00, 0x11C08), (0x11C0A, 0x11C36), (0x11C38, 0x11C45),
   (0x11C50, 0x11C6C), (0x11C70, 0x11C8F), (0x11C92, 0x11CA7), (0x11CA9, 0x11CB6),
   (0x11D00, 0x11D06), (0x11D08, 0x11D09), (0x11D0B, 0x11D36), (0x11D3A, 0x11D3A),
   (0x11D3C, 0x11D3D), (0x11D3F, 0x11D47), (0x11D50, 0x11D59), (0x11D60, 0x11D65)]

/-- Printable runes from U+11D67 to U+1D2F3, as ranges with both ends in. -/
def printRanges09 : List (Nat × Nat) :=
  [(0x11D67, 0x11D68), (0x11D6A, 0x11D8E), (0x11D90, 0x11D91), (0x11D93, 0x11D98),
   (0x11DA0, 0x11DA9), (0x11EE0, 0x11EF8), (0x11F00, 0x11F10), (0x11F12, 0x11F3A),
   (0x11F3E, 0x11F59), (0x11FB0, 0x11FB0), (0x11FC0, 0x11FF1), (0x11FFF, 0x12399),
   (0x12400, 0x1246E), (0x12470, 0x12474), (0x12480, 0x12543), (0x12F90, 0x12FF2),
   (0x13000, 0x1342F), (0x13440, 0x13455), (0x14400, 0x14646), (0x16800, 0x16A38),
   (0x16A40, 0x16A5E), (0x16A60, 0x16A69), (0x16A6E, 0x16ABE), (0x16AC0, 0x16AC9),
   (0x16AD0, 0x16AED), (0x16AF0, 0x16AF5), (0x16B00, 0x16B45), (0x16B50, 0x16B59),
   (0x16B5B, 0x16B61), (0x16B63, 0x16B77), (0x16B7D, 0x16B8F), (0x16E40, 0x16E9A),
   (0x16F00, 0x16F4A), (0x16F4F, 0x16F87), (0x16F8F, 0x16F9F), (0x16FE0, 0x16FE4),
   (0x16FF0, 0x16FF1), (0x17000, 0x187F7), (0x18800, 0x18CD5), (0x18D00, 0x18D08),
   (0x1AFF0, 0x1AFF3), (0x1AFF5, 0x1AFFB), (0x1AFFD, 0x1AFFE), (0x1B000, 0x1B122),
   (0x1B132, 0x1B132), (0x1B150, 0x1B152), (0x1B155, 0x1B155), (0x1B164, 0x1B167),
   (0x1B170, 0x1B2FB), (0x1BC00, 0x1BC6A), (0x1BC70, 0x1BC7C), (0x1BC80, 0x1BC88),
   (0x1BC90, 0x1BC99), (0x1BC9C, 0x1BC9F), (0x1CF00, 0x1CF2D), (0x1CF30, 0x1CF46),
   (0x1CF50, 0x1CFC3), (0x1D000, 0x1D0F5), (0x1D100, 0x1D126), (0x1D129, 0x1D172),
   (0x1D17B, 0x1D1EA), (0x1D200, 0x1D245), (0x1D2C0, 0x1D2D3), (0x1D2E0, 0x1D2F3)]

/-- Printable runes from U+1D300 to U+1EE47, as ranges with both ends in. -/
def printRanges10 : List (Nat × Nat) :=
  [(0x1D300, 0x1D356), (0x1D360, 0x1D378), (0x1D400, 0x1D454), (0x1D456, 0x1D49C),
   (0x1D49E, 0x1D49F), (0x1D4A2, 0x1D4A2), (0x1D4A5, 0x1D4A6), (0x1D4A9, 0x1D4AC),
   (0x1D4AE, 0x1D4B9), (0x1D4BB, 0x1D4BB), (0x1D4BD, 0x1D4C3), (0x1D4C5, 0x1D505),
   (0x1D507, 0x1D50A), (0x1D50D, 0x1D514), (0x1D516, 0x1D51C), (0x1D51E, 0x1D539),
   (0x1D53B, 0x1D53E), (0x1D540, 0x1D544), (0x1D546, 0x1D546), (0x1D54A, 0x1D550),
   (0x1D552, 0x1D6A5), (0x1D6A8, 0x1D7CB), (0x1D7CE, 0x1DA8B), (0x1DA9B, 0x1DA9F),
   (0x1DAA1, 0x1DAAF), (0x1DF00, 0x1DF1E), (0x1DF25, 0x1DF2A), (0x1E000, 0x1E006),
   (0x1E008, 0x1E018), (0x1E01B, 0x1E021), (0x1E023, 0x1E024), (0x1E026, 0x1E02A),
   (0x1E030, 0x1E06D), (0x1E08F, 0x1E08F), (0x1E100, 0x1E12C), (0x1E130, 0x1E13D),
   (0x1E140, 0x1E149), (0x1E14E, 0x1E14F), (0x1E290, 0x1E2AE), (0x1E2C0, 0x1E2F9),
   (0x1E2FF, 0x1E2FF), (0x1E4D0, 0x1E4F9), (0x1E7E0, 0x1E7E6), (0x1E7E8, 0x1E7EB),
   (0x1E7ED, 0x1E7EE), (0x1E7F0, 0x1E7FE), (0x1E800, 0x1E8C4), (0x1E8C7, 0x1E8D6),
   (0x1E900, 0x1E94B), (0x1E950, 0x1E959), (0x1E95E, 0x1E95F), (0x1EC71, 0x1ECB4),
   (0x1ED01, 0x1ED3D), (0x1EE00, 0x1EE03), (0x1EE05, 0x1EE1F), (0x1EE21, 0x1EE22),
   (0x1EE24, 0x1EE24), (0x1EE27, 0x1EE27), (0x1EE29, 0x1EE32), (0x1EE34, 0x1EE37),
   (0x1EE39, 0x1EE39), (0x1EE3B, 0x1EE3B), (0x1EE42, 0x1EE42), (0x1EE47, 0x1EE47)]

/-- Printable runes from U+1EE49 to U+2CEA1, as ranges with both ends in. -/
def printRanges11 : List (Nat × Nat) :=
  [(0x1EE49, 0x1EE49), (0x1EE4B, 0x1EE4B), (0x1EE4D, 0x1EE4F), (0x1EE51, 0x1EE52),
   (0x1EE54, 0x1EE54), (0x1EE57, 0x1EE57), (0x1EE59, 0x1EE59), (0x1EE5B, 0x1EE5B),
   (0x1EE5D, 0x1EE5D), (0x1EE5F, 0x1EE5F), (0x1EE61, 0x1EE62), (0x1EE64, 0x1EE64),
   (0x1EE67, 0x1EE6A), (0x1EE6C, 0x1EE72), (0x1EE74, 0x1EE77), (0x1EE79, 0x1EE7C),
   (0x1EE7E, 0x1EE7E), (0x1EE80, 0x1EE89), (0x1EE8B, 0x1EE9B), (0x1EEA1, 0x1EEA3),
   (0x1EEA5, 0x1EEA9), (0x1EEAB, 0x1EEBB), (0x1EEF0, 0x1EEF1), (0x1F000, 0x1F02B),
   (0x1F030, 0x1F093), (0x1F0A0, 0x1F0AE), (0x1F0B1, 0x1F0BF), (0x1F0C1, 0x1F0CF),
   (0x1F0D1, 0x1F0F5), (0x1F100, 0x1F1AD), (0x1F1E6, 0x1F202), (0x1F210, 0x1F23B),
   (0x1F240, 0x1F248), (0x1F250, 0x1F251), (0x1F260, 0x1F265), (0x1F300, 0x1F6D7),
   (0x1F6DC, 0x1F6EC), (0x1F6F0, 0x1F6FC), (0x1F700, 0x1F776), (0x1F77B, 0x1F7D9),
   (0x1F7E0, 0x1F7EB), (0x1F7F0, 0x1F7F0), (0x1F800, 0x1F80B), (0x1F810, 0x1F847),
   (0x1F850, 0x1F859), (0x1F860, 0x1F887), (0x1F890, 0x1F8AD), (0x1F8B0, 0x1F8B1),
   (0x1F900, 0x1FA53), (0x1FA60, 0x1FA6D), (0x1FA70, 0x1FA7C), (0x1FA80, 0x1FA88),
   (0x1FA90, 0x1FABD), (0x1FABF, 0x1FAC5), (0x1FACE, 0x1FADB), (0x1FAE0, 0x1FAE8),
   (0x1FAF0, 0x1FAF8), (0x1FB00, 0x1FB92), (0x1FB94, 0x1FBCA), (0x1FBF0, 0x1FBF9),
   (0x20000, 0x2A6DF), (0x2A700, 0x2B739), (0x2B740, 0x2B81D), (0x2B820, 0x2CEA1)]

/-- Printable runes from U+2CEB0 to U+E01EF, as ranges with both ends in. -/
def printRanges12 : List (Nat × Nat) :=
  [(0x2CEB0, 0x2EBE0), (0x2F800, 0x2FA1D), (0x30000, 0x3134A), (0x31350, 0x323AF),
   (0xE0100, 0xE01EF)]

/-- The printable runes above U+00FF: the letters, marks, numbers, punctuation
and symbols of Unicode 15.0, which the tables of `strconv` hold, as tables of
ranges in increasing order. -/
def printTables : List (List (Nat × Nat)) :=
  [printRanges01, printRanges02, printRanges03, printRanges04, printRanges05, printRanges06,
   printRanges07, printRanges08, printRanges09, printRanges10, printRanges11, printRanges12]

/-- Whether `r` is in one of the ranges. -/
def inRanges (ranges : List (Nat × Nat)) (r : Nat) : Bool :=
  ranges.any (fun p => decide (p.1 ≤ r ∧ r ≤ p.2))

/-- The library function `strconv.IsPrint`: whether Go takes the rune as
printable, that is a letter, mark, number, punctuation or symbol, or the ASCII
space. Latin-1 is tested as the library tests it; above it the library searches
its tables, here the ranges of `printTables`. -/
def strconvIsPrint (c : Char) : Bool :=
  let r := c.toNat
  if r ≤ 0xFF then
    if 0x20 ≤ r ∧ r ≤ 0x7E then true
    else if 0xA1 ≤ r then decide (r ≠ 0xAD)
    else false
  else printTables.any (fun table => inRanges table r)

/-- One lower-case hexadecimal digit. -/
def hexDigit (n : Nat) : Char :=
  if n < 10 then Char.ofNat (48 + n) else Char.ofNat (87 + n)

/-- The last `width` lower-case hexadecimal digits of `n`. -/
def hexDigits (width n : Nat) : List Char :=
  (List.range width).reverse.map (fun i => hexDigit (n / 16 ^ i % 16))

/-- The escape `strconv.Quote` writes for one rune (`appendEscapedRune`): the
double quote and the backslash get a backslash, a printable rune is written as
it is, and any other rune is escaped: by its letter, by `\x` and two digits
below the space and at U+007F, by `\u` and four digits below U+10000, by `\U`
and eight digits from there. -/
def quoteRune (c : Char) : String :=
  let n := c.toNat
  if n = 34 then "\\\""
  else if n = 92 then "\\\\"
  else if strconvIsPrint c then String.mk [c]
  else if n = 7 then "\\a"
  else if n = 8 then "\\b"
  else if n = 12 then "\\f"
  else if n = 10 then "\\n"
  else if n = 13 then "\\r"
  else if n = 9 then "\\t"
  else if n = 11 then "\\v"
  else if n < 32 ∨ n = 127 then "\\x" ++ String.mk (hexDigits 2 n)
  else if n < 0x10000 then "\\u" ++ String.mk (hexDigits 4 n)
  else "\\U" ++ String.mk (hexDigits 8 n)

/-- The verb `%q` applied to a string (`strconv.Quote`). -/
def fmtQuote (s : String) : String :=
  "\"" ++ String.join (s.toList.map quoteRune) ++ "\""

/-! ## Library: `github.com/juju/utils/set` -/

/-- A `set.Strings`, held as the list of its members without repetition. The
order of the list is not observable through the operations below other than
through `SortedValues`, which sorts. -/
abbrev Strings := List String

/-- The method `Add`. -/
def Strings.Add (s : Strings) (value : String) : Strings :=
  if value ∈ s then s else s ++ [value]

/-- The constructor `set.NewStrings(initial...)`. -/
def NewStrings (initial : List String) : Strings :=
  initial.foldl Strings.Add []

/-- The method `Union`: a fresh set holding the members of both. -/
def Strings.Union (s other : Strings) : Strings :=
  other.foldl Strings.Add (s.foldl Strings.Add [])

/-- The method `Difference`: the members of `s` that are not in `other`. -/
def Strings.Difference (s other : Strings) : Strings :=
  s.filter (fun value => decide (value ∉ other))

/-- The method `SortedValues`: the members in the order of `sort.Strings`, which
compares byte-wise; on UTF-8 text that is the order of the code points. -/
def Strings.SortedValues (s : Strings) : List String :=
  s.insertionSort (fun a b => a.toList ≤ b.toList)

/-- The function `errors.Annotate(err, message)` (and `Annotatef`): the message
is put before the text of the error, with a colon; the cause is unchanged. -/
def Annotate (err : Err) (message : String) : Err :=
  { msg := message ++ ": " ++ err.msg, notValid := err.notValid }

/-! ## Untyped documents -/

mutual
/-- A value of a decoded document (`interface{}`): nil, an integer, a string, a
sequence, a map with string keys, or any other value, kept as the text that the
verbs `%T(%#v)` write for it. -/
inductive Value where
  | nothing
  | int (n : Int)
  | str (s : String)
  | list (items : Values)
  | map (entries : Entries)
  | other (text : String)
/-- A sequence of values (`[]interface{}`). -/
inductive Values where
  | nil
  | cons (head : Value) (tail : Values)
/-- A map from strings to values (`map[string]interface{}`), as the list of its
entries; a lookup takes the first entry with the key. -/
inductive Entries where
  | nil
  | cons (key : String) (value : Value) (rest : Entries)
end

deriving instance DecidableEq for Value, Values, Entries

/-- The map with the given entries. -/
def Entries.ofList : List (String × Value) → Entries
  | [] => .nil
  | (k, v) :: rest => .cons k v (Entries.ofList rest)

/-- The entries of the map, as a list. -/
def Entries.toList : Entries → List (String × Value)
  | .nil => []
  | .cons k v rest => (k, v) :: rest.toList

/-- The index expression `m[key]` with its `ok` result. -/
def Entries.lookup (key : String) : Entries → Option Value
  | .nil => none
  | .cons k v rest => if k = key then some v else rest.lookup key

/-- The type assertion `v.(string)` where the schema check has left a string (the
empty string stands for the case that cannot occur). -/
def Value.asString : Value → String
  | .str s => s
  | _ => ""

/-- The type assertion `v.(map[string]interface{})` where the schema check has
left a map (the empty map stands for the case that cannot occur). -/
def Value.asMap : Value → Entries
  | .map entries => entries
  | _ => .nil

/-! ## `version/version.go` -/

namespace version

/-- The struct `Number`. -/
structure Number where
  Major : Int := 0
  Minor : Int := 0
  Patch : Int := 0
  Build : Int := 0
deriving DecidableEq

/-- The zero value of `Number`, which the tests name `version.Zero`. -/
def Zero : Number := {}

/-- The group `\d{1,9}` at the start of the text, when what follows it is not a
digit: the longest run of ASCII digits, if it has 1 to 9 of them, and the rest.
Every group of `numberPat` is followed by a dot or by the end of the text, so a
shorter run never leads to a match. -/
def digitGroup (cs : List Char) : Option (List Char × List Char) :=
  let digits := cs.takeWhile Char.isDigit
  if 1 ≤ digits.length ∧ digits.length ≤ 9 then some (digits, cs.dropWhile Char.isDigit)
  else none

/-- The call `numberPat.FindStringSubmatch(s)` for the pattern
`^(\d{1,9})\.(\d{1,9})\.(\d{1,9})(\.\d{1,9})?$`: the four groups of the match,
the fourth empty when the build part is not there. -/
def numberPatSubmatch (s : String) : Option (String × String × String × String) :=
  match digitGroup s.toList with
  | some (g1, c1 :: r1) =>
    if c1 = '.' then
      match digitGroup r1 with
      | some (g2, c2 :: r2) =>
        if c2 = '.' then
          match digitGroup r2 with
          | some (g3, []) => some (String.mk g1, String.mk g2, String.mk g3, "")
          | some (g3, c3 :: r3) =>
            if c3 = '.' then
              match digitGroup r3 with
              | some (g4, []) =>
                some (String.mk g1, String.mk g2, String.mk g3, String.mk (c3 :: g4))
              | _ => none
            else none
          | none => none
        else none
      | _ => none
    else none
  | _ => none

/-- The function `atoi` on a text of decimal digits: its value. -/
def atoi (s : String) : Int :=
  s.toList.foldl (fun n c => 10 * n + (Int.ofNat c.toNat - 48)) 0

/-- The function `Parse`: the pair of results, the number (the zero `Number` with
an error) and the error (or nil). -/
def Parse (s : String) : Number × Option Err :=
  match numberPatSubmatch s with
  | none => ({}, some (Errorf ("invalid version " ++ fmtQuote s)))
  | some (m1, m2, m3, m4) =>
    ({ Major := atoi m1, Minor := atoi m2, Patch := atoi m3,
       Build := if m4 ≠ "" then atoi (String.mk (m4.toList.drop 1)) else 0 }, none)

/-- The method `Number.String`: major, minor and patch with dots, and the build
after one more dot when it is greater than zero. -/
def Number.String (v : Number) : String :=
  let s := fmtInt v.Major ++ "." ++ fmtInt v.Minor ++ "." ++ fmtInt v.Patch
  if v.Build > 0 then s ++ ("." ++ fmtInt v.Build) else s

/-- The method `Number.Less`. -/
def Number.Less (v w : Number) : Bool :=
  if v.Major ≠ w.Major then decide (v.Major < w.Major)
  else if v.Minor ≠ w.Minor then decide (v.Minor < w.Minor)
  else if v.Patch ≠ w.Patch then decide (v.Patch < w.Patch)
  else if v.Build ≠ w.Build then decide (v.Build < w.Build)
  else false

/-- The function `isOdd`: `x%2 != 0`, with the remainder of Go, which has the
sign of `x`. -/
def isOdd (x : Int) : Bool := decide (x.tmod 2 ≠ 0)

/-- The method `Number.IsDev`. -/
def Number.IsDev (v : Number) : Bool :=
  isOdd v.Major || isOdd v.Minor || isOdd v.Patch || decide (v.Build > 0)

/-- The struct `Binary`: a `Number` with a series and an architecture. -/
structure Binary extends Number where
  Series : String := ""
  Arch : String := ""
deriving DecidableEq

/-- The method `Binary.String`: the number (the verb `%v` writes it with
`Number.String`), the series and the architecture, with hyphens. -/
def Binary.String (v : Binary) : String :=
  v.toNumber.String ++ "-" ++ v.Series ++ "-" ++ v.Arch

/-- The group `[^-]+` at the start of the text, when what follows it is a hyphen
or the end: the longest run of characters other than the hyphen, if it is not
empty, and the rest. -/
def hyphenFreeGroup (cs : List Char) : Option (List Char × List Char) :=
  let run := cs.takeWhile (fun c => c ≠ '-')
  if run ≠ [] then some (run, cs.dropWhile (fun c => c ≠ '-')) else none

/-- The end `-([^-]+)-([^-]+)$` of `binaryPat`: the two groups. -/
def seriesArchSubmatch (cs : List Char) : Option (String × String) :=
  match cs with
  | c :: r =>
    if c = '-' then
      match hyphenFreeGroup r with
      | some (series, c2 :: r2) =>
        if c2 = '-' then
          match hyphenFreeGroup r2 with
          | some (arch, []) => some (String.mk series, String.mk arch)
          | _ => none
        else none
      | _ => none
    else none
  | [] => none

/-- The call `binaryPat.FindStringSubmatch(s)` for the pattern
`^(\d{1,9})\.(\d{1,9})\.(\d{1,9})(\.\d{1,9})?-([^-]+)-([^-]+)$`: the six groups
of the match, the fourth empty when the build part is not there. -/
def binaryPatSubmatch (s : String) :
    Option (String × String × String × String × String × String) :=
  match digitGroup s.toList with
  | some (g1, c1 :: r1) =>
    if c1 = '.' then
      match digitGroup r1 with
      | some (g2, c2 :: r2) =>
        if c2 = '.' then
          match digitGroup r2 with
          | some (g3, c3 :: r3) =>
            if c3 = '.' then
              match digitGroup r3 with
              | some (g4, r4) =>
                match seriesArchSubmatch r4 with
                | some (series, arch) =>
                  some (String.mk g1, String.mk g2, String.mk g3, String.mk (c3 :: g4),
                    series, arch)
                | none => none
              | none => none
            else
              match seriesArchSubmatch (c3 :: r3) with
              | some (series, arch) =>
                some (String.mk g1, String.mk g2, String.mk g3, "", series, arch)
              | none => none
          | _ => none
        else none
      | _ => none
    else none
  | _ => none

/-- The function `ParseBinary`: the pair of results, the binary version (the zero
`Binary` with an error) and the error (or nil). -/
def ParseBinary (s : String) : Binary × Option Err :=
  match binaryPatSubmatch s with
  | none => ({}, some (Errorf ("invalid binary version " ++ fmtQuote s)))
  | some (m1, m2, m3, m4, m5, m6) =>
    ({ Major := atoi m1, Minor := atoi m2, Patch := atoi m3,
       Build := if m4 ≠ "" then atoi (String.mk (m4.toList.drop 1)) else 0,
       Series := m5, Arch := m6 }, none)

/-- The function `MustParse`: the number of `Parse`; none is the panic on an
error. -/
def MustParse (s : String) : Option Number :=
  match Parse s with
  | (_, some _) => none
  | (v, none) => some v

/-- The library function `strconv.Atoi` for an `int` of `intSize` bits: the value
of an optional sign and decimal digits; none is its error, when there is no
digit, when a character is not a digit or when the value is out of range. -/
def strconvAtoi (intSize : Nat) (s : String) : Option Int :=
  let unsigned : Bool × List Char :=
    match s.toList with
    | c :: rest => if c = '-' then (true, rest) else if c = '+' then (false, rest)
      else (false, c :: rest)
    | [] => (false, [])
  if unsigned.2 = [] ∨ unsigned.2.all Char.isDigit = false then none
  else
    let n : Int := unsigned.2.foldl (fun n c => 10 * n + (Int.ofNat c.toNat - 48)) 0
    let v : Int := if unsigned.1 then -n else n
    if -(2 ^ (intSize - 1)) ≤ v ∧ v < 2 ^ (intSize - 1) then some v else none

/-- The function `atoi` with its panic kept: none is the panic on an error of
`strconv.Atoi`. -/
def atoiOrPanic (intSize : Nat) (s : String) : Option Int :=
  strconvAtoi intSize s

/-- The function `Parse` with the panic of `atoi` kept: none is a panic. -/
def ParseOrPanic (intSize : Nat) (s : String) : Option (Number × Option Err) :=
  match numberPatSubmatch s with
  | none => some ({}, some (Errorf ("invalid version " ++ fmtQuote s)))
  | some (m1, m2, m3, m4) =>
    match atoiOrPanic intSize m1, atoiOrPanic intSize m2, atoiOrPanic intSize m3,
      (if m4 ≠ "" then atoiOrPanic intSize (String.mk (m4.toList.drop 1)) else some 0) with
    | some major, some minor, some patch, some build =>
      some ({ Major := major, Minor := minor, Patch := patch, Build := build }, none)
    | _, _, _, _ => none

/-- The function `ParseBinary` with the panic of `atoi` kept: none is a panic. -/
def ParseBinaryOrPanic (intSize : Nat) (s : String) : Option (Binary × Option Err) :=
  match binaryPatSubmatch s with
  | none => some ({}, some (Errorf ("invalid binary version " ++ fmtQuote s)))
  | some (m1, m2, m3, m4, m5, m6) =>
    match atoiOrPanic intSize m1, atoiOrPanic intSize m2, atoiOrPanic intSize m3,
      (if m4 ≠ "" then atoiOrPanic intSize (String.mk (m4.toList.drop 1)) else some 0) with
    | some major, some minor, some patch, some build =>
      some ({ Major := major, Minor := minor, Patch := patch, Build := build,
              Series := m5, Arch := m6 }, none)
    | _, _, _, _ => none

end version

/-! ## Entities -/

/-- Modelled from the spec: a port range of `ports.go` (not part of the sources
at hand), with the fields the builder arguments of the tests name. -/
structure portRange where
  UnitName_ : String
  FromPort_ : Int := 0
  ToPort_ : Int := 0
  Protocol_ : String := ""
deriving DecidableEq

/-- Modelled from the spec: a network-port assignment of `ports.go` (not part of
the sources at hand): a network name and its open port ranges. -/
structure networkPorts where
  NetworkName_ : String := ""
  OpenPorts_ : List portRange := []
deriving DecidableEq

/-- Modelled from the spec: a machine of `machine.go` (not part of the sources at
hand): its id and its network-port assignments. -/
structure machine where
  Id_ : String
  NetworkPorts_ : List networkPorts := []
deriving DecidableEq

/-- Modelled from the spec: a unit of `unit.go` (not part of the sources at
hand): its name and the id of the machine it is on. -/
structure unit where
  Name_ : String
  Machine_ : String := ""
deriving DecidableEq

/-- Modelled from the spec: a service of `service.go` (not part of the sources at
hand): its name and its units. -/
structure service where
  Name_ : String
  Units_ : List unit := []
deriving DecidableEq

/-- Modelled from the spec: an endpoint of `relation.go` (not part of the sources
at hand): the service it belongs to, its name, and the settings held for each
unit name (the keys of a Go map, so each unit name has one entry). -/
structure endpoint where
  ServiceName_ : String
  Name_ : String := ""
  UnitSettings_ : List (String × List (String × String)) := []
deriving DecidableEq

/-- Modelled from the spec: a relation of `relation.go` (not part of the sources
at hand): its id, its key and its endpoints. -/
structure relation where
  Id_ : Int
  Key_ : String := ""
  Endpoints_ : List endpoint := []
deriving DecidableEq

/-- Modelled from the spec: a user of `user.go` (not part of the sources at hand):
its name and the name of its creator. -/
structure user where
  Name_ : String
  CreatedBy_ : String := ""
deriving DecidableEq

/-- The `model` struct of `model.go`: the owner, the machines, services,
relations and users in insertion order (each collection of format version 1),
the format version, the configuration map, the latest tools version and the
annotations. -/
structure model where
  Owner_ : String
  Machines_ : List machine := []
  Services_ : List service := []
  Relations_ : List relation := []
  Version : Int := 1
  Config_ : Entries := .nil
  LatestToolsVersion_ : version.Number := version.Zero
  Users_ : List user := []
  Annotations_ : List (String × String) := []
deriving DecidableEq

/-- Modelled from the spec: `machine.Validate` of `machine.go` (not part of the
sources at hand): the id must be non-empty, else a not-valid error. -/
def machine.Validate (m : machine) : Option Err :=
  if m.Id_ = "" then some (NotValidf "machine missing id") else none

/-- Modelled from the spec: `service.Validate` of `service.go` (not part of the
sources at hand): the name must be non-empty, else a not-valid error. -/
def service.Validate (s : service) : Option Err :=
  if s.Name_ = "" then some (NotValidf "service missing name") else none

/-- Modelled from the spec: `service.unitNames` of `service.go` (not part of the
sources at hand): the set of the names of the units the service owns. -/
def service.unitNames (s : service) : Strings :=
  NewStrings (s.Units_.map unit.Name_)

/-- Modelled from the spec: `endpoint.unitNames` of `relation.go` (not part of
the sources at hand): the set of unit names that have settings. -/
def endpoint.unitNames (ep : endpoint) : Strings :=
  NewStrings (ep.UnitSettings_.map Prod.fst)

/-! ## `model.go` -/

/-- The method `model.service`: the first service, in insertion order, with the
given name. -/
def model.service (m : model) (name : String) : Option service :=
  m.Services_.find? (fun s => decide (s.Name_ = name))

/-- The two inner loops of `Validate` for one machine: every unit name of every
open port range of every network-port assignment is added to the set. -/
def machine.addOpenPortUnits (mc : machine) (acc : Strings) : Strings :=
  mc.NetworkPorts_.foldl
    (fun acc np => np.OpenPorts_.foldl (fun acc pr => acc.Add pr.UnitName_) acc) acc

/-- The loop of `Validate` over the machines: stops at the first machine that
fails its own validation, else yields the unit names with open ports. -/
def validateMachines : List machine → Strings → Except Err Strings
  | [], unitsWithOpenPorts => .ok unitsWithOpenPorts
  | mc :: rest, unitsWithOpenPorts =>
    match mc.Validate with
    | some err => .error (Trace err)
    | none => validateMachines rest (mc.addOpenPortUnits unitsWithOpenPorts)

/-- The loop of `Validate` over the services: stops at the first service that
fails its own validation, else yields the union of the unit names. -/
def validateServices : List service → Strings → Except Err Strings
  | [], allUnits => .ok allUnits
  | s :: rest, allUnits =>
    match s.Validate with
    | some err => .error (Trace err)
    | none => validateServices rest (allUnits.Union s.unitNames)

/-- The body of the inner loop of `validateRelations` for one endpoint of one
relation; `none` when the loop goes on. -/
def model.validateEndpoint (m : model) (rel : relation) (ep : endpoint) : Option Err :=
  match m.service ep.ServiceName_ with
  | none =>
    some (Errorf ("unknown service " ++ fmtQuote ep.ServiceName_ ++
      " for relation id " ++ fmtInt rel.Id_))
  | some service =>
    let serviceUnits := service.unitNames
    let epUnits := ep.unitNames
    let missingSettings := serviceUnits.Difference epUnits
    if missingSettings.length > 0 then
      some (Errorf ("missing relation settings for units " ++
        fmtStrings missingSettings.SortedValues ++ " in relation " ++ fmtInt rel.Id_))
    else
      let extraSettings := epUnits.Difference serviceUnits
      if extraSettings.length > 0 then
        some (Errorf ("settings for unknown units " ++
          fmtStrings extraSettings.SortedValues ++ " in relation " ++ fmtInt rel.Id_))
      else none

/-- A loop whose body returns from the function at the first error. -/
def firstError {α : Type} (body : α → Option Err) : List α → Option Err
  | [] => none
  | x :: rest =>
    match body x with
    | some err => some err
    | none => firstError body rest

/-- The method `model.validateRelations`. -/
def model.validateRelations (m : model) : Option Err :=
  firstError (fun rel => firstError (fun ep => m.validateEndpoint rel ep) rel.Endpoints_)
    m.Relations_

/-- The method `model.Validate`. -/
def model.Validate (m : model) : Option Err :=
  if m.Owner_ = "" then some (NotValidf "missing model owner")
  else
    match validateMachines m.Machines_ (NewStrings []) with
    | .error err => some err
    | .ok unitsWithOpenPorts =>
      match validateServices m.Services_ (NewStrings []) with
      | .error err => some err
      | .ok allUnits =>
        let unknownUnitsWithPorts := unitsWithOpenPorts.Difference allUnits
        if unknownUnitsWithPorts.length > 0 then
          some (Errorf ("unknown unit names in open ports: " ++
            fmtStrings unknownUnitsWithPorts.SortedValues))
        else m.validateRelations

/-! ## Builders -/

/-- The struct `ModelArgs`: the id of the owner tag (empty for the zero tag), the
configuration map and the latest tools version. -/
structure ModelArgs where
  Owner : String := ""
  Config : Entries := .nil
  LatestToolsVersion : version.Number := version.Zero

/-- The function `NewModel`: version 1, the owner, the configuration and the
latest tools version of the arguments, and empty collections. -/
def NewModel (args : ModelArgs) : model :=
  { Version := 1, Owner_ := args.Owner, Config_ := args.Config,
    LatestToolsVersion_ := args.LatestToolsVersion,
    Users_ := [], Machines_ := [], Services_ := [], Relations_ := [] }

/-- Modelled from the spec: the arguments of `AddService` (`service.go` is not
part of the sources at hand): the id of the service tag, empty for the zero
tag. -/
structure ServiceArgs where
  Name : String := ""

/-- Modelled from the spec: the arguments of `AddUnit` (`unit.go` is not part of
the sources at hand): the id of the unit tag and of the machine tag. -/
structure UnitArgs where
  Name : String := ""
  Machine : String := ""

/-- Modelled from the spec: `newService` of `service.go` (not part of the sources
at hand): a service with the name of the arguments and no unit. -/
def newService (args : ServiceArgs) : service := { Name_ := args.Name, Units_ := [] }

/-- Modelled from the spec: `service.AddUnit` of `service.go` (not part of the
sources at hand): the new unit is appended to the units of the service. -/
def service.AddUnit (s : service) (args : UnitArgs) : service :=
  { s with Units_ := s.Units_ ++ [{ Name_ := args.Name, Machine_ := args.Machine }] }

/-- The method `model.AddService`: the new service is appended; the result is
the model after the call and the service the call returns. -/
def model.AddService (m : model) (args : ServiceArgs) : model × migration.service :=
  let service := newService args
  ({ m with Services_ := m.Services_ ++ [service] }, service)

/-- A method call through the handle that the latest `AddService` returned: the
handle points at the last service of the model, which the call changes in
place. -/
def model.onLastService (m : model) (call : migration.service → migration.service) :
    model :=
  match m.Services_.getLast? with
  | none => m
  | some s => { m with Services_ := m.Services_.dropLast ++ [call s] }

/-- The calls `AddService(args)` and then `AddUnit` on the returned service for
each of `units`, in order. -/
def model.AddServiceWithUnits (m : model) (args : ServiceArgs) (units : List UnitArgs) : model :=
  (m.AddService args).1.onLastService (fun s => units.foldl service.AddUnit s)

/-! ## Library: `github.com/juju/schema` -/

/-- The text of a value in a schema error: `nothing` for nil, else what the verbs
`%T(%#v)` write. The text for a sequence or a map is left to `goSyntax`. -/
def Value.gotText (goSyntax : Value → String) : Value → String
  | .nothing => "nothing"
  | .int n => "int(" ++ fmtInt n ++ ")"
  | .str s => "string(" ++ fmtQuote s ++ ")"
  | .other text => text
  | v => goSyntax v

/-- The error of a checker that wanted `want` at `path` and got `got`. -/
def schemaError (goSyntax : Value → String) (path want : String) (got : Value) : Err :=
  Errorf (path ++ ": expected " ++ want ++ ", got " ++ got.gotText goSyntax)

/-- The checkers that `importModelV1` uses: `schema.String()`,
`schema.StringMap(schema.Any())` and `schema.StringMap(schema.String())`. -/
inductive Checker where
  | string
  | stringMapAny
  | stringMapString
deriving DecidableEq

/-- The values of a string map checked with `schema.String()`: the error of the
first value that is not a string. Go ranges over the map in no fixed order, so
which of several errors is returned is not fixed there. -/
def coerceStringValues (goSyntax : Value → String) (path : String) : Entries → Option Err
  | .nil => none
  | .cons k v rest =>
    match v with
    | .str _ => coerceStringValues goSyntax path rest
    | _ => some (schemaError goSyntax (path ++ "." ++ k) "string" v)

/-- The method `Coerce` of a checker: the value when it has the wanted shape,
else the error. -/
def Checker.Coerce (goSyntax : Value → String) (c : Checker) (v : Value) (path : String) :
    Except Err Value :=
  match c, v with
  | .string, .str s => .ok (.str s)
  | .string, _ => .error (schemaError goSyntax path "string" v)
  | .stringMapAny, .map entries => .ok (.map entries)
  | .stringMapAny, _ => .error (schemaError goSyntax path "map" v)
  | .stringMapString, .map entries =>
    match coerceStringValues goSyntax path entries with
    | some err => .error err
    | none => .ok (.map entries)
  | .stringMapString, _ => .error (schemaError goSyntax path "map" v)

/-- A field of `schema.Fields` together with its entry in `schema.Defaults`: the
fields of `importModelV1` have either no default or the default `schema.Omit`. -/
structure Field where
  name : String
  checker : Checker
  optional : Bool := false
deriving DecidableEq

/-- The method `Coerce` of `schema.FieldMap(fields, defaults)` on a map with
string keys: every field is looked up and checked; a field that is not there is
left out when its default is `schema.Omit` and is checked as nil otherwise. The
result has the checked fields only. Go ranges over the fields in no fixed order,
so which of several errors is returned is not fixed there. -/
def fieldMapCoerce (goSyntax : Value → String) : List Field → Entries → Except Err Entries
  | [], _ => .ok .nil
  | f :: rest, source =>
    match source.lookup f.name with
    | none =>
      if f.optional then fieldMapCoerce goSyntax rest source
      else .error (schemaError goSyntax f.name (match f.checker with
        | .string => "string" | _ => "map") .nothing)
    | some v =>
      match f.checker.Coerce goSyntax v f.name with
      | .error err => .error err
      | .ok newv =>
        match fieldMapCoerce goSyntax rest source with
        | .error err => .error err
        | .ok out => .ok (.cons f.name newv out)

/-! ## Deserialization (`model.go`) -/

/-- The code that `model.go` calls and that is not part of the sources at hand:
the text `fmt` writes for a composite value, `yaml.Unmarshal` into a map with
string keys, the importers of the four collections (each gives its entities and
an error) and the text of `Name().Canonical()` for a user. -/
structure Collaborators where
  goSyntax : Value → String
  yamlUnmarshal : List Nat → Entries × Option Err
  importUsers : Entries → List user × Option Err
  importMachines : Entries → List machine × Option Err
  importServices : Entries → List service × Option Err
  importRelations : Entries → List relation × Option Err
  canonicalName : user → String

/-- Modelled from the spec: `getVersion` (not part of the sources at hand): the
integer under the top-level key `version`; a format error when the key is not
there or its value is not an integer, with the messages the tests assert. -/
def getVersion (c : Collaborators) (source : Entries) : Except Err Int :=
  match source.lookup "version" with
  | some (.int v) => .ok v
  | some v => .error (schemaError c.goSyntax "version" "int" v)
  | none => .error (schemaError c.goSyntax "version" "int" .nothing)

/-- Modelled from the spec: `addAnnotationSchema` (not part of the sources at
hand): the optional field `annotations`, a map from strings to strings. -/
def addAnnotationSchema (fields : List Field) : List Field :=
  fields ++ [{ name := "annotations", checker := .stringMapString, optional := true }]

/-- Modelled from the spec: `importAnnotations` (not part of the sources at
hand): the entries of the field `annotations`, none when it is not there. -/
def importAnnotations (valid : Entries) : List (String × String) :=
  match valid.lookup "annotations" with
  | some (.map entries) => entries.toList.map (fun kv => (kv.1, kv.2.asString))
  | _ => []

/-- The fields and defaults that `importModelV1` declares, with the annotation
field added: all are required but `latest-tools` and `annotations`. -/
def modelV1Fields : List Field :=
  addAnnotationSchema
    [{ name := "owner", checker := .string },
     { name := "config", checker := .stringMapAny },
     { name := "latest-tools", checker := .string, optional := true },
     { name := "users", checker := .stringMapAny },
     { name := "machines", checker := .stringMapAny },
     { name := "services", checker := .stringMapAny },
     { name := "relations", checker := .stringMapAny }]

/-- The function `importModelV1`: the pair of results, the model (or nil) and
the error (or nil). -/
def importModelV1 (c : Collaborators) (source : Entries) : Option model × Option Err :=
  match fieldMapCoerce c.goSyntax modelV1Fields source with
  | .error err => (none, some (Annotate err "model v1 schema check failed"))
  | .ok valid =>
    let result : model :=
      { Version := 1
        Owner_ := ((valid.lookup "owner").getD .nothing).asString
        Config_ := ((valid.lookup "config").getD .nothing).asMap
        Annotations_ := importAnnotations valid }
    let parsed : Except Err model :=
      match valid.lookup "latest-tools" with
      | some availableTools =>
        match version.Parse availableTools.asString with
        | (_, some err) => .error (Trace err)
        | (num, none) => .ok { result with LatestToolsVersion_ := num }
      | none => .ok result
    match parsed with
    | .error err => (none, some err)
    | .ok result =>
      match c.importUsers ((valid.lookup "users").getD .nothing).asMap with
      | (_, some err) => (none, some (Annotate err "users"))
      | (users, none) =>
        let result := { result with Users_ := users }
        match c.importMachines ((valid.lookup "machines").getD .nothing).asMap with
        | (_, some err) => (none, some (Annotate err "machines"))
        | (machines, none) =>
          let result := { result with Machines_ := machines }
          match c.importServices ((valid.lookup "services").getD .nothing).asMap with
          | (_, some err) => (none, some (Annotate err "services"))
          | (services, none) =>
            let result := { result with Services_ := services }
            match c.importRelations ((valid.lookup "relations").getD .nothing).asMap with
            | (_, some err) => (none, some (Annotate err "relations"))
            | (relations, none) => (some { result with Relations_ := relations }, none)

/-- The table `modelDeserializationFuncs`: version 1 only. -/
def modelDeserializationFuncs (c : Collaborators) (version : Int) :
    Option (Entries → Option model × Option Err) :=
  if version = 1 then some (importModelV1 c) else none

/-- The function `importModel`. -/
def importModel (c : Collaborators) (source : Entries) : Option model × Option Err :=
  match getVersion c source with
  | .error err => (none, some (Trace err))
  | .ok version =>
    match modelDeserializationFuncs c version with
    | none => (none, some (NotValidf ("version " ++ fmtInt version)))
    | some importFunc => importFunc source

/-- The function `DeserializeModel`. -/
def DeserializeModel (c : Collaborators) (bytes : List Nat) : Option model × Option Err :=
  match c.yamlUnmarshal bytes with
  | (_, some err) => (none, some (Trace err))
  | (source, none) =>
    match importModel c source with
    | (_, some err) => (none, some (Trace err))
    | (model, none) => (model, none)

/-! ## Accessors and builders of `model.go` -/

/-- The struct `names.ModelTag`: the uuid it is made from, which is its id. -/
structure ModelTag where
  uuid : String
deriving DecidableEq

/-- The function `names.NewModelTag`. -/
def NewModelTag (uuid : String) : ModelTag := { uuid := uuid }

/-- The method `ModelTag.Id`. -/
def ModelTag.Id (t : ModelTag) : String := t.uuid

/-- The method `model.Tag`: the value under `uuid` in the configuration, cast to
a string with the `ok` result ignored, so the empty string when the key is not
there or the value is not a string. -/
def model.Tag (m : model) : ModelTag :=
  let uuid :=
    match m.Config_.lookup "uuid" with
    | some (.str s) => s
    | _ => ""
  NewModelTag uuid

/-- The method `ByName.Less` on two users. -/
def ByNameLess (c : Collaborators) (a b : user) : Prop :=
  (c.canonicalName a).toList < (c.canonicalName b).toList

instance (c : Collaborators) (a b : user) : Decidable (ByNameLess c a b) := by
  unfold ByNameLess
  infer_instance

/-- The method `model.Users`: a copy of the users, sorted with `sort.Sort` by
`ByName`. The library sort is not stable; it is modelled by insertion, which
puts no user before one that is less. -/
def model.Users (c : Collaborators) (m : model) : List user :=
  m.Users_.insertionSort (fun a b => ¬ ByNameLess c b a)

/-- Modelled from the spec: the arguments of `AddUser` (`user.go` is not part of
the sources at hand): the name of the user and of its creator. -/
structure UserArgs where
  Name : String := ""
  CreatedBy : String := ""

/-- Modelled from the spec: `newUser` of `user.go` (not part of the sources at
hand). -/
def newUser (args : UserArgs) : user := { Name_ := args.Name, CreatedBy_ := args.CreatedBy }

/-- The method `model.AddUser`. -/
def model.AddUser (m : model) (args : UserArgs) : model :=
  { m with Users_ := m.Users_ ++ [newUser args] }

/-- The method `model.Machines`: a copy of the machines, in their order. -/
def model.Machines (m : model) : List machine := m.Machines_

/-- The method `model.Services`: a copy of the services, in their order. -/
def model.Services (m : model) : List migration.service := m.Services_

/-- The method `model.Relations`: a copy of the relations, in their order. -/
def model.Relations (m : model) : List relation := m.Relations_

/-- Modelled from the spec: the arguments of `AddMachine` (`machine.go` is not
part of the sources at hand): the id of the machine tag, empty for the zero
tag. -/
structure MachineArgs where
  Id : String := ""

/-- Modelled from the spec: `newMachine` of `machine.go` (not part of the sources
at hand): a machine with the id of the arguments and no network ports. -/
def newMachine (args : MachineArgs) : machine := { Id_ := args.Id, NetworkPorts_ := [] }

/-- The method `model.AddMachine`: the new machine is appended; the result is
the model after the call and the machine the call returns. -/
def model.AddMachine (m : model) (args : MachineArgs) : model × machine :=
  let machine := newMachine args
  ({ m with Machines_ := m.Machines_ ++ [machine] }, machine)

/-- Modelled from the spec: the arguments of `AddRelation` (`relation.go` is not
part of the sources at hand): the id and the key. -/
structure RelationArgs where
  Id : Int := 0
  Key : String := ""

/-- Modelled from the spec: `newRelation` of `relation.go` (not part of the
sources at hand): a relation with the id and key of the arguments and no
endpoint. -/
def newRelation (args : RelationArgs) : relation :=
  { Id_ := args.Id, Key_ := args.Key, Endpoints_ := [] }

/-- The method `model.AddRelation`: the new relation is appended; the result is
the model after the call and the relation the call returns. -/
def model.AddRelation (m : model) (args : RelationArgs) : model × relation :=
  let relation := newRelation args
  ({ m with Relations_ := m.Relations_ ++ [relation] }, relation)

/-! ## Spec-level predicates -/

/-- The unit names with settings on the endpoint are exactly the unit names of
the service: no unit of the service lacks settings, and no settings are for a
name that is not a unit of the service. -/
def endpoint.settingsMatch (ep : endpoint) (s : service) : Prop :=
  (∀ u ∈ s.Units_, ∃ p ∈ ep.UnitSettings_, p.1 = u.Name_) ∧
    (∀ p ∈ ep.UnitSettings_, ∃ u ∈ s.Units_, u.Name_ = p.1)

instance (ep : endpoint) (s : service) : Decidable (ep.settingsMatch s) := by
  unfold endpoint.settingsMatch
  infer_instance

/-- Every unit name of an open port range of a machine of the model is the name
of a unit of some service of the model. -/
def model.openPortUnitsKnown (m : model) : Prop :=
  ∀ mc ∈ m.Machines_, ∀ np ∈ mc.NetworkPorts_, ∀ pr ∈ np.OpenPorts_,
    ∃ s ∈ m.Services_, ∃ u ∈ s.Units_, u.Name_ = pr.UnitName_

instance (m : model) : Decidable m.openPortUnitsKnown := by
  unfold model.openPortUnitsKnown
  infer_instance

/-- The pair of results of an import is all or nothing: a model with the nil
error, or no model with an error. -/
def allOrNothing (r : Option model × Option Err) : Prop :=
  (∃ m, r = (some m, none)) ∨ ∃ err, r = (none, some err)

/-- A group of 1 to 9 decimal digits. -/
def digitRun (l : List Char) : Prop :=
  1 ≤ l.length ∧ l.length ≤ 9 ∧ ∀ c ∈ l, c.isDigit = true

instance (l : List Char) : Decidable (digitRun l) := by
  unfold digitRun
  infer_instance

/-- The decimal value of a list of digit characters, most significant first: the
number whose digits, least significant first, are the values of the characters
in reverse. -/
def decimalValue (l : List Char) : Int :=
  Int.ofNat (Nat.ofDigits 10 (l.reverse.map (fun c => c.toNat - 48)))

/-- A text without hyphen that is not empty. -/
def hyphenFree (l : List Char) : Prop :=
  l ≠ [] ∧ ∀ c ∈ l, c ≠ '-'

instance (l : List Char) : Decidable (hyphenFree l) := by
  unfold hyphenFree
  infer_instance

/-! ## The models of `model_test.go` -/

/-- The model of `TestModelValidation`: `NewModel(ModelArgs{})`. -/
def ownerlessModel : model := NewModel {}

/-- The model of `TestModelValidationChecksMachines`: owner `owner` and one
machine added with empty arguments. -/
def machineWithoutIdModel : model :=
  { Owner_ := "owner", Machines_ := [{ Id_ := "" }] }

/-- The model of `TestModelValidationChecksServices`: owner `owner` and one
service added with empty arguments. -/
def serviceWithoutNameModel : model := ((NewModel { Owner := "owner" }).AddService {}).1

/-- The model of `TestModelValidationChecksOpenPortsUnits`: machine `0` with one
open port range for the unit `missing/0`. -/
def openPortsModel : model :=
  { Owner_ := "owner"
    Machines_ :=
      [{ Id_ := "0"
         NetworkPorts_ :=
           [{ OpenPorts_ :=
                [{ UnitName_ := "missing/0", FromPort_ := 8080, ToPort_ := 8080,
                   Protocol_ := "tcp" }] }] }] }

/-- The services of `wordpressModel`: `wordpress` with two units and `mysql`
with one, each unit on the machine that has its number. -/
def wordpressServices : List service :=
  [{ Name_ := "wordpress"
     Units_ := [{ Name_ := "wordpress/0", Machine_ := "0" },
                { Name_ := "wordpress/1", Machine_ := "1" }] },
   { Name_ := "mysql", Units_ := [{ Name_ := "mysql/0", Machine_ := "0" }] }]

/-- The model of `wordpressModel`, with the given unit settings on the
`wordpress` endpoint and on the `mysql` endpoint of relation 42.
`addServiceToModel` adds one machine per unit, so the machines are 0, 1, 0. -/
def wordpressModelWith (wordpressSettings mysqlSettings :
    List (String × List (String × String))) : model :=
  { Owner_ := "owner"
    Machines_ := [{ Id_ := "0" }, { Id_ := "1" }, { Id_ := "0" }]
    Services_ := wordpressServices
    Relations_ :=
      [{ Id_ := 42
         Key_ := "special key"
         Endpoints_ :=
           [{ ServiceName_ := "wordpress", Name_ := "db", UnitSettings_ := wordpressSettings },
            { ServiceName_ := "mysql", Name_ := "mysql", UnitSettings_ := mysqlSettings }] }] }

/-- The model of `wordpressModel`: no settings on either endpoint. -/
def wordpressModel : model := wordpressModelWith [] []

/-- The model of `wordpressModelWithSettings`. -/
def wordpressModelWithSettings : model :=
  wordpressModelWith
    [("wordpress/0", [("key", "value")]), ("wordpress/1", [("key", "value")])]
    [("mysql/0", [("key", "value")])]

/-- A model with two services of the same name `db`, the first owning the unit
`db/0` and the second the unit `db/1`, and a relation 7 whose one endpoint is
of service `db` and has settings for `db/1` only. -/
def duplicateServiceModel : model :=
  { Owner_ := "owner"
    Services_ :=
      [{ Name_ := "db", Units_ := [{ Name_ := "db/0" }] },
       { Name_ := "db", Units_ := [{ Name_ := "db/1" }] }]
    Relations_ :=
      [{ Id_ := 7, Endpoints_ := [{ ServiceName_ := "db", UnitSettings_ := [("db/1", [])] }] }] }

/-- The wordpress model with no settings on the `wordpress` endpoint and, on the
`mysql` endpoint, settings for `mysql/0` and for `mysql/1`, which is not a unit
of `mysql`. -/
def extraBehindMissingModel : model :=
  wordpressModelWith [] [("mysql/0", []), ("mysql/1", [])]

/-- The wordpress model with all settings and, on the `mysql` endpoint, settings
for `mysql/7` and `mysql/3` as well, which are not units of `mysql`. -/
def extraSettingsModel : model :=
  wordpressModelWith [("wordpress/1", []), ("wordpress/0", [])]
    [("mysql/7", []), ("mysql/0", []), ("mysql/3", [])]

/-- The wordpress model with all settings and a second relation, 43, whose
second endpoint is of a service `ghost` that the model does not have. -/
def unknownServiceModel : model :=
  { wordpressModelWithSettings with
    Relations_ := wordpressModelWithSettings.Relations_ ++
      [{ Id_ := 43
         Endpoints_ :=
           [{ ServiceName_ := "mysql", UnitSettings_ := [("mysql/0", [])] },
            { ServiceName_ := "ghost" }] }] }

/-- The model of `TestModelValidationChecksOpenPortsUnits` after one more call,
`AddService(ServiceArgs{})`: an open port range for an unknown unit and a
service without a name. -/
def openPortsNamelessServiceModel : model := (openPortsModel.AddService {}).1

/-- The model `wordpressModelWithSettings` with one more machine, `7`, that has an
open port range for the unit `cache/0`, which no service owns. -/
def wordpressOpenPortModel : model :=
  { wordpressModelWithSettings with
    Machines_ := wordpressModelWithSettings.Machines_ ++
      [{ Id_ := "7"
         NetworkPorts_ := [{ OpenPorts_ := [{ UnitName_ := "cache/0", Protocol_ := "tcp" }] }] }] }

/-- A model with the machines `0`, `` (no id), `2` and `` (no id), in that
order. -/
def machinesWithoutIdModel : model :=
  { Owner_ := "owner"
    Machines_ := [{ Id_ := "0" }, { Id_ := "" }, { Id_ := "2" }, { Id_ := "" }] }

/-- The model of `TestModelValidationChecksMachinesGood`: owner `owner`, no
configuration, and the machine `0`. -/
def validMachineModel : model := ((NewModel { Owner := "owner" }).AddMachine { Id := "0" }).1

/-- Collaborators for documents whose four collections are empty: every importer
gives no entity and no error; the canonical name of a user is its name at
`local`. -/
def emptyCollections : Collaborators :=
  { goSyntax := fun _ => "map[string]interface \x7b\x7d(...)"
    yamlUnmarshal := fun _ => (.nil, none)
    importUsers := fun _ => ([], none)
    importMachines := fun _ => ([], none)
    importServices := fun _ => ([], none)
    importRelations := fun _ => ([], none)
    canonicalName := fun u => u.Name_ ++ "@local" }

/-- The wrapper of an empty collection, as in `TestParsingOptionals`. -/
def emptyCollection (name : String) : Value :=
  .map (.ofList [("version", .int 1), (name, .list .nil)])

/-- The document of `TestParsingOptionals`, with the given extra entries put
before its own. -/
def optionalsDocWith (extra : List (String × Value)) : Entries :=
  .ofList (extra ++
    [("version", .int 1),
     ("owner", .str "magic"),
     ("config", .map (.ofList [("name", .str "awesome"), ("uuid", .str "some-uuid")])),
     ("users", emptyCollection "users"),
     ("machines", emptyCollection "machines"),
     ("services", emptyCollection "services"),
     ("relations", emptyCollection "relations")])

/-- A model with two services of the name `db` and no unit, added one after the
other. -/
def sameNameServicesModel : model :=
  (((NewModel { Owner := "owner" }).AddService { Name := "db" }).1.AddService { Name := "db" }).1

/-- A model with two services of the name `db`, the first with the unit `db/0` and
the second with the unit `db/1`; a machine with an open port range for `db/1`;
and a relation 7 whose one endpoint is of service `db` and has settings for
`db/0` and for `db/1`. -/
def laterDuplicateModel : model :=
  { Owner_ := "owner"
    Machines_ :=
      [{ Id_ := "0"
         NetworkPorts_ := [{ OpenPorts_ := [{ UnitName_ := "db/1", Protocol_ := "tcp" }] }] }]
    Services_ :=
      [{ Name_ := "db", Units_ := [{ Name_ := "db/0" }] },
       { Name_ := "db", Units_ := [{ Name_ := "db/1" }] }]
    Relations_ :=
      [{ Id_ := 7
         Endpoints_ :=
           [{ ServiceName_ := "db", UnitSettings_ := [("db/0", []), ("db/1", [])] }] }] }

/-- A model with the owner `owner`, no service, and a relation 7 whose one
endpoint is of a service whose name has the rune U+200B, a zero-width space,
which is not printable, between `my` and `sql`. -/
def unprintableServiceModel : model :=
  { Owner_ := "owner"
    Relations_ := [{ Id_ := 7, Endpoints_ := [{ ServiceName_ := "my\u200bsql" }] }] }

/-- A model that breaks every rule at once: no owner, a machine without an id
that has an open port range for the unknown unit `ghost/0`, a service without
a name, and a relation 1 with an endpoint of an unknown service. -/
def allWrongModel : model :=
  { Owner_ := ""
    Machines_ :=
      [{ Id_ := ""
         NetworkPorts_ := [{ OpenPorts_ := [{ UnitName_ := "ghost/0" }] }] }]
    Services_ := [{ Name_ := "" }]
    Relations_ := [{ Id_ := 1, Endpoints_ := [{ ServiceName_ := "ghost" }] }] }

/-! ## Facts about the library models -/

theorem Strings.mem_Add (s : Strings) (v x : String) : x ∈ s.Add v ↔ x ∈ s ∨ x = v := by
  unfold Strings.Add
  split
  · constructor
    · intro h; exact Or.inl h
    · rintro (h | h)
      · exact h
      · subst h; assumption
  · simp

theorem Strings.nodup_Add (s : Strings) (v : String) (h : s.Nodup) : (s.Add v).Nodup := by
  unfold Strings.Add
  split
  · exact h
  · rename_i hv
    exact List.Nodup.append h (List.nodup_singleton v) (by simpa using hv)

theorem Strings.mem_foldl_Add (l : List String) (s : Strings) (x : String) :
    x ∈ l.foldl Strings.Add s ↔ x ∈ s ∨ x ∈ l := by
  induction l generalizing s with
  | nil => simp
  | cons a l ih =>
    simp only [List.foldl_cons, ih, Strings.mem_Add, List.mem_cons]
    tauto

theorem Strings.nodup_foldl_Add (l : List String) (s : Strings) (h : s.Nodup) :
    (l.foldl Strings.Add s).Nodup := by
  induction l generalizing s with
  | nil => simpa using h
  | cons a l ih => exact ih _ (Strings.nodup_Add s a h)

theorem mem_NewStrings (l : List String) (x : String) : x ∈ NewStrings l ↔ x ∈ l := by
  simp [NewStrings, Strings.mem_foldl_Add]

theorem nodup_NewStrings (l : List String) : (NewStrings l).Nodup :=
  Strings.nodup_foldl_Add l [] List.nodup_nil

theorem Strings.mem_Union (s other : Strings) (x : String) :
    x ∈ s.Union other ↔ x ∈ s ∨ x ∈ other := by
  simp [Strings.Union, Strings.mem_foldl_Add]

theorem Strings.nodup_Union (s other : Strings) : (s.Union other).Nodup :=
  Strings.nodup_foldl_Add other _ (Strings.nodup_foldl_Add s [] List.nodup_nil)

theorem Strings.mem_Difference (s other : Strings) (x : String) :
    x ∈ s.Difference other ↔ x ∈ s ∧ x ∉ other := by
  simp [Strings.Difference]

theorem Strings.nodup_Difference (s other : Strings) (h : s.Nodup) :
    (s.Difference other).Nodup :=
  List.Nodup.filter _ h

theorem Strings.mem_SortedValues (s : Strings) (x : String) : x ∈ s.SortedValues ↔ x ∈ s := by
  unfold Strings.SortedValues
  exact (List.perm_insertionSort _ s).mem_iff

theorem Strings.sorted_SortedValues (s : Strings) (h : s.Nodup) :
    s.SortedValues.Sorted (fun a b : String => a < b) := by
  have hle : s.SortedValues.Sorted (fun a b : String => a ≤ b) := by
    haveI : IsTotal String (fun a b => a.toList ≤ b.toList) :=
      ⟨fun a b => le_total a.toList b.toList⟩
    haveI : IsTrans String (fun a b => a.toList ≤ b.toList) :=
      ⟨fun _ _ _ hab hbc => le_trans hab hbc⟩
    have h1 : s.SortedValues.Sorted (fun a b : String => a.toList ≤ b.toList) :=
      List.sorted_insertionSort _ s
    exact List.Pairwise.imp (fun hab => String.le_iff_toList_le.mpr hab) h1
  have hnd : s.SortedValues.Nodup := by
    unfold Strings.SortedValues
    exact (List.perm_insertionSort _ s).nodup_iff.mpr h
  exact List.Sorted.lt_of_le hle hnd

/-! ## Facts about the loops of `Validate` -/

theorem machine_Validate_eq_none_iff (mc : machine) : mc.Validate = none ↔ mc.Id_ ≠ "" := by
  unfold machine.Validate
  split <;> simp_all

theorem service_Validate_eq_none_iff (s : service) : s.Validate = none ↔ s.Name_ ≠ "" := by
  unfold service.Validate
  split <;> simp_all

theorem mem_foldl_portRanges (prs : List portRange) (acc : Strings) (x : String) :
    x ∈ prs.foldl (fun acc pr => Strings.Add acc pr.UnitName_) acc ↔
      x ∈ acc ∨ ∃ pr ∈ prs, pr.UnitName_ = x := by
  induction prs generalizing acc with
  | nil => simp
  | cons p prs ih =>
    simp only [List.foldl_cons, ih, Strings.mem_Add, List.mem_cons, exists_eq_or_imp]
    constructor
    · rintro ((h | h) | h)
      · exact Or.inl h
      · exact Or.inr (Or.inl h.symm)
      · exact Or.inr (Or.inr h)
    · rintro (h | h | h)
      · exact Or.inl (Or.inl h)
      · exact Or.inl (Or.inr h.symm)
      · exact Or.inr h

theorem nodup_foldl_portRanges (prs : List portRange) (acc : Strings) (h : acc.Nodup) :
    (prs.foldl (fun acc pr => Strings.Add acc pr.UnitName_) acc).Nodup := by
  induction prs generalizing acc with
  | nil => simpa using h
  | cons p prs ih => exact ih _ (Strings.nodup_Add acc _ h)

theorem mem_foldl_networkPorts (nps : List networkPorts) (acc : Strings) (x : String) :
    x ∈ nps.foldl
        (fun acc np => np.OpenPorts_.foldl (fun acc pr => Strings.Add acc pr.UnitName_) acc) acc ↔
      x ∈ acc ∨ ∃ np ∈ nps, ∃ pr ∈ np.OpenPorts_, pr.UnitName_ = x := by
  induction nps generalizing acc with
  | nil => simp
  | cons n nps ih =>
    simp only [List.foldl_cons, ih, mem_foldl_portRanges, List.mem_cons, exists_eq_or_imp]
    exact or_assoc

theorem nodup_foldl_networkPorts (nps : List networkPorts) (acc : Strings) (h : acc.Nodup) :
    (nps.foldl
      (fun acc np => np.OpenPorts_.foldl (fun acc pr => Strings.Add acc pr.UnitName_) acc)
      acc).Nodup := by
  induction nps generalizing acc with
  | nil => simpa using h
  | cons n nps ih => exact ih _ (nodup_foldl_portRanges _ acc h)

theorem machine.mem_addOpenPortUnits (mc : machine) (acc : Strings) (x : String) :
    x ∈ mc.addOpenPortUnits acc ↔
      x ∈ acc ∨ ∃ np ∈ mc.NetworkPorts_, ∃ pr ∈ np.OpenPorts_, pr.UnitName_ = x :=
  mem_foldl_networkPorts mc.NetworkPorts_ acc x

theorem machine.nodup_addOpenPortUnits (mc : machine) (acc : Strings) (h : acc.Nodup) :
    (mc.addOpenPortUnits acc).Nodup :=
  nodup_foldl_networkPorts mc.NetworkPorts_ acc h

/-- When every machine has an id, the machine loop ends with the set of the unit
names of all open port ranges (added to the initial set). -/
theorem validateMachines_ok (ms : List machine) (acc : Strings)
    (hids : ∀ mc ∈ ms, mc.Id_ ≠ "") :
    ∃ U : Strings, validateMachines ms acc = .ok U ∧ (acc.Nodup → U.Nodup) ∧
      ∀ x, x ∈ U ↔ x ∈ acc ∨
        ∃ mc ∈ ms, ∃ np ∈ mc.NetworkPorts_, ∃ pr ∈ np.OpenPorts_, pr.UnitName_ = x := by
  induction ms generalizing acc with
  | nil => exact ⟨acc, rfl, id, by simp⟩
  | cons mc ms ih =>
    have hmc : mc.Validate = none :=
      (machine_Validate_eq_none_iff mc).mpr (hids mc (List.mem_cons_self _ _))
    obtain ⟨U, hU, hnd, hmem⟩ :=
      ih (mc.addOpenPortUnits acc) (fun x hx => hids x (List.mem_cons_of_mem _ hx))
    refine ⟨U, ?_, fun h => hnd (machine.nodup_addOpenPortUnits mc acc h), ?_⟩
    · simp only [validateMachines, hmc, hU]
    · intro x
      rw [hmem x, machine.mem_addOpenPortUnits]
      simp only [List.mem_cons, exists_eq_or_imp]
      exact or_assoc

/-- The machine loop stops at the first machine without an id. -/
theorem validateMachines_error (pre post : List machine) (mc : machine) (acc : Strings)
    (hpre : ∀ x ∈ pre, x.Id_ ≠ "") (hmc : mc.Id_ = "") :
    validateMachines (pre ++ mc :: post) acc = .error (Trace (NotValidf "machine missing id")) := by
  induction pre generalizing acc with
  | nil => simp [validateMachines, machine.Validate, hmc]
  | cons p pre ih =>
    have hp : p.Validate = none :=
      (machine_Validate_eq_none_iff p).mpr (hpre p (List.mem_cons_self _ _))
    simp only [List.cons_append, validateMachines, hp]
    exact ih _ (fun x hx => hpre x (List.mem_cons_of_mem _ hx))

/-- A list with an element that satisfies `p` splits at the first such element. -/
theorem exists_first_split {α : Type} (p : α → Prop) (l : List α) (h : ∃ x ∈ l, p x) :
    ∃ pre x post, l = pre ++ x :: post ∧ (∀ y ∈ pre, ¬ p y) ∧ p x := by
  classical
  induction l with
  | nil => simp at h
  | cons a l ih =>
    by_cases ha : p a
    · exact ⟨[], a, l, rfl, by simp, ha⟩
    · have h2 : ∃ x ∈ l, p x := by
        obtain ⟨x, hx, hpx⟩ := h
        rcases List.mem_cons.mp hx with rfl | hx
        · exact absurd hpx ha
        · exact ⟨x, hx, hpx⟩
      obtain ⟨pre, x, post, rfl, hpre, hx⟩ := ih h2
      refine ⟨a :: pre, x, post, rfl, ?_, hx⟩
      intro y hy
      rcases List.mem_cons.mp hy with rfl | hy
      · exact ha
      · exact hpre y hy

theorem service_mem_unitNames (s : service) (x : String) :
    x ∈ s.unitNames ↔ ∃ u ∈ s.Units_, u.Name_ = x := by
  simp [service.unitNames, mem_NewStrings]

theorem endpoint_mem_unitNames (ep : endpoint) (x : String) :
    x ∈ ep.unitNames ↔ ∃ st, (x, st) ∈ ep.UnitSettings_ := by
  simp [endpoint.unitNames, mem_NewStrings]

/-- When every service has a name, the service loop ends with the union of the
unit names of all services (added to the initial set). -/
theorem validateServices_ok (ss : List service) (acc : Strings)
    (hnames : ∀ s ∈ ss, s.Name_ ≠ "") :
    ∃ A : Strings, validateServices ss acc = .ok A ∧
      ∀ x, x ∈ A ↔ x ∈ acc ∨ ∃ s ∈ ss, ∃ u ∈ s.Units_, u.Name_ = x := by
  induction ss generalizing acc with
  | nil => exact ⟨acc, rfl, by simp⟩
  | cons s ss ih =>
    have hs : s.Validate = none :=
      (service_Validate_eq_none_iff s).mpr (hnames s (List.mem_cons_self _ _))
    obtain ⟨A, hA, hmem⟩ :=
      ih (acc.Union s.unitNames) (fun x hx => hnames x (List.mem_cons_of_mem _ hx))
    refine ⟨A, ?_, ?_⟩
    · simp only [validateServices, hs, hA]
    · intro x
      rw [hmem x, Strings.mem_Union, service_mem_unitNames]
      simp only [List.mem_cons, exists_eq_or_imp]
      exact or_assoc

/-- The service loop stops at the first service without a name. -/
theorem validateServices_error (pre post : List service) (s : service) (acc : Strings)
    (hpre : ∀ x ∈ pre, x.Name_ ≠ "") (hs : s.Name_ = "") :
    validateServices (pre ++ s :: post) acc =
      .error (Trace (NotValidf "service missing name")) := by
  induction pre generalizing acc with
  | nil => simp [validateServices, service.Validate, hs]
  | cons p pre ih =>
    have hp : p.Validate = none :=
      (service_Validate_eq_none_iff p).mpr (hpre p (List.mem_cons_self _ _))
    simp only [List.cons_append, validateServices, hp]
    exact ih _ (fun x hx => hpre x (List.mem_cons_of_mem _ hx))

theorem firstError_eq_none_iff {α : Type} (body : α → Option Err) (l : List α) :
    firstError body l = none ↔ ∀ x ∈ l, body x = none := by
  induction l with
  | nil => simp [firstError]
  | cons a l ih =>
    simp only [firstError, List.mem_cons, forall_eq_or_imp]
    cases h : body a with
    | none => simp [ih]
    | some e => simp

theorem firstError_append {α : Type} (body : α → Option Err) (pre rest : List α)
    (hpre : ∀ x ∈ pre, body x = none) :
    firstError body (pre ++ rest) = firstError body rest := by
  induction pre with
  | nil => rfl
  | cons a pre ih =>
    have ha : body a = none := hpre a (List.mem_cons_self _ _)
    simp only [List.cons_append, firstError, ha]
    exact ih (fun x hx => hpre x (List.mem_cons_of_mem _ hx))

theorem firstError_cons_some {α : Type} (body : α → Option Err) (x : α) (rest : List α)
    (e : Err) (hx : body x = some e) : firstError body (x :: rest) = some e := by
  simp [firstError, hx]

/-! ## Facts about `model.service` and the relation check -/

theorem service_eq_none_iff (m : model) (name : String) :
    m.service name = none ↔ ∀ s ∈ m.Services_, s.Name_ ≠ name := by
  simp [model.service, List.find?_eq_none]

theorem service_eq_some (m : model) (name : String) (s : service)
    (h : m.service name = some s) : s ∈ m.Services_ ∧ s.Name_ = name := by
  unfold model.service at h
  exact ⟨List.mem_of_find?_eq_some h, by simpa using List.find?_some h⟩

/-- The lookup `model.service` finds the first service with the name. -/
theorem service_first (m : model) (name : String) (pre post : List service) (s : service)
    (hsplit : m.Services_ = pre ++ s :: post) (hpre : ∀ x ∈ pre, x.Name_ ≠ name)
    (hs : s.Name_ = name) : m.service name = some s := by
  unfold model.service
  rw [hsplit]
  clear hsplit
  induction pre with
  | nil => simp [List.find?, hs]
  | cons p pre ih =>
    have hp : p.Name_ ≠ name := hpre p (List.mem_cons_self _ _)
    simp only [List.cons_append, List.find?, hp, decide_False]
    exact ih (fun x hx => hpre x (List.mem_cons_of_mem _ hx))

theorem Strings.Difference_length_pos_iff (s other : Strings) :
    (s.Difference other).length > 0 ↔ ∃ x ∈ s, x ∉ other := by
  rw [gt_iff_lt, List.length_pos_iff_exists_mem]
  simp only [Strings.mem_Difference]

theorem validateEndpoint_unknown (m : model) (rel : relation) (ep : endpoint)
    (h : m.service ep.ServiceName_ = none) :
    m.validateEndpoint rel ep =
      some (Errorf ("unknown service " ++ fmtQuote ep.ServiceName_ ++
        " for relation id " ++ fmtInt rel.Id_)) := by
  simp [model.validateEndpoint, h]

theorem validateEndpoint_missing (m : model) (rel : relation) (ep : endpoint)
    (s : service) (h : m.service ep.ServiceName_ = some s)
    (hmiss : ∃ x ∈ s.unitNames, x ∉ ep.unitNames) :
    m.validateEndpoint rel ep =
      some (Errorf ("missing relation settings for units " ++
        fmtStrings (s.unitNames.Difference ep.unitNames).SortedValues ++
        " in relation " ++ fmtInt rel.Id_)) := by
  have hpos := (Strings.Difference_length_pos_iff _ _).mpr hmiss
  simp only [model.validateEndpoint, h]
  rw [if_pos hpos]

theorem validateEndpoint_extra (m : model) (rel : relation) (ep : endpoint)
    (s : service) (h : m.service ep.ServiceName_ = some s)
    (hall : ∀ x ∈ s.unitNames, x ∈ ep.unitNames)
    (hextra : ∃ x ∈ ep.unitNames, x ∉ s.unitNames) :
    m.validateEndpoint rel ep =
      some (Errorf ("settings for unknown units " ++
        fmtStrings (ep.unitNames.Difference s.unitNames).SortedValues ++
        " in relation " ++ fmtInt rel.Id_)) := by
  have hpos := (Strings.Difference_length_pos_iff _ _).mpr hextra
  have hnot : ¬ (s.unitNames.Difference ep.unitNames).length > 0 := by
    rw [Strings.Difference_length_pos_iff]
    rintro ⟨x, hx, hn⟩
    exact hn (hall x hx)
  simp only [model.validateEndpoint, h]
  rw [if_neg hnot, if_pos hpos]

/-- The check of one endpoint passes exactly when the lookup finds a service and
the two unit-name sets have the same members. -/
theorem validateEndpoint_eq_none_iff (m : model) (rel : relation) (ep : endpoint) :
    m.validateEndpoint rel ep = none ↔
      ∃ s, m.service ep.ServiceName_ = some s ∧ ∀ x, x ∈ ep.unitNames ↔ x ∈ s.unitNames := by
  constructor
  · intro h
    cases hs : m.service ep.ServiceName_ with
    | none => rw [validateEndpoint_unknown m rel ep hs] at h; simp at h
    | some s =>
      refine ⟨s, rfl, ?_⟩
      by_cases hmiss : ∃ x ∈ s.unitNames, x ∉ ep.unitNames
      · rw [validateEndpoint_missing m rel ep s hs hmiss] at h; simp at h
      · have hall : ∀ x ∈ s.unitNames, x ∈ ep.unitNames := by
          intro x hx
          by_contra hn
          exact hmiss ⟨x, hx, hn⟩
        by_cases hextra : ∃ x ∈ ep.unitNames, x ∉ s.unitNames
        · rw [validateEndpoint_extra m rel ep s hs hall hextra] at h; simp at h
        · intro x
          constructor
          · intro hx
            by_contra hn
            exact hextra ⟨x, hx, hn⟩
          · exact hall x
  · rintro ⟨s, hs, heq⟩
    have h1 : ¬ (s.unitNames.Difference ep.unitNames).length > 0 := by
      rw [Strings.Difference_length_pos_iff]
      rintro ⟨x, hx, hn⟩
      exact hn ((heq x).mpr hx)
    have h2 : ¬ (ep.unitNames.Difference s.unitNames).length > 0 := by
      rw [Strings.Difference_length_pos_iff]
      rintro ⟨x, hx, hn⟩
      exact hn ((heq x).mp hx)
    simp only [model.validateEndpoint, hs]
    rw [if_neg h1, if_neg h2]

theorem validateRelations_eq_none_iff (m : model) :
    m.validateRelations = none ↔
      ∀ rel ∈ m.Relations_, ∀ ep ∈ rel.Endpoints_, m.validateEndpoint rel ep = none := by
  unfold model.validateRelations
  rw [firstError_eq_none_iff]
  constructor
  · intro h rel hrel
    exact (firstError_eq_none_iff _ _).mp (h rel hrel)
  · intro h rel hrel
    exact (firstError_eq_none_iff _ _).mpr (h rel hrel)

/-- The relation loops stop at the first endpoint, in relation order and then
endpoint order, whose check fails. -/
theorem validateRelations_first (m : model) (rpre rpost : List relation) (rel : relation)
    (epre epost : List endpoint) (ep : endpoint) (e : Err)
    (hrels : m.Relations_ = rpre ++ rel :: rpost)
    (heps : rel.Endpoints_ = epre ++ ep :: epost)
    (hrpre : ∀ r ∈ rpre, ∀ x ∈ r.Endpoints_, m.validateEndpoint r x = none)
    (hepre : ∀ x ∈ epre, m.validateEndpoint rel x = none)
    (hep : m.validateEndpoint rel ep = some e) :
    m.validateRelations = some e := by
  unfold model.validateRelations
  rw [hrels, firstError_append _ _ _
    (fun r hr => (firstError_eq_none_iff _ _).mpr (hrpre r hr))]
  apply firstError_cons_some
  rw [heps, firstError_append _ _ _ hepre]
  exact firstError_cons_some _ _ _ _ hep

/-- What `Validate` computes once the owner, machine and service checks pass:
`U` is the set of unit names of open port ranges, `A` the set of unit names of
the services. -/
theorem Validate_after_entity_checks (m : model) (howner : m.Owner_ ≠ "")
    (hmachines : ∀ mc ∈ m.Machines_, mc.Id_ ≠ "")
    (hservices : ∀ s ∈ m.Services_, s.Name_ ≠ "") :
    ∃ U A : Strings, U.Nodup ∧
      (∀ x, x ∈ U ↔ ∃ mc ∈ m.Machines_, ∃ np ∈ mc.NetworkPorts_, ∃ pr ∈ np.OpenPorts_,
        pr.UnitName_ = x) ∧
      (∀ x, x ∈ A ↔ ∃ s ∈ m.Services_, ∃ u ∈ s.Units_, u.Name_ = x) ∧
      m.Validate =
        if (U.Difference A).length > 0 then
          some (Errorf ("unknown unit names in open ports: " ++
            fmtStrings (U.Difference A).SortedValues))
        else m.validateRelations := by
  obtain ⟨U, hU, hUnd, hUmem⟩ := validateMachines_ok m.Machines_ (NewStrings []) hmachines
  obtain ⟨A, hA, hAmem⟩ := validateServices_ok m.Services_ (NewStrings []) hservices
  refine ⟨U, A, hUnd (nodup_NewStrings []), ?_, ?_, ?_⟩
  · intro x; rw [hUmem x]; simp [NewStrings]
  · intro x; rw [hAmem x]; simp [NewStrings]
  · simp only [model.Validate, howner, hU, hA, if_false]

/-! ## Facts about `Validate` -/

theorem endpoint.settingsMatch_iff (ep : endpoint) (s : service) :
    ep.settingsMatch s ↔ ∀ x, x ∈ ep.unitNames ↔ x ∈ s.unitNames := by
  simp only [endpoint.settingsMatch, endpoint_mem_unitNames, service_mem_unitNames]
  constructor
  · rintro ⟨h1, h2⟩ x
    constructor
    · rintro ⟨st, hst⟩
      obtain ⟨u, hu, hux⟩ := h2 (x, st) hst
      exact ⟨u, hu, hux⟩
    · rintro ⟨u, hu, hux⟩
      obtain ⟨p, hp, hpu⟩ := h1 u hu
      refine ⟨p.2, ?_⟩
      have hp1 : p.1 = x := hpu.trans hux
      rw [← hp1]
      exact hp
  · intro h
    constructor
    · intro u hu
      obtain ⟨st, hst⟩ := (h u.Name_).mpr ⟨u, hu, rfl⟩
      exact ⟨(u.Name_, st), hst, rfl⟩
    · intro p hp
      exact (h p.1).mp ⟨p.2, hp⟩

theorem validateEndpoint_eq_none_iff_settingsMatch (m : model) (rel : relation)
    (ep : endpoint) :
    m.validateEndpoint rel ep = none ↔
      ∃ s, m.service ep.ServiceName_ = some s ∧ ep.settingsMatch s := by
  rw [validateEndpoint_eq_none_iff]
  constructor
  · rintro ⟨s, hs, h⟩; exact ⟨s, hs, (endpoint.settingsMatch_iff ep s).mpr h⟩
  · rintro ⟨s, hs, h⟩; exact ⟨s, hs, (endpoint.settingsMatch_iff ep s).mp h⟩

/-- The method `Validate` fails on the first machine without an id. -/
theorem Validate_machine_without_id (m : model) (howner : m.Owner_ ≠ "")
    (pre post : List machine) (mc : machine) (hsplit : m.Machines_ = pre ++ mc :: post)
    (hpre : ∀ x ∈ pre, x.Id_ ≠ "") (hmc : mc.Id_ = "") :
    m.Validate = some (Trace (NotValidf "machine missing id")) := by
  have h := validateMachines_error pre post mc (NewStrings []) hpre hmc
  rw [← hsplit] at h
  simp only [model.Validate, howner, h, if_false]

/-- The method `Validate` fails on the first service without a name once the machines have
passed, whatever the open ports are. -/
theorem Validate_service_without_name (m : model) (howner : m.Owner_ ≠ "")
    (hmachines : ∀ mc ∈ m.Machines_, mc.Id_ ≠ "")
    (pre post : List service) (s : service) (hsplit : m.Services_ = pre ++ s :: post)
    (hpre : ∀ x ∈ pre, x.Name_ ≠ "") (hs : s.Name_ = "") :
    m.Validate = some (Trace (NotValidf "service missing name")) := by
  obtain ⟨U, hU, -, -⟩ := validateMachines_ok m.Machines_ (NewStrings []) hmachines
  have h := validateServices_error pre post s (NewStrings []) hpre hs
  rw [← hsplit] at h
  simp only [model.Validate, howner, hU, h, if_false]

/-- The open-port check passes exactly when no unit name of an open port range
is outside the unit names of the services. -/
theorem openPortUnitsKnown_iff (m : model) (U A : Strings)
    (hU : ∀ x, x ∈ U ↔ ∃ mc ∈ m.Machines_, ∃ np ∈ mc.NetworkPorts_, ∃ pr ∈ np.OpenPorts_,
      pr.UnitName_ = x)
    (hA : ∀ x, x ∈ A ↔ ∃ s ∈ m.Services_, ∃ u ∈ s.Units_, u.Name_ = x) :
    m.openPortUnitsKnown ↔ ¬ (U.Difference A).length > 0 := by
  rw [Strings.Difference_length_pos_iff]
  unfold model.openPortUnitsKnown
  constructor
  · rintro h ⟨x, hxU, hxA⟩
    obtain ⟨mc, hmc, np, hnp, pr, hpr, rfl⟩ := (hU x).mp hxU
    exact hxA ((hA _).mpr (h mc hmc np hnp pr hpr))
  · intro h mc hmc np hnp pr hpr
    by_contra hn
    exact h ⟨pr.UnitName_, (hU _).mpr ⟨mc, hmc, np, hnp, pr, hpr, rfl⟩,
      fun hxA => hn ((hA _).mp hxA)⟩

/-- Once the owner, machine, service and open-port checks pass, `Validate` is the
relation check. -/
theorem Validate_eq_validateRelations (m : model) (howner : m.Owner_ ≠ "")
    (hmachines : ∀ mc ∈ m.Machines_, mc.Id_ ≠ "")
    (hservices : ∀ s ∈ m.Services_, s.Name_ ≠ "")
    (hports : m.openPortUnitsKnown) : m.Validate = m.validateRelations := by
  obtain ⟨U, A, -, hU, hA, hV⟩ := Validate_after_entity_checks m howner hmachines hservices
  rw [hV, if_neg ((openPortUnitsKnown_iff m U A hU hA).mp hports)]

/-- A model on which `Validate` succeeds passes the owner, machine, service and
open-port checks. -/
theorem checks_of_Validate_eq_none (m : model) (h : m.Validate = none) :
    m.Owner_ ≠ "" ∧ (∀ mc ∈ m.Machines_, mc.Id_ ≠ "") ∧ (∀ s ∈ m.Services_, s.Name_ ≠ "") ∧
      m.openPortUnitsKnown := by
  have howner : m.Owner_ ≠ "" := by
    intro ho
    simp [model.Validate, ho] at h
  have hmachines : ∀ mc ∈ m.Machines_, mc.Id_ ≠ "" := by
    intro mc hmc hid
    obtain ⟨pre, x, post, hsplit, hpre, hx⟩ :=
      exists_first_split (fun mc : machine => mc.Id_ = "") m.Machines_ ⟨mc, hmc, hid⟩
    rw [Validate_machine_without_id m howner pre post x hsplit hpre hx] at h
    simp at h
  have hservices : ∀ s ∈ m.Services_, s.Name_ ≠ "" := by
    intro s hs hname
    obtain ⟨pre, x, post, hsplit, hpre, hx⟩ :=
      exists_first_split (fun s : service => s.Name_ = "") m.Services_ ⟨s, hs, hname⟩
    rw [Validate_service_without_name m howner hmachines pre post x hsplit hpre hx] at h
    simp at h
  refine ⟨howner, hmachines, hservices, ?_⟩
  obtain ⟨U, A, -, hU, hA, hV⟩ := Validate_after_entity_checks m howner hmachines hservices
  rw [openPortUnitsKnown_iff m U A hU hA]
  intro hpos
  rw [hV, if_pos hpos] at h
  simp at h

/-- A text that starts with `a` differs from a text that does not. -/
theorem append_ne_of_not_prefix (a rest target : String) (h : ¬ a.data <+: target.data) :
    a ++ rest ≠ target := by
  intro heq
  apply h
  rw [← heq, String.data_append]
  exact List.prefix_append _ _

theorem foldl_append_singletons (l : List Char) (acc : String) :
    List.foldl (fun r s => r ++ s) acc (l.map (fun c => String.mk [c])) = acc ++ String.mk l := by
  induction l generalizing acc with
  | nil => exact (String.append_empty acc).symm
  | cons c l ih =>
    simp only [List.map_cons, List.foldl_cons, ih]
    rw [String.append_assoc]
    rfl

theorem quoteRune_plain (c : Char)
    (h : 32 ≤ c.toNat ∧ c.toNat < 127 ∧ c.toNat ≠ 34 ∧ c.toNat ≠ 92) :
    quoteRune c = String.mk [c] := by
  obtain ⟨h1, h2, h3, h4⟩ := h
  unfold quoteRune
  simp only
  have hprint : strconvIsPrint c = true := by
    unfold strconvIsPrint
    simp only
    rw [if_pos (by omega), if_pos (by omega)]
  rw [if_neg h3, if_neg h4, if_pos hprint]

/-- The verb `%q` writes a text of printable ASCII characters other than the
double quote and the backslash as it is, between double quotes. -/
theorem fmtQuote_plain (s : String)
    (h : ∀ c ∈ s.toList, 32 ≤ c.toNat ∧ c.toNat < 127 ∧ c.toNat ≠ 34 ∧ c.toNat ≠ 92) :
    fmtQuote s = "\"" ++ s ++ "\"" := by
  unfold fmtQuote
  have hmap : s.toList.map quoteRune = s.toList.map (fun c => String.mk [c]) :=
    List.map_congr_left (fun c hc => quoteRune_plain c (h c hc))
  rw [hmap, String.join, foldl_append_singletons, String.empty_append]
  rfl

theorem firstError_eq_some {α : Type} (body : α → Option Err) (l : List α) (e : Err)
    (h : firstError body l = some e) : ∃ x ∈ l, body x = some e := by
  induction l with
  | nil => simp [firstError] at h
  | cons a l ih =>
    cases ha : body a with
    | none =>
      simp only [firstError, ha] at h
      obtain ⟨x, hx, hbx⟩ := ih h
      exact ⟨x, List.mem_cons_of_mem _ hx, hbx⟩
    | some e2 =>
      simp only [firstError, ha, Option.some.injEq] at h
      exact ⟨a, List.mem_cons_self _ _, by rw [ha, h]⟩

/-- The three errors of the check of one endpoint. -/
theorem validateEndpoint_error_cases (m : model) (rel : relation) (ep : endpoint) (e : Err)
    (h : m.validateEndpoint rel ep = some e) :
    e = Errorf ("unknown service " ++ fmtQuote ep.ServiceName_ ++ " for relation id " ++
        fmtInt rel.Id_) ∨
      (∃ L, e = Errorf ("missing relation settings for units " ++ fmtStrings L ++
        " in relation " ++ fmtInt rel.Id_)) ∨
      ∃ L, e = Errorf ("settings for unknown units " ++ fmtStrings L ++
        " in relation " ++ fmtInt rel.Id_) := by
  cases hs : m.service ep.ServiceName_ with
  | none =>
    rw [validateEndpoint_unknown m rel ep hs, Option.some.injEq] at h
    exact Or.inl h.symm
  | some s =>
    by_cases hmiss : ∃ x ∈ s.unitNames, x ∉ ep.unitNames
    · rw [validateEndpoint_missing m rel ep s hs hmiss, Option.some.injEq] at h
      exact Or.inr (Or.inl ⟨_, h.symm⟩)
    · have hall : ∀ x ∈ s.unitNames, x ∈ ep.unitNames := by
        intro x hx
        by_contra hn
        exact hmiss ⟨x, hx, hn⟩
      by_cases hextra : ∃ x ∈ ep.unitNames, x ∉ s.unitNames
      · rw [validateEndpoint_extra m rel ep s hs hall hextra, Option.some.injEq] at h
        exact Or.inr (Or.inr ⟨_, h.symm⟩)
      · have hnone : m.validateEndpoint rel ep = none :=
          (validateEndpoint_eq_none_iff m rel ep).mpr
            ⟨s, hs, fun x => ⟨fun hx => by
              by_contra hn
              exact hextra ⟨x, hx, hn⟩, hall x⟩⟩
        rw [hnone] at h
        simp at h

/-- The errors of `Validate`: the owner error when the owner is empty, else the
error of a machine, of a service, of the open-port check or of the check of an
endpoint of a relation of the model. -/
theorem Validate_error_cases (m : model) (e : Err) (h : m.Validate = some e) :
    (m.Owner_ = "" ∧ e = NotValidf "missing model owner") ∨
      (m.Owner_ ≠ "" ∧
        (e = Trace (NotValidf "machine missing id") ∨
          e = Trace (NotValidf "service missing name") ∨
          (∃ L, e = Errorf ("unknown unit names in open ports: " ++ fmtStrings L)) ∨
          ∃ rel ∈ m.Relations_, ∃ ep ∈ rel.Endpoints_, m.validateEndpoint rel ep = some e)) := by
  by_cases howner : m.Owner_ = ""
  · left
    simp only [model.Validate, howner, if_true, Option.some.injEq] at h
    exact ⟨howner, h.symm⟩
  · right
    refine ⟨howner, ?_⟩
    by_cases hmachines : ∃ mc ∈ m.Machines_, mc.Id_ = ""
    · obtain ⟨pre, x, post, hsplit, hpre, hx⟩ :=
        exists_first_split (fun mc : machine => mc.Id_ = "") m.Machines_ hmachines
      rw [Validate_machine_without_id m howner pre post x hsplit hpre hx,
        Option.some.injEq] at h
      exact Or.inl h.symm
    · have hm : ∀ mc ∈ m.Machines_, mc.Id_ ≠ "" := fun mc hmc hid => hmachines ⟨mc, hmc, hid⟩
      by_cases hservices : ∃ s ∈ m.Services_, s.Name_ = ""
      · obtain ⟨pre, x, post, hsplit, hpre, hx⟩ :=
          exists_first_split (fun s : service => s.Name_ = "") m.Services_ hservices
        rw [Validate_service_without_name m howner hm pre post x hsplit hpre hx,
          Option.some.injEq] at h
        exact Or.inr (Or.inl h.symm)
      · have hsv : ∀ s ∈ m.Services_, s.Name_ ≠ "" :=
          fun s hs hname => hservices ⟨s, hs, hname⟩
        obtain ⟨U, A, -, -, -, hV⟩ := Validate_after_entity_checks m howner hm hsv
        rw [hV] at h
        by_cases hpos : (U.Difference A).length > 0
        · rw [if_pos hpos, Option.some.injEq] at h
          exact Or.inr (Or.inr (Or.inl ⟨_, h.symm⟩))
        · rw [if_neg hpos] at h
          obtain ⟨rel, hrel, hfe⟩ := firstError_eq_some _ _ e h
          obtain ⟨ep, hep, hve⟩ := firstError_eq_some _ _ e hfe
          exact Or.inr (Or.inr (Or.inr ⟨rel, hrel, ep, hep, hve⟩))

theorem foldl_AddUnit (units : List UnitArgs) (s : service) :
    units.foldl service.AddUnit s =
      { s with
        Units_ := s.Units_ ++
          units.map (fun a => ({ Name_ := a.Name, Machine_ := a.Machine } : unit)) } := by
  induction units generalizing s with
  | nil => simp
  | cons a units ih => simp [List.foldl_cons, ih, service.AddUnit]

/-- The model after `AddService` and the `AddUnit` calls on the returned
service: the new service, with its units, is the last one; nothing else
changes. -/
theorem AddServiceWithUnits_eq (m : model) (args : ServiceArgs) (units : List UnitArgs) :
    m.AddServiceWithUnits args units =
      { m with
        Services_ := m.Services_ ++
          [{ Name_ := args.Name
             Units_ := units.map
               (fun a => ({ Name_ := a.Name, Machine_ := a.Machine } : unit)) }] } := by
  simp [model.AddServiceWithUnits, model.AddService, model.onLastService, foldl_AddUnit,
    newService]

/-- A service appended to the model does not change the lookup of another name. -/
theorem service_append_of_ne (m : model) (s : service) (name : String) (h : name ≠ s.Name_) :
    ({ m with Services_ := m.Services_ ++ [s] } : model).service name = m.service name := by
  have hs : ¬ s.Name_ = name := fun hn => h hn.symm
  simp [model.service, List.find?_append, List.find?, hs]

/-- The check of an endpoint depends on the model through the lookup only. -/
theorem validateEndpoint_congr (m m2 : model) (rel : relation) (ep : endpoint)
    (h : m2.service ep.ServiceName_ = m.service ep.ServiceName_) :
    m2.validateEndpoint rel ep = m.validateEndpoint rel ep := by
  simp only [model.validateEndpoint, h]

/-! ## The validation contract -/

/-- C1 (as amended): `Validate` succeeds if and only if the owner is non-empty,
every machine has a non-empty id, every service has a non-empty name, every unit
name of an open port range is a unit name of some service, and for every
endpoint of every relation the lookup of the endpoint's service name finds a
service (the first one with that name, in insertion order) whose unit names are
exactly the unit names with settings on the endpoint. -/
theorem C1_Validate_succeeds_iff (m : model) :
    m.Validate = none ↔
      m.Owner_ ≠ "" ∧ (∀ mc ∈ m.Machines_, mc.Id_ ≠ "") ∧ (∀ s ∈ m.Services_, s.Name_ ≠ "") ∧
        m.openPortUnitsKnown ∧
        ∀ rel ∈ m.Relations_, ∀ ep ∈ rel.Endpoints_,
          ∃ s, m.service ep.ServiceName_ = some s ∧ ep.settingsMatch s := by
  constructor
  · intro h
    obtain ⟨howner, hmachines, hservices, hports⟩ := checks_of_Validate_eq_none m h
    refine ⟨howner, hmachines, hservices, hports, ?_⟩
    rw [Validate_eq_validateRelations m howner hmachines hservices hports,
      validateRelations_eq_none_iff] at h
    intro rel hrel ep hep
    exact (validateEndpoint_eq_none_iff_settingsMatch m rel ep).mp (h rel hrel ep hep)
  · rintro ⟨howner, hmachines, hservices, hports, hrels⟩
    rw [Validate_eq_validateRelations m howner hmachines hservices hports,
      validateRelations_eq_none_iff]
    intro rel hrel ep hep
    exact (validateEndpoint_eq_none_iff_settingsMatch m rel ep).mpr (hrels rel hrel ep hep)

/-- C1 (as stated) fails on `duplicateServiceModel`: the owner is set, there is
no machine, both services are named, no port is open, and for the one endpoint a
service named `db` exists whose unit names are exactly the unit names with
settings (the second one); yet `Validate` fails, because the lookup takes the
first service named `db`, whose unit `db/0` has no settings. -/
theorem C1_counterexample :
    (duplicateServiceModel.Owner_ ≠ "" ∧
      (∀ mc ∈ duplicateServiceModel.Machines_, mc.Id_ ≠ "") ∧
      (∀ s ∈ duplicateServiceModel.Services_, s.Name_ ≠ "") ∧
      duplicateServiceModel.openPortUnitsKnown ∧
      ∀ rel ∈ duplicateServiceModel.Relations_, ∀ ep ∈ rel.Endpoints_,
        ∃ s ∈ duplicateServiceModel.Services_, s.Name_ = ep.ServiceName_ ∧
          ep.settingsMatch s) ∧
    duplicateServiceModel.Validate =
      some (Errorf "missing relation settings for units [db/0] in relation 7") := by
  decide

/-- C2: when `validateRelations` succeeds, every endpoint of every relation
belongs to a service of the model (the one the lookup of its service name
finds) and the unit names with settings on the endpoint are exactly the unit
names of that service: no unit is missing and none is extra. It succeeds on the
wordpress model with settings for `wordpress/0`, `wordpress/1` and `mysql/0`. -/
theorem C2_validateRelations_only_when_settings_match (m : model)
    (h : m.validateRelations = none) :
    (∀ rel ∈ m.Relations_, ∀ ep ∈ rel.Endpoints_,
      ∃ s ∈ m.Services_, s.Name_ = ep.ServiceName_ ∧ m.service ep.ServiceName_ = some s ∧
        (∀ u ∈ s.Units_, ∃ p ∈ ep.UnitSettings_, p.1 = u.Name_) ∧
        (∀ p ∈ ep.UnitSettings_, ∃ u ∈ s.Units_, u.Name_ = p.1)) ∧
    wordpressModelWithSettings.validateRelations = none := by
  refine ⟨?_, by decide⟩
  intro rel hrel ep hep
  obtain ⟨s, hs, hmatch⟩ := (validateEndpoint_eq_none_iff_settingsMatch m rel ep).mp
    ((validateRelations_eq_none_iff m).mp h rel hrel ep hep)
  obtain ⟨hmem, hname⟩ := service_eq_some m _ s hs
  exact ⟨s, hmem, hname, hs, hmatch.1, hmatch.2⟩

/-- C2 at the wordpress model with all settings. -/
theorem C2_witness :
    wordpressModelWithSettings.validateRelations = none ∧
    ((∀ rel ∈ wordpressModelWithSettings.Relations_, ∀ ep ∈ rel.Endpoints_,
      ∃ s ∈ wordpressModelWithSettings.Services_, s.Name_ = ep.ServiceName_ ∧
        wordpressModelWithSettings.service ep.ServiceName_ = some s ∧
        (∀ u ∈ s.Units_, ∃ p ∈ ep.UnitSettings_, p.1 = u.Name_) ∧
        (∀ p ∈ ep.UnitSettings_, ∃ u ∈ s.Units_, u.Name_ = p.1)) ∧
    wordpressModelWithSettings.validateRelations = none) :=
  ⟨by decide, C2_validateRelations_only_when_settings_match wordpressModelWithSettings
    (by decide)⟩

/-- C3: in a model that passes the owner, machine, service and open-port checks,
when the first endpoint that the relation check rejects (in relation order, then
endpoint order) is of an existing service `s` (the one the lookup of its service
name finds) and some unit of `s` has no settings on it, `Validate` fails with the message
`missing relation settings for units L in relation id`, where `id` is the id of
the relation of that endpoint and `L` lists, in strictly increasing order,
exactly the unit names of `s` without settings on the endpoint. On the wordpress
model without settings the units are `[wordpress/0 wordpress/1]`. -/
theorem C3_missing_relation_settings (m : model) (howner : m.Owner_ ≠ "")
    (hmachines : ∀ mc ∈ m.Machines_, mc.Id_ ≠ "")
    (hservices : ∀ s ∈ m.Services_, s.Name_ ≠ "")
    (hports : m.openPortUnitsKnown)
    (rpre rpost : List relation) (rel : relation) (epre epost : List endpoint) (ep : endpoint)
    (s : service)
    (hrels : m.Relations_ = rpre ++ rel :: rpost)
    (heps : rel.Endpoints_ = epre ++ ep :: epost)
    (hrpre : ∀ r ∈ rpre, ∀ x ∈ r.Endpoints_, m.validateEndpoint r x = none)
    (hepre : ∀ x ∈ epre, m.validateEndpoint rel x = none)
    (hs : m.service ep.ServiceName_ = some s)
    (hmiss : ∃ u ∈ s.Units_, ∀ p ∈ ep.UnitSettings_, p.1 ≠ u.Name_) :
    (∃ L : List String,
      m.Validate = some (Errorf ("missing relation settings for units " ++ fmtStrings L ++
        " in relation " ++ fmtInt rel.Id_)) ∧
      L.Sorted (fun a b : String => a < b) ∧
      ∀ x, x ∈ L ↔ (∃ u ∈ s.Units_, u.Name_ = x) ∧ ¬ ∃ p ∈ ep.UnitSettings_, p.1 = x) ∧
    wordpressModel.Validate =
      some (Errorf "missing relation settings for units [wordpress/0 wordpress/1] in relation 42") := by
  refine ⟨⟨(s.unitNames.Difference ep.unitNames).SortedValues, ?_, ?_, ?_⟩, by decide⟩
  · rw [Validate_eq_validateRelations m howner hmachines hservices hports]
    apply validateRelations_first m rpre rpost rel epre epost ep _ hrels heps hrpre hepre
    apply validateEndpoint_missing m rel ep s hs
    obtain ⟨u, hu, hnone⟩ := hmiss
    refine ⟨u.Name_, (service_mem_unitNames s _).mpr ⟨u, hu, rfl⟩, ?_⟩
    rw [endpoint_mem_unitNames]
    rintro ⟨st, hst⟩
    exact hnone (u.Name_, st) hst rfl
  · exact Strings.sorted_SortedValues _
      (Strings.nodup_Difference _ _ (nodup_NewStrings _))
  · intro x
    rw [Strings.mem_SortedValues, Strings.mem_Difference, service_mem_unitNames,
      endpoint_mem_unitNames]
    constructor
    · rintro ⟨h1, h2⟩
      exact ⟨h1, fun ⟨p, hp, hpx⟩ => h2 ⟨p.2, by rw [← hpx]; exact hp⟩⟩
    · rintro ⟨h1, h2⟩
      exact ⟨h1, fun ⟨st, hst⟩ => h2 ⟨(x, st), hst, rfl⟩⟩

/-- C3 at the wordpress model with settings on the `wordpress` endpoint only: the
first rejected endpoint is the second one, of service `mysql`. -/
theorem C3_witness :
    (∃ L : List String,
      (wordpressModelWith [("wordpress/0", []), ("wordpress/1", [])] []).Validate =
        some (Errorf ("missing relation settings for units " ++ fmtStrings L ++
          " in relation " ++ fmtInt 42)) ∧
      L.Sorted (fun a b : String => a < b) ∧
      ∀ x, x ∈ L ↔ (∃ u ∈ [({ Name_ := "mysql/0", Machine_ := "0" } : unit)], u.Name_ = x) ∧
        ¬ ∃ p ∈ ([] : List (String × List (String × String))), p.1 = x) ∧
    wordpressModel.Validate =
      some (Errorf "missing relation settings for units [wordpress/0 wordpress/1] in relation 42") :=
  C3_missing_relation_settings
    (wordpressModelWith [("wordpress/0", []), ("wordpress/1", [])] [])
    (by decide) (by decide) (by decide) (by decide)
    [] []
    { Id_ := 42, Key_ := "special key"
      Endpoints_ :=
        [{ ServiceName_ := "wordpress", Name_ := "db"
           UnitSettings_ := [("wordpress/0", []), ("wordpress/1", [])] },
         { ServiceName_ := "mysql", Name_ := "mysql", UnitSettings_ := [] }] }
    [{ ServiceName_ := "wordpress", Name_ := "db"
       UnitSettings_ := [("wordpress/0", []), ("wordpress/1", [])] }]
    []
    { ServiceName_ := "mysql", Name_ := "mysql", UnitSettings_ := [] }
    { Name_ := "mysql", Units_ := [{ Name_ := "mysql/0", Machine_ := "0" }] }
    rfl rfl (by decide) (by decide) (by decide) (by decide)

/-- C4 (as amended): in a model that passes the owner, machine, service and
open-port checks, when the first endpoint that the relation check rejects (in
relation order, then endpoint order) is of an existing service `s` (the one the
lookup of its service name finds) whose units all have settings on it and it also has settings for a name that is not a unit
of `s`, `Validate` fails with the message
`settings for unknown units L in relation id`, where `id` is the id of the
relation of that endpoint and `L` lists, in strictly increasing order, exactly
the unit names with settings on the endpoint that are not units of `s`. -/
theorem C4_settings_for_unknown_units (m : model) (howner : m.Owner_ ≠ "")
    (hmachines : ∀ mc ∈ m.Machines_, mc.Id_ ≠ "")
    (hservices : ∀ s ∈ m.Services_, s.Name_ ≠ "")
    (hports : m.openPortUnitsKnown)
    (rpre rpost : List relation) (rel : relation) (epre epost : List endpoint) (ep : endpoint)
    (s : service)
    (hrels : m.Relations_ = rpre ++ rel :: rpost)
    (heps : rel.Endpoints_ = epre ++ ep :: epost)
    (hrpre : ∀ r ∈ rpre, ∀ x ∈ r.Endpoints_, m.validateEndpoint r x = none)
    (hepre : ∀ x ∈ epre, m.validateEndpoint rel x = none)
    (hs : m.service ep.ServiceName_ = some s)
    (hall : ∀ u ∈ s.Units_, ∃ p ∈ ep.UnitSettings_, p.1 = u.Name_)
    (hextra : ∃ p ∈ ep.UnitSettings_, ∀ u ∈ s.Units_, u.Name_ ≠ p.1) :
    ∃ L : List String,
      m.Validate = some (Errorf ("settings for unknown units " ++ fmtStrings L ++
        " in relation " ++ fmtInt rel.Id_)) ∧
      L.Sorted (fun a b : String => a < b) ∧
      ∀ x, x ∈ L ↔ (∃ p ∈ ep.UnitSettings_, p.1 = x) ∧ ¬ ∃ u ∈ s.Units_, u.Name_ = x := by
  refine ⟨(ep.unitNames.Difference s.unitNames).SortedValues, ?_, ?_, ?_⟩
  · rw [Validate_eq_validateRelations m howner hmachines hservices hports]
    apply validateRelations_first m rpre rpost rel epre epost ep _ hrels heps hrpre hepre
    apply validateEndpoint_extra m rel ep s hs
    · intro x hx
      obtain ⟨u, hu, hux⟩ := (service_mem_unitNames s x).mp hx
      obtain ⟨p, hp, hpu⟩ := hall u hu
      rw [endpoint_mem_unitNames]
      exact ⟨p.2, by rw [← hux, ← hpu]; exact hp⟩
    · obtain ⟨p, hp, hnone⟩ := hextra
      refine ⟨p.1, (endpoint_mem_unitNames ep _).mpr ⟨p.2, hp⟩, ?_⟩
      rw [service_mem_unitNames]
      rintro ⟨u, hu, hup⟩
      exact hnone u hu hup
  · exact Strings.sorted_SortedValues _
      (Strings.nodup_Difference _ _ (nodup_NewStrings _))
  · intro x
    rw [Strings.mem_SortedValues, Strings.mem_Difference, service_mem_unitNames,
      endpoint_mem_unitNames]
    constructor
    · rintro ⟨⟨st, hst⟩, h2⟩
      exact ⟨⟨(x, st), hst, rfl⟩, h2⟩
    · rintro ⟨⟨p, hp, hpx⟩, h2⟩
      exact ⟨⟨p.2, by rw [← hpx]; exact hp⟩, h2⟩

/-- C4 at `extraSettingsModel`: the first rejected endpoint is the second one, of
service `mysql`, with settings for `mysql/7` and `mysql/3`; the message lists
them sorted. -/
theorem C4_witness :
    extraSettingsModel.Validate =
      some (Errorf "settings for unknown units [mysql/3 mysql/7] in relation 42") ∧
    ∃ L : List String,
      extraSettingsModel.Validate = some (Errorf ("settings for unknown units " ++
        fmtStrings L ++ " in relation " ++ fmtInt 42)) ∧
      L.Sorted (fun a b : String => a < b) ∧
      ∀ x, x ∈ L ↔
        (∃ p ∈ ([("mysql/7", []), ("mysql/0", []), ("mysql/3", [])] :
          List (String × List (String × String))), p.1 = x) ∧
        ¬ ∃ u ∈ [({ Name_ := "mysql/0", Machine_ := "0" } : unit)], u.Name_ = x :=
  ⟨by decide,
   C4_settings_for_unknown_units extraSettingsModel
    (by decide) (by decide) (by decide) (by decide)
    [] []
    { Id_ := 42, Key_ := "special key"
      Endpoints_ :=
        [{ ServiceName_ := "wordpress", Name_ := "db"
           UnitSettings_ := [("wordpress/1", []), ("wordpress/0", [])] },
         { ServiceName_ := "mysql", Name_ := "mysql"
           UnitSettings_ := [("mysql/7", []), ("mysql/0", []), ("mysql/3", [])] }] }
    [{ ServiceName_ := "wordpress", Name_ := "db"
       UnitSettings_ := [("wordpress/1", []), ("wordpress/0", [])] }]
    []
    { ServiceName_ := "mysql", Name_ := "mysql"
      UnitSettings_ := [("mysql/7", []), ("mysql/0", []), ("mysql/3", [])] }
    { Name_ := "mysql", Units_ := [{ Name_ := "mysql/0", Machine_ := "0" }] }
    rfl rfl (by decide) (by decide) (by decide) (by decide) (by decide)⟩

/-- C4 (as stated) fails on `extraBehindMissingModel`: the `mysql` endpoint of
relation 42 is of the existing service `mysql`, whose one unit has settings on
it, and it has settings for `mysql/1`, which is not a unit of `mysql`; but the
`wordpress` endpoint comes first and lacks settings, so `Validate` fails with
the message about missing settings, not with
`settings for unknown units [mysql/1] in relation 42`. -/
theorem C4_counterexample :
    (∃ rel ∈ extraBehindMissingModel.Relations_, ∃ ep ∈ rel.Endpoints_,
      ∃ s ∈ extraBehindMissingModel.Services_,
        rel.Id_ = 42 ∧ ep.ServiceName_ = "mysql" ∧
        extraBehindMissingModel.service ep.ServiceName_ = some s ∧
        (∀ u ∈ s.Units_, ∃ p ∈ ep.UnitSettings_, p.1 = u.Name_) ∧
        (∃ p ∈ ep.UnitSettings_, p.1 = "mysql/1" ∧ ∀ u ∈ s.Units_, u.Name_ ≠ p.1)) ∧
    extraBehindMissingModel.Validate =
      some (Errorf "missing relation settings for units [wordpress/0 wordpress/1] in relation 42") ∧
    extraBehindMissingModel.Validate ≠
      some (Errorf "settings for unknown units [mysql/1] in relation 42") := by
  decide

/-- C5: in a model that passes the owner, machine, service and open-port checks,
when the first endpoint that the relation check rejects (in relation order, then
endpoint order) has a service name that no service of the model has, `Validate`
fails with the message `unknown service "name" for relation id id`, with the
service name of the endpoint as the verb `%q` writes it (a name of printable
ASCII characters without double quote and backslash is written as it is,
between double quotes; a rune that is not printable is escaped) and the id of
the relation of the endpoint. -/
theorem C5_unknown_service (m : model) (howner : m.Owner_ ≠ "")
    (hmachines : ∀ mc ∈ m.Machines_, mc.Id_ ≠ "")
    (hservices : ∀ s ∈ m.Services_, s.Name_ ≠ "")
    (hports : m.openPortUnitsKnown)
    (rpre rpost : List relation) (rel : relation) (epre epost : List endpoint) (ep : endpoint)
    (hrels : m.Relations_ = rpre ++ rel :: rpost)
    (heps : rel.Endpoints_ = epre ++ ep :: epost)
    (hrpre : ∀ r ∈ rpre, ∀ x ∈ r.Endpoints_, m.validateEndpoint r x = none)
    (hepre : ∀ x ∈ epre, m.validateEndpoint rel x = none)
    (hunknown : ∀ s ∈ m.Services_, s.Name_ ≠ ep.ServiceName_) :
    m.Validate = some (Errorf ("unknown service " ++ fmtQuote ep.ServiceName_ ++
      " for relation id " ++ fmtInt rel.Id_)) ∧
    ((∀ c ∈ ep.ServiceName_.toList,
        32 ≤ c.toNat ∧ c.toNat < 127 ∧ c.toNat ≠ 34 ∧ c.toNat ≠ 92) →
      fmtQuote ep.ServiceName_ = "\"" ++ ep.ServiceName_ ++ "\"") := by
  refine ⟨?_, fmtQuote_plain ep.ServiceName_⟩
  rw [Validate_eq_validateRelations m howner hmachines hservices hports]
  apply validateRelations_first m rpre rpost rel epre epost ep _ hrels heps hrpre hepre
  exact validateEndpoint_unknown m rel ep
    ((service_eq_none_iff m ep.ServiceName_).mpr hunknown)

/-- C5 at `unknownServiceModel`: relation 42 passes, the first endpoint of
relation 43 passes, and the second is of the unknown service `ghost`. At
`unprintableServiceModel` the name is written with the escape of U+200B. -/
theorem C5_witness :
    unknownServiceModel.Validate =
      some (Errorf "unknown service \"ghost\" for relation id 43") ∧
    unprintableServiceModel.Validate =
      some (Errorf "unknown service \"my\\u200bsql\" for relation id 7") ∧
    (unknownServiceModel.Validate = some (Errorf ("unknown service " ++ fmtQuote "ghost" ++
      " for relation id " ++ fmtInt 43)) ∧
    ((∀ c ∈ "ghost".toList,
        32 ≤ c.toNat ∧ c.toNat < 127 ∧ c.toNat ≠ 34 ∧ c.toNat ≠ 92) →
      fmtQuote "ghost" = "\"" ++ "ghost" ++ "\"")) :=
  ⟨by decide, by decide,
   C5_unknown_service unknownServiceModel
    (by decide) (by decide) (by decide) (by decide)
    wordpressModelWithSettings.Relations_ []
    { Id_ := 43
      Endpoints_ :=
        [{ ServiceName_ := "mysql", UnitSettings_ := [("mysql/0", [])] },
         { ServiceName_ := "ghost" }] }
    [{ ServiceName_ := "mysql", UnitSettings_ := [("mysql/0", [])] }]
    []
    { ServiceName_ := "ghost" }
    rfl rfl (by decide) (by decide) (by decide)⟩

/-- C6: on a model with an empty owner `Validate` fails, whatever the machines,
services and relations are, with the not-valid error whose message is
`missing model owner not valid`; on a model with a non-empty owner no error of
`Validate` has that message. -/
theorem C6_missing_owner (m : model) :
    (m.Owner_ = "" →
      m.Validate = some (NotValidf "missing model owner") ∧
      (NotValidf "missing model owner").msg = "missing model owner not valid" ∧
      IsNotValid (NotValidf "missing model owner") = true) ∧
    (m.Owner_ ≠ "" → ∀ e, m.Validate = some e → e.msg ≠ "missing model owner not valid") := by
  constructor
  · intro howner
    refine ⟨?_, by decide, by decide⟩
    simp [model.Validate, howner]
  · intro howner e h
    rcases Validate_error_cases m e h with ⟨ho, -⟩ | ⟨-, hcases⟩
    · exact absurd ho howner
    · rcases hcases with he | he | ⟨L, he⟩ | ⟨rel, -, ep, -, hve⟩
      · rw [he]; decide
      · rw [he]; decide
      · rw [he]
        exact append_ne_of_not_prefix _ _ _ (by decide)
      · rcases validateEndpoint_error_cases m rel ep e hve with he | ⟨L, he⟩ | ⟨L, he⟩
        · rw [he]
          simp only [Errorf, String.append_assoc]
          exact append_ne_of_not_prefix _ _ _ (by decide)
        · rw [he]
          simp only [Errorf, String.append_assoc]
          exact append_ne_of_not_prefix _ _ _ (by decide)
        · rw [he]
          simp only [Errorf, String.append_assoc]
          exact append_ne_of_not_prefix _ _ _ (by decide)

/-- C6 at the model of `TestModelValidation` and, for the converse, at the
wordpress model without settings. -/
theorem C6_witness :
    (ownerlessModel.Validate = some (NotValidf "missing model owner") ∧
      (NotValidf "missing model owner").msg = "missing model owner not valid" ∧
      IsNotValid (NotValidf "missing model owner") = true) ∧
    ∀ e, wordpressModel.Validate = some e → e.msg ≠ "missing model owner not valid" :=
  ⟨(C6_missing_owner ownerlessModel).1 (by decide),
   (C6_missing_owner wordpressModel).2 (by decide)⟩

/-- C7: in a model with a non-empty owner whose machines all have an id and whose
services all have a name, when some unit name of an open port range is not a
unit name of any service, `Validate` fails with the message
`unknown unit names in open ports: L`, where `L` lists, in strictly increasing
order (so each once), exactly the unit names of open port ranges that no service
owns. -/
theorem C7_unknown_units_in_open_ports (m : model) (howner : m.Owner_ ≠ "")
    (hmachines : ∀ mc ∈ m.Machines_, mc.Id_ ≠ "")
    (hservices : ∀ s ∈ m.Services_, s.Name_ ≠ "")
    (hunknown : ¬ m.openPortUnitsKnown) :
    ∃ L : List String,
      m.Validate = some (Errorf ("unknown unit names in open ports: " ++ fmtStrings L)) ∧
      L.Sorted (fun a b : String => a < b) ∧
      ∀ x, x ∈ L ↔
        (∃ mc ∈ m.Machines_, ∃ np ∈ mc.NetworkPorts_, ∃ pr ∈ np.OpenPorts_,
          pr.UnitName_ = x) ∧
        ¬ ∃ s ∈ m.Services_, ∃ u ∈ s.Units_, u.Name_ = x := by
  obtain ⟨U, A, hnd, hU, hA, hV⟩ := Validate_after_entity_checks m howner hmachines hservices
  have hpos : (U.Difference A).length > 0 := by
    by_contra hn
    exact hunknown ((openPortUnitsKnown_iff m U A hU hA).mpr hn)
  refine ⟨(U.Difference A).SortedValues, ?_, ?_, ?_⟩
  · rw [hV, if_pos hpos]
  · exact Strings.sorted_SortedValues _ (Strings.nodup_Difference _ _ hnd)
  · intro x
    rw [Strings.mem_SortedValues, Strings.mem_Difference, hU x, hA x]

/-- C7 at the model of `TestModelValidationChecksOpenPortsUnits`, whose message
names `[missing/0]`. -/
theorem C7_witness :
    openPortsModel.Validate =
      some (Errorf "unknown unit names in open ports: [missing/0]") ∧
    ∃ L : List String,
      openPortsModel.Validate =
        some (Errorf ("unknown unit names in open ports: " ++ fmtStrings L)) ∧
      L.Sorted (fun a b : String => a < b) ∧
      ∀ x, x ∈ L ↔
        (∃ mc ∈ openPortsModel.Machines_, ∃ np ∈ mc.NetworkPorts_, ∃ pr ∈ np.OpenPorts_,
          pr.UnitName_ = x) ∧
        ¬ ∃ s ∈ openPortsModel.Services_, ∃ u ∈ s.Units_, u.Name_ = x :=
  ⟨by decide,
   C7_unknown_units_in_open_ports openPortsModel (by decide) (by decide) (by decide)
    (by decide)⟩

/-- C8: take a model that passes the owner, machine and service checks, whose
relation check passes, and in which every unit name of an open port range is
either `u` or a unit name of some service. After `AddService` with a non-empty
name that no relation endpoint refers to, and `AddUnit` calls on the returned
service of which one is for the name `u`, `Validate` succeeds. -/
theorem C8_Validate_after_adding_service (m : model) (u : String) (howner : m.Owner_ ≠ "")
    (hmachines : ∀ mc ∈ m.Machines_, mc.Id_ ≠ "")
    (hservices : ∀ s ∈ m.Services_, s.Name_ ≠ "")
    (hports : ∀ mc ∈ m.Machines_, ∀ np ∈ mc.NetworkPorts_, ∀ pr ∈ np.OpenPorts_,
      pr.UnitName_ = u ∨ ∃ s ∈ m.Services_, ∃ x ∈ s.Units_, x.Name_ = pr.UnitName_)
    (hrels : m.validateRelations = none)
    (args : ServiceArgs) (units : List UnitArgs)
    (hname : args.Name ≠ "") (hunit : ∃ a ∈ units, a.Name = u)
    (hunref : ∀ rel ∈ m.Relations_, ∀ ep ∈ rel.Endpoints_, ep.ServiceName_ ≠ args.Name) :
    (m.AddServiceWithUnits args units).Validate = none := by
  have key : ∀ m2 : model, m2.Owner_ = m.Owner_ → m2.Machines_ = m.Machines_ →
      m2.Relations_ = m.Relations_ →
      m2.Services_ = m.Services_ ++
        [({ Name_ := args.Name
            Units_ := units.map
              (fun a => ({ Name_ := a.Name, Machine_ := a.Machine } : unit)) } : service)] →
      m2.Validate = none := by
    intro m2 ho hm hr hsv
    have hlookup : ∀ name, name ≠ args.Name → m2.service name = m.service name := by
      intro name hne
      have h := service_append_of_ne m
        { Name_ := args.Name
          Units_ := units.map (fun a => ({ Name_ := a.Name, Machine_ := a.Machine } : unit)) }
        name hne
      simp only [model.service] at h ⊢
      rw [hsv]
      exact h
    have howner2 : m2.Owner_ ≠ "" := by rw [ho]; exact howner
    have hmachines2 : ∀ mc ∈ m2.Machines_, mc.Id_ ≠ "" := by rw [hm]; exact hmachines
    have hservices2 : ∀ s ∈ m2.Services_, s.Name_ ≠ "" := by
      rw [hsv]
      intro s hs
      rcases List.mem_append.mp hs with hs | hs
      · exact hservices s hs
      · rw [List.mem_singleton.mp hs]
        exact hname
    have hports2 : m2.openPortUnitsKnown := by
      unfold model.openPortUnitsKnown
      rw [hm, hsv]
      intro mc hmc np hnp pr hpr
      rcases hports mc hmc np hnp pr hpr with hu | ⟨s, hs, x, hx, hxn⟩
      · obtain ⟨a, ha, hau⟩ := hunit
        refine ⟨_, List.mem_append_right _ (List.mem_singleton_self _),
          { Name_ := a.Name, Machine_ := a.Machine }, ?_, ?_⟩
        · exact List.mem_map.mpr ⟨a, ha, rfl⟩
        · rw [hu]; exact hau
      · exact ⟨s, List.mem_append_left _ hs, x, hx, hxn⟩
    rw [Validate_eq_validateRelations m2 howner2 hmachines2 hservices2 hports2,
      validateRelations_eq_none_iff, hr]
    intro rel hrel ep hep
    rw [validateEndpoint_congr m m2 rel ep (hlookup _ (hunref rel hrel ep hep))]
    exact (validateRelations_eq_none_iff m).mp hrels rel hrel ep hep
  rw [AddServiceWithUnits_eq]
  exact key _ rfl rfl rfl rfl

/-- C8 at the model of `TestModelValidationChecksOpenPortsUnits`, which fails for
`missing/0` alone, and at the wordpress model with an open port for `cache/0`:
after the service `cache` with the units `cache/0` and `cache/1` is added,
`Validate` succeeds. -/
theorem C8_witness :
    openPortsModel.Validate =
      some (Errorf "unknown unit names in open ports: [missing/0]") ∧
    (openPortsModel.AddServiceWithUnits { Name := "missing" }
      [{ Name := "missing/0", Machine := "0" }]).Validate = none ∧
    wordpressOpenPortModel.Validate =
      some (Errorf "unknown unit names in open ports: [cache/0]") ∧
    (wordpressOpenPortModel.AddServiceWithUnits { Name := "cache" }
      [{ Name := "cache/0", Machine := "7" }, { Name := "cache/1", Machine := "7" }]).Validate =
      none :=
  ⟨by decide,
   C8_Validate_after_adding_service openPortsModel "missing/0"
    (by decide) (by decide) (by decide) (by decide) (by decide)
    { Name := "missing" } [{ Name := "missing/0", Machine := "0" }]
    (by decide) (by decide) (by decide),
   by decide,
   C8_Validate_after_adding_service wordpressOpenPortModel "cache/0"
    (by decide) (by decide) (by decide) (by decide) (by decide)
    { Name := "cache" }
    [{ Name := "cache/0", Machine := "7" }, { Name := "cache/1", Machine := "7" }]
    (by decide) (by decide) (by decide)⟩

/-- C9: in a model with a non-empty owner that has a machine without an id,
`Validate` fails with the error that `machine.Validate` gives for the first such
machine in insertion order: a not-valid error with the message
`machine missing id not valid`. -/
theorem C9_machine_without_id (m : model) (howner : m.Owner_ ≠ "")
    (h : ∃ mc ∈ m.Machines_, mc.Id_ = "") :
    ∃ (pre post : List machine) (mc : machine) (e : Err),
      m.Machines_ = pre ++ mc :: post ∧ (∀ x ∈ pre, x.Id_ ≠ "") ∧ mc.Id_ = "" ∧
      mc.Validate = some e ∧ m.Validate = some (Trace e) ∧
      (Trace e).msg = "machine missing id not valid" ∧ IsNotValid (Trace e) = true := by
  obtain ⟨pre, mc, post, hsplit, hpre, hmc⟩ :=
    exists_first_split (fun mc : machine => mc.Id_ = "") m.Machines_ h
  refine ⟨pre, post, mc, NotValidf "machine missing id", hsplit, hpre, hmc, ?_, ?_,
    by decide, by decide⟩
  · simp [machine.Validate, hmc]
  · exact Validate_machine_without_id m howner pre post mc hsplit hpre hmc

/-- C9 at the model of `TestModelValidationChecksMachines` and at a model whose
second and fourth machines have no id. -/
theorem C9_witness :
    machineWithoutIdModel.Validate = some (NotValidf "machine missing id") ∧
    ∃ (pre post : List machine) (mc : machine) (e : Err),
      machinesWithoutIdModel.Machines_ = pre ++ mc :: post ∧ (∀ x ∈ pre, x.Id_ ≠ "") ∧
      mc.Id_ = "" ∧ mc.Validate = some e ∧ machinesWithoutIdModel.Validate = some (Trace e) ∧
      (Trace e).msg = "machine missing id not valid" ∧ IsNotValid (Trace e) = true :=
  ⟨by decide, C9_machine_without_id machinesWithoutIdModel (by decide) (by decide)⟩

/-- C10: in a model with a non-empty owner whose machines all have an id and that
has a service without a name, `Validate` fails with the error that
`service.Validate` gives for the first such service: a not-valid error with the
message `service missing name not valid`. Nothing is asked of the open ports,
so this holds also when they name unknown units. -/
theorem C10_service_without_name (m : model) (howner : m.Owner_ ≠ "")
    (hmachines : ∀ mc ∈ m.Machines_, mc.Id_ ≠ "")
    (h : ∃ s ∈ m.Services_, s.Name_ = "") :
    ∃ (pre post : List service) (s : service) (e : Err),
      m.Services_ = pre ++ s :: post ∧ (∀ x ∈ pre, x.Name_ ≠ "") ∧ s.Name_ = "" ∧
      s.Validate = some e ∧ m.Validate = some (Trace e) ∧
      (Trace e).msg = "service missing name not valid" ∧ IsNotValid (Trace e) = true := by
  obtain ⟨pre, s, post, hsplit, hpre, hs⟩ :=
    exists_first_split (fun s : service => s.Name_ = "") m.Services_ h
  refine ⟨pre, post, s, NotValidf "service missing name", hsplit, hpre, hs, ?_, ?_,
    by decide, by decide⟩
  · simp [service.Validate, hs]
  · exact Validate_service_without_name m howner hmachines pre post s hsplit hpre hs

/-- C10 at the model of `TestModelValidationChecksServices` and at a model that
also has an open port range for an unknown unit. -/
theorem C10_witness :
    serviceWithoutNameModel.Validate = some (NotValidf "service missing name") ∧
    ¬ openPortsNamelessServiceModel.openPortUnitsKnown ∧
    ∃ (pre post : List service) (s : service) (e : Err),
      openPortsNamelessServiceModel.Services_ = pre ++ s :: post ∧
      (∀ x ∈ pre, x.Name_ ≠ "") ∧ s.Name_ = "" ∧ s.Validate = some e ∧
      openPortsNamelessServiceModel.Validate = some (Trace e) ∧
      (Trace e).msg = "service missing name not valid" ∧ IsNotValid (Trace e) = true :=
  ⟨by decide, by decide,
   C10_service_without_name openPortsNamelessServiceModel (by decide) (by decide)
    (by decide)⟩

/-! ## The error classes of `Validate` -/

/-- C11 (as amended): an error of `Validate` is of the not-valid class exactly
when it is the error for a missing owner, a missing machine id or a missing
service name. When the owner is set, every machine has an id and every service
has a name, the error (for unit names of open ports that no service owns, or
for a relation endpoint) is a plain error that `errors.IsNotValid` rejects. -/
theorem C11_not_valid_class (m : model) (e : Err) (h : m.Validate = some e) :
    IsNotValid e = true ↔
      (m.Owner_ = "" ∨ (∃ mc ∈ m.Machines_, mc.Id_ = "") ∨ ∃ s ∈ m.Services_, s.Name_ = "") := by
  by_cases howner : m.Owner_ = ""
  · have hv : m.Validate = some (NotValidf "missing model owner") := by
      simp [model.Validate, howner]
    rw [hv, Option.some.injEq] at h
    rw [← h]
    exact ⟨fun _ => Or.inl howner, fun _ => by decide⟩
  · by_cases hmachines : ∃ mc ∈ m.Machines_, mc.Id_ = ""
    · obtain ⟨pre, x, post, hsplit, hpre, hx⟩ :=
        exists_first_split (fun mc : machine => mc.Id_ = "") m.Machines_ hmachines
      rw [Validate_machine_without_id m howner pre post x hsplit hpre hx,
        Option.some.injEq] at h
      rw [← h]
      exact ⟨fun _ => Or.inr (Or.inl hmachines), fun _ => by decide⟩
    · have hm : ∀ mc ∈ m.Machines_, mc.Id_ ≠ "" := fun mc hmc hid => hmachines ⟨mc, hmc, hid⟩
      by_cases hservices : ∃ s ∈ m.Services_, s.Name_ = ""
      · obtain ⟨pre, x, post, hsplit, hpre, hx⟩ :=
          exists_first_split (fun s : service => s.Name_ = "") m.Services_ hservices
        rw [Validate_service_without_name m howner hm pre post x hsplit hpre hx,
          Option.some.injEq] at h
        rw [← h]
        exact ⟨fun _ => Or.inr (Or.inr hservices), fun _ => by decide⟩
      · have hsv : ∀ s ∈ m.Services_, s.Name_ ≠ "" :=
          fun s hs hname => hservices ⟨s, hs, hname⟩
        have hplain : IsNotValid e = false := by
          obtain ⟨U, A, -, -, -, hV⟩ := Validate_after_entity_checks m howner hm hsv
          rw [hV] at h
          by_cases hpos : (U.Difference A).length > 0
          · rw [if_pos hpos, Option.some.injEq] at h
            rw [← h]; rfl
          · rw [if_neg hpos] at h
            obtain ⟨rel, -, hfe⟩ := firstError_eq_some _ _ _ h
            obtain ⟨ep, -, hve⟩ := firstError_eq_some _ _ _ hfe
            rcases validateEndpoint_error_cases m rel ep e hve with he | ⟨L, he⟩ | ⟨L, he⟩ <;>
              (rw [he]; rfl)
        rw [hplain]
        constructor
        · intro hf; exact absurd hf (by decide)
        · rintro (ho | hmc | hs)
          · exact absurd ho howner
          · exact absurd hmc hmachines
          · exact absurd hs hservices

/-- C11 at the model of `TestModelValidationChecksMachines` (a not-valid error)
and at the wordpress model without settings (a plain error). -/
theorem C11_witness :
    (IsNotValid (NotValidf "machine missing id") = true ↔
      (machineWithoutIdModel.Owner_ = "" ∨
        (∃ mc ∈ machineWithoutIdModel.Machines_, mc.Id_ = "") ∨
        ∃ s ∈ machineWithoutIdModel.Services_, s.Name_ = "")) ∧
    (IsNotValid (Errorf
        "missing relation settings for units [wordpress/0 wordpress/1] in relation 42") = true ↔
      (wordpressModel.Owner_ = "" ∨ (∃ mc ∈ wordpressModel.Machines_, mc.Id_ = "") ∨
        ∃ s ∈ wordpressModel.Services_, s.Name_ = "")) :=
  ⟨C11_not_valid_class machineWithoutIdModel _ (by decide),
   C11_not_valid_class wordpressModel _ (by decide)⟩

/-- C11 (as stated) fails: the error of `Validate` for a unit name of an open
port that no service owns, the error for an endpoint of an unknown service, the
error for missing relation settings and the error for settings of unknown units
are all plain errors, not of the not-valid class. -/
theorem C11_counterexample :
    (openPortsModel.Validate =
        some (Errorf "unknown unit names in open ports: [missing/0]") ∧
      IsNotValid (Errorf "unknown unit names in open ports: [missing/0]") = false) ∧
    (unknownServiceModel.Validate =
        some (Errorf "unknown service \"ghost\" for relation id 43") ∧
      IsNotValid (Errorf "unknown service \"ghost\" for relation id 43") = false) ∧
    (wordpressModel.Validate = some (Errorf
        "missing relation settings for units [wordpress/0 wordpress/1] in relation 42") ∧
      IsNotValid (Errorf
        "missing relation settings for units [wordpress/0 wordpress/1] in relation 42") =
        false) ∧
    (extraSettingsModel.Validate =
        some (Errorf "settings for unknown units [mysql/3 mysql/7] in relation 42") ∧
      IsNotValid (Errorf "settings for unknown units [mysql/3 mysql/7] in relation 42") =
        false) := by
  decide

/-! ## Deserialization -/

/-- C12: for every document in which the top-level key `version` is not there
(as in the nil map) or holds a value that is not an integer, `importModel`
gives no model and an error; the message is
`version: expected int, got nothing` when the key is not there and
`version: expected int, got string("hello")` when it holds the string `hello`. -/
theorem C12_version_absent_or_not_int (c : Collaborators) (source : Entries)
    (h : ∀ n, source.lookup "version" ≠ some (.int n)) :
    ∃ e, importModel c source = (none, some e) ∧
      (source.lookup "version" = none → e.msg = "version: expected int, got nothing") ∧
      (source.lookup "version" = some (.str "hello") →
        e.msg = "version: expected int, got string(\"hello\")") := by
  cases hl : source.lookup "version" with
  | none =>
    refine ⟨Trace (schemaError c.goSyntax "version" "int" .nothing), ?_, fun _ => rfl, ?_⟩
    · simp [importModel, getVersion, hl]
    · intro hh; simp at hh
  | some v =>
    cases v with
    | int n => exact absurd hl (h n)
    | nothing =>
      refine ⟨Trace (schemaError c.goSyntax "version" "int" .nothing), ?_, ?_, ?_⟩
      · simp [importModel, getVersion, hl]
      · intro hh; simp at hh
      · intro hh; simp at hh
    | str s =>
      refine ⟨Trace (schemaError c.goSyntax "version" "int" (.str s)), ?_, ?_, ?_⟩
      · simp [importModel, getVersion, hl]
      · intro hh; simp at hh
      · intro hh
        simp only [Option.some.injEq, Value.str.injEq] at hh
        rw [hh]
        rfl
    | list items =>
      refine ⟨Trace (schemaError c.goSyntax "version" "int" (.list items)), ?_, ?_, ?_⟩
      · simp [importModel, getVersion, hl]
      · intro hh; simp at hh
      · intro hh; simp at hh
    | map entries =>
      refine ⟨Trace (schemaError c.goSyntax "version" "int" (.map entries)), ?_, ?_, ?_⟩
      · simp [importModel, getVersion, hl]
      · intro hh; simp at hh
      · intro hh; simp at hh
    | other text =>
      refine ⟨Trace (schemaError c.goSyntax "version" "int" (.other text)), ?_, ?_, ?_⟩
      · simp [importModel, getVersion, hl]
      · intro hh; simp at hh
      · intro hh; simp at hh

/-- C12 at the documents of `TestNil` and `TestMissingVersion` (no entry) and of
`TestNonIntVersion` (the string `hello`). -/
theorem C12_witness :
    importModel emptyCollections .nil =
      (none, some (Errorf "version: expected int, got nothing")) ∧
    importModel emptyCollections (.ofList [("version", .str "hello")]) =
      (none, some (Errorf "version: expected int, got string(\"hello\")")) ∧
    (∃ e, importModel emptyCollections .nil = (none, some e) ∧
      (Entries.nil.lookup "version" = none → e.msg = "version: expected int, got nothing") ∧
      (Entries.nil.lookup "version" = some (.str "hello") →
        e.msg = "version: expected int, got string(\"hello\")")) ∧
    ∃ e, importModel emptyCollections (.ofList [("version", .str "hello")]) = (none, some e) ∧
      ((Entries.ofList [("version", .str "hello")]).lookup "version" = none →
        e.msg = "version: expected int, got nothing") ∧
      ((Entries.ofList [("version", .str "hello")]).lookup "version" = some (.str "hello") →
        e.msg = "version: expected int, got string(\"hello\")") :=
  ⟨by decide, by decide,
   C12_version_absent_or_not_int emptyCollections .nil
    (fun n hn => by simp [Entries.lookup] at hn),
   C12_version_absent_or_not_int emptyCollections (.ofList [("version", .str "hello")])
    (fun n hn => by simp [Entries.ofList, Entries.lookup] at hn)⟩

/-- C13: for every document whose top-level key `version` holds an integer `v`
other than 1, whatever its other entries are, `importModel` gives no model and
the not-valid error with the message `version v not valid`. -/
theorem C13_unknown_version (c : Collaborators) (source : Entries) (v : Int)
    (hv : source.lookup "version" = some (.int v)) (hne : v ≠ 1) :
    importModel c source = (none, some (NotValidf ("version " ++ fmtInt v))) ∧
    (NotValidf ("version " ++ fmtInt v)).msg = "version " ++ fmtInt v ++ " not valid" ∧
    IsNotValid (NotValidf ("version " ++ fmtInt v)) = true := by
  refine ⟨?_, rfl, rfl⟩
  simp [importModel, getVersion, hv, modelDeserializationFuncs, hne]

/-- C13 at the document of `TestUnknownVersion` and at the document of
`TestParsingOptionals` with the version changed to 0. -/
theorem C13_witness :
    importModel emptyCollections (.ofList [("version", .int 42)]) =
      (none, some { msg := "version 42 not valid", notValid := true }) ∧
    (importModel emptyCollections (.ofList [("version", .int 42)]) =
      (none, some (NotValidf ("version " ++ fmtInt 42))) ∧
    (NotValidf ("version " ++ fmtInt 42)).msg = "version " ++ fmtInt 42 ++ " not valid" ∧
    IsNotValid (NotValidf ("version " ++ fmtInt 42)) = true) ∧
    (importModel emptyCollections
        (.ofList [("owner", .str "magic"), ("config", .map .nil), ("version", .int 0),
          ("users", emptyCollection "users"), ("machines", emptyCollection "machines"),
          ("services", emptyCollection "services"),
          ("relations", emptyCollection "relations")]) =
      (none, some (NotValidf ("version " ++ fmtInt 0))) ∧
    (NotValidf ("version " ++ fmtInt 0)).msg = "version " ++ fmtInt 0 ++ " not valid" ∧
    IsNotValid (NotValidf ("version " ++ fmtInt 0)) = true) :=
  ⟨by decide,
   C13_unknown_version emptyCollections (.ofList [("version", .int 42)]) 42 (by decide)
    (by decide),
   C13_unknown_version emptyCollections _ 0 (by decide) (by decide)⟩

theorem importModelV1_allOrNothing (c : Collaborators) (source : Entries) :
    allOrNothing (importModelV1 c source) := by
  unfold importModelV1 allOrNothing
  repeat' split
  all_goals simp

theorem importModel_allOrNothing (c : Collaborators) (source : Entries) :
    allOrNothing (importModel c source) := by
  unfold importModel
  split
  · exact Or.inr ⟨_, rfl⟩
  · split
    · exact Or.inr ⟨_, rfl⟩
    · rename_i version importFunc hfunc
      unfold modelDeserializationFuncs at hfunc
      split at hfunc
      · simp only [Option.some.injEq] at hfunc
        rw [← hfunc]
        exact importModelV1_allOrNothing c source
      · simp at hfunc

theorem DeserializeModel_allOrNothing (c : Collaborators) (bytes : List Nat) :
    allOrNothing (DeserializeModel c bytes) := by
  unfold DeserializeModel
  split
  · exact Or.inr ⟨_, rfl⟩
  · rename_i source hyaml
    split
    · exact Or.inr ⟨_, rfl⟩
    · rename_i model himport
      rcases importModel_allOrNothing c source with ⟨m, hm⟩ | ⟨err, herr⟩
      · rw [hm] at himport
        simp only [Prod.mk.injEq] at himport
        rw [← himport.1]
        exact Or.inl ⟨m, rfl⟩
      · rw [herr] at himport
        simp at himport

/-- The one field that `addAnnotationSchema` adds. -/
theorem addAnnotationSchema_eq (fields : List Field) :
    addAnnotationSchema fields =
      fields ++ [{ name := "annotations", checker := .stringMapString, optional := true }] :=
  rfl

theorem coerceStringValues_of_strings (goSyntax : Value → String) (path : String) :
    (an : Entries) → (∀ kv ∈ an.toList, ∃ s, kv.2 = .str s) →
      coerceStringValues goSyntax path an = none
  | .nil, _ => rfl
  | .cons k v rest, h => by
    obtain ⟨s, hs⟩ := h (k, v) (by simp [Entries.toList])
    simp only at hs
    subst hs
    simp only [coerceStringValues]
    exact coerceStringValues_of_strings goSyntax path rest
      (fun kv hkv => h kv (by simp [Entries.toList, hkv]))

/-- The schema check of the annotation field: nothing when the document has no
annotations, the annotations when they are a map from strings to strings. -/
theorem fieldMapCoerce_annotations (goSyntax : Value → String) (source : Entries)
    (hann : source.lookup "annotations" = none ∨
      ∃ an, source.lookup "annotations" = some (.map an) ∧
        ∀ kv ∈ an.toList, ∃ s, kv.2 = .str s) :
    ∃ annPart : Entries,
      fieldMapCoerce goSyntax
        [{ name := "annotations", checker := .stringMapString, optional := true }] source =
        .ok annPart ∧
      annPart.lookup "latest-tools" = none := by
  rcases hann with hnone | ⟨an, hsome, hstr⟩
  · exact ⟨.nil, by simp [fieldMapCoerce, hnone], rfl⟩
  · refine ⟨.cons "annotations" (.map an) .nil, ?_, by simp [Entries.lookup]⟩
    simp [fieldMapCoerce, hsome, Checker.Coerce,
      coerceStringValues_of_strings goSyntax "annotations" an hstr]

/-- The schema check of `importModelV1` on a document with the required fields of
the right shape, given the result of the check of the annotation field. -/
theorem fieldMapCoerce_modelV1 (goSyntax : Value → String) (source : Entries)
    (o : String) (cfg us ms ss rs annPart : Entries)
    (howner : source.lookup "owner" = some (.str o))
    (hconfig : source.lookup "config" = some (.map cfg))
    (husers : source.lookup "users" = some (.map us))
    (hmachines : source.lookup "machines" = some (.map ms))
    (hservices : source.lookup "services" = some (.map ss))
    (hrelations : source.lookup "relations" = some (.map rs))
    (hann : fieldMapCoerce goSyntax
      [{ name := "annotations", checker := .stringMapString, optional := true }] source =
      .ok annPart) :
    fieldMapCoerce goSyntax modelV1Fields source =
      match source.lookup "latest-tools" with
      | none =>
        .ok (.cons "owner" (.str o) (.cons "config" (.map cfg) (.cons "users" (.map us)
          (.cons "machines" (.map ms) (.cons "services" (.map ss)
            (.cons "relations" (.map rs) annPart))))))
      | some (.str t) =>
        .ok (.cons "owner" (.str o) (.cons "config" (.map cfg)
          (.cons "latest-tools" (.str t) (.cons "users" (.map us)
            (.cons "machines" (.map ms) (.cons "services" (.map ss)
              (.cons "relations" (.map rs) annPart)))))))
      | some v => .error (schemaError goSyntax "latest-tools" "string" v) := by
  have hrest : ∀ (f : Field) (v newv : Value), source.lookup f.name = some v →
      f.checker.Coerce goSyntax v f.name = .ok newv → ∀ rest out,
      fieldMapCoerce goSyntax rest source = .ok out →
      fieldMapCoerce goSyntax (f :: rest) source = .ok (.cons f.name newv out) := by
    intro f v newv hl hc rest out hr
    simp [fieldMapCoerce, hl, hc, hr]
  have h6 := hrest { name := "relations", checker := .stringMapAny } _ _ hrelations rfl _ _ hann
  have h5 := hrest { name := "services", checker := .stringMapAny } _ _ hservices rfl _ _ h6
  have h4 := hrest { name := "machines", checker := .stringMapAny } _ _ hmachines rfl _ _ h5
  have h3 := hrest { name := "users", checker := .stringMapAny } _ _ husers rfl _ _ h4
  have h1 : ∀ rest out, fieldMapCoerce goSyntax rest source = .ok out →
      fieldMapCoerce goSyntax
        ({ name := "owner", checker := .string } ::
          { name := "config", checker := .stringMapAny } :: rest) source =
        .ok (.cons "owner" (.str o) (.cons "config" (.map cfg) out)) := by
    intro rest out hr
    exact hrest { name := "owner", checker := .string } _ _ howner rfl _ _
      (hrest { name := "config", checker := .stringMapAny } _ _ hconfig rfl _ _ hr)
  rw [modelV1Fields, addAnnotationSchema_eq]
  simp only [List.cons_append, List.nil_append]
  cases hl : source.lookup "latest-tools" with
  | none =>
    have h2 : fieldMapCoerce goSyntax
        ({ name := "latest-tools", checker := .string, optional := true } ::
          { name := "users", checker := .stringMapAny } ::
          { name := "machines", checker := .stringMapAny } ::
          { name := "services", checker := .stringMapAny } ::
          { name := "relations", checker := .stringMapAny } ::
          [{ name := "annotations", checker := .stringMapString, optional := true }]) source =
        .ok (.cons "users" (.map us) (.cons "machines" (.map ms) (.cons "services" (.map ss)
          (.cons "relations" (.map rs) annPart)))) := by
      rw [fieldMapCoerce]
      simp only [hl]
      exact h3
    exact h1 _ _ h2
  | some v =>
    cases v with
    | str t =>
      exact h1 _ _ (hrest { name := "latest-tools", checker := .string, optional := true }
        _ _ hl rfl _ _ h3)
    | nothing => simp [fieldMapCoerce, Checker.Coerce, howner, hconfig, hl]
    | int n => simp [fieldMapCoerce, Checker.Coerce, howner, hconfig, hl]
    | list items => simp [fieldMapCoerce, Checker.Coerce, howner, hconfig, hl]
    | map entries => simp [fieldMapCoerce, Checker.Coerce, howner, hconfig, hl]
    | other text => simp [fieldMapCoerce, Checker.Coerce, howner, hconfig, hl]

theorem Value.asString_str (s : String) : (Value.str s).asString = s := rfl

theorem Value.asMap_map (entries : Entries) : (Value.map entries).asMap = entries := rfl

/-- What `importModelV1` builds once the schema check has passed, the tools
version (when there) parses and no nested importer gives an error. -/
theorem importModelV1_ok (c : Collaborators) (source valid : Entries) (o : String)
    (cfg us ms ss rs : Entries) (tools : version.Number)
    (users : List user) (machines : List machine) (services : List service)
    (relations : List relation)
    (hco : fieldMapCoerce c.goSyntax modelV1Fields source = .ok valid)
    (hvo : valid.lookup "owner" = some (.str o))
    (hvc : valid.lookup "config" = some (.map cfg))
    (hvu : valid.lookup "users" = some (.map us))
    (hvm : valid.lookup "machines" = some (.map ms))
    (hvs : valid.lookup "services" = some (.map ss))
    (hvr : valid.lookup "relations" = some (.map rs))
    (htools : (valid.lookup "latest-tools" = none ∧ tools = version.Zero) ∨
      ∃ v, valid.lookup "latest-tools" = some v ∧ version.Parse v.asString = (tools, none))
    (hu : c.importUsers us = (users, none))
    (hm : c.importMachines ms = (machines, none))
    (hs : c.importServices ss = (services, none))
    (hr : c.importRelations rs = (relations, none)) :
    importModelV1 c source =
      (some { Version := 1, Owner_ := o, Config_ := cfg,
              Annotations_ := importAnnotations valid, LatestToolsVersion_ := tools,
              Users_ := users, Machines_ := machines, Services_ := services,
              Relations_ := relations }, none) := by
  rcases htools with ⟨hnone, hzero⟩ | ⟨v, hsome, hparse⟩
  · subst hzero
    simp [importModelV1, hco, hvo, hvc, hvu, hvm, hvs, hvr, hnone, hu, hm, hs, hr,
      Value.asString_str, Value.asMap_map]
  · simp [importModelV1, hco, hvo, hvc, hvu, hvm, hvs, hvr, hsome, hparse, hu, hm, hs, hr,
      Value.asString_str, Value.asMap_map]

/-- With version 1 in the document `importModel` is `importModelV1`. -/
theorem importModel_version_one (c : Collaborators) (source : Entries)
    (hversion : source.lookup "version" = some (.int 1)) :
    importModel c source = importModelV1 c source := by
  simp [importModel, getVersion, hversion, modelDeserializationFuncs]

/-- C15: take a version-1 document whose owner is a string, whose configuration,
users, machines, services and relations are maps, whose annotations (if any)
are a map from strings to strings, and on whose collections no nested importer
gives an error. Without the key `latest-tools` the import succeeds and the
latest tools version of the model is the zero version; with a string under
`latest-tools` that `Parse` accepts, the import succeeds and the latest tools
version is the parsed one; with a value under `latest-tools` that is not a
string that `Parse` accepts, the import gives no model and an error. -/
theorem C15_latest_tools_optional (c : Collaborators) (source : Entries) (o : String)
    (cfg us ms ss rs : Entries)
    (hversion : source.lookup "version" = some (.int 1))
    (howner : source.lookup "owner" = some (.str o))
    (hconfig : source.lookup "config" = some (.map cfg))
    (husers : source.lookup "users" = some (.map us))
    (hmachines : source.lookup "machines" = some (.map ms))
    (hservices : source.lookup "services" = some (.map ss))
    (hrelations : source.lookup "relations" = some (.map rs))
    (hann : source.lookup "annotations" = none ∨
      ∃ an, source.lookup "annotations" = some (.map an) ∧
        ∀ kv ∈ an.toList, ∃ s, kv.2 = .str s)
    (hu : (c.importUsers us).2 = none) (hm : (c.importMachines ms).2 = none)
    (hs : (c.importServices ss).2 = none) (hr : (c.importRelations rs).2 = none) :
    (source.lookup "latest-tools" = none →
      ∃ m, importModel c source = (some m, none) ∧ m.LatestToolsVersion_ = version.Zero) ∧
    (∀ t tools, source.lookup "latest-tools" = some (.str t) →
      version.Parse t = (tools, none) →
      ∃ m, importModel c source = (some m, none) ∧ m.LatestToolsVersion_ = tools) ∧
    (∀ v, source.lookup "latest-tools" = some v →
      (∀ t tools, v = .str t → version.Parse t ≠ (tools, none)) →
      ∃ err, importModel c source = (none, some err)) := by
  obtain ⟨annPart, hannPart, hannTools⟩ := fieldMapCoerce_annotations c.goSyntax source hann
  have hco := fieldMapCoerce_modelV1 c.goSyntax source o cfg us ms ss rs annPart howner hconfig
    husers hmachines hservices hrelations hannPart
  have hu2 : c.importUsers us = ((c.importUsers us).1, none) := Prod.ext rfl hu
  have hm2 : c.importMachines ms = ((c.importMachines ms).1, none) := Prod.ext rfl hm
  have hs2 : c.importServices ss = ((c.importServices ss).1, none) := Prod.ext rfl hs
  have hr2 : c.importRelations rs = ((c.importRelations rs).1, none) := Prod.ext rfl hr
  rw [importModel_version_one c source hversion]
  refine ⟨?_, ?_, ?_⟩
  · intro hl
    rw [hl] at hco
    refine ⟨_, importModelV1_ok c source _ o cfg us ms ss rs version.Zero _ _ _ _ hco
      (by simp [Entries.lookup]) (by simp [Entries.lookup]) (by simp [Entries.lookup])
      (by simp [Entries.lookup]) (by simp [Entries.lookup]) (by simp [Entries.lookup])
      (Or.inl ⟨by simp [Entries.lookup, hannTools], rfl⟩) hu2 hm2 hs2 hr2, rfl⟩
  · intro t tools hl hparse
    rw [hl] at hco
    refine ⟨_, importModelV1_ok c source _ o cfg us ms ss rs tools _ _ _ _ hco
      (by simp [Entries.lookup]) (by simp [Entries.lookup]) (by simp [Entries.lookup])
      (by simp [Entries.lookup]) (by simp [Entries.lookup]) (by simp [Entries.lookup])
      (Or.inr ⟨.str t, by simp [Entries.lookup], hparse⟩)
      hu2 hm2 hs2 hr2, rfl⟩
  · intro v hl hbad
    rw [hl] at hco
    cases v with
    | str t =>
      have hco2 : fieldMapCoerce c.goSyntax modelV1Fields source =
          .ok (.cons "owner" (.str o) (.cons "config" (.map cfg)
            (.cons "latest-tools" (.str t) (.cons "users" (.map us)
              (.cons "machines" (.map ms) (.cons "services" (.map ss)
                (.cons "relations" (.map rs) annPart))))))) := hco
      rcases hparse : version.Parse t with ⟨tools, _ | err⟩
      · exact absurd hparse (hbad t tools rfl)
      · refine ⟨Trace err, ?_⟩
        simp [importModelV1, hco2, Entries.lookup, Value.asString_str, hparse]
    | nothing =>
      have hco2 : fieldMapCoerce c.goSyntax modelV1Fields source =
          .error (schemaError c.goSyntax "latest-tools" "string" Value.nothing) := hco
      exact ⟨Annotate (schemaError c.goSyntax "latest-tools" "string" Value.nothing)
        "model v1 schema check failed", by simp [importModelV1, hco2]⟩
    | int n =>
      have hco2 : fieldMapCoerce c.goSyntax modelV1Fields source =
          .error (schemaError c.goSyntax "latest-tools" "string" (Value.int n)) := hco
      exact ⟨Annotate (schemaError c.goSyntax "latest-tools" "string" (Value.int n))
        "model v1 schema check failed", by simp [importModelV1, hco2]⟩
    | list items =>
      have hco2 : fieldMapCoerce c.goSyntax modelV1Fields source =
          .error (schemaError c.goSyntax "latest-tools" "string" (Value.list items)) := hco
      exact ⟨Annotate (schemaError c.goSyntax "latest-tools" "string" (Value.list items))
        "model v1 schema check failed", by simp [importModelV1, hco2]⟩
    | map entries =>
      have hco2 : fieldMapCoerce c.goSyntax modelV1Fields source =
          .error (schemaError c.goSyntax "latest-tools" "string" (Value.map entries)) := hco
      exact ⟨Annotate (schemaError c.goSyntax "latest-tools" "string" (Value.map entries))
        "model v1 schema check failed", by simp [importModelV1, hco2]⟩
    | other text =>
      have hco2 : fieldMapCoerce c.goSyntax modelV1Fields source =
          .error (schemaError c.goSyntax "latest-tools" "string" (Value.other text)) := hco
      exact ⟨Annotate (schemaError c.goSyntax "latest-tools" "string" (Value.other text))
        "model v1 schema check failed", by simp [importModelV1, hco2]⟩

/-- C15 at the document of `TestParsingOptionals`, which has no `latest-tools`,
and at that document with `latest-tools` set to `2.0.1` and to `two`. -/
theorem C15_witness :
    (∃ m, importModel emptyCollections (optionalsDocWith []) = (some m, none) ∧
      m.LatestToolsVersion_ = version.Zero) ∧
    (∃ m, importModel emptyCollections (optionalsDocWith [("latest-tools", .str "2.0.1")]) =
        (some m, none) ∧
      m.LatestToolsVersion_ = { Major := 2, Minor := 0, Patch := 1 }) ∧
    ∃ err, importModel emptyCollections (optionalsDocWith [("latest-tools", .str "two")]) =
      (none, some err) :=
  ⟨(C15_latest_tools_optional emptyCollections (optionalsDocWith []) "magic"
      (.ofList [("name", .str "awesome"), ("uuid", .str "some-uuid")])
      (.ofList [("version", .int 1), ("users", .list .nil)])
      (.ofList [("version", .int 1), ("machines", .list .nil)])
      (.ofList [("version", .int 1), ("services", .list .nil)])
      (.ofList [("version", .int 1), ("relations", .list .nil)])
      rfl rfl rfl rfl rfl rfl rfl (Or.inl rfl) rfl rfl rfl rfl).1 rfl,
   (C15_latest_tools_optional emptyCollections
      (optionalsDocWith [("latest-tools", .str "2.0.1")]) "magic"
      (.ofList [("name", .str "awesome"), ("uuid", .str "some-uuid")])
      (.ofList [("version", .int 1), ("users", .list .nil)])
      (.ofList [("version", .int 1), ("machines", .list .nil)])
      (.ofList [("version", .int 1), ("services", .list .nil)])
      (.ofList [("version", .int 1), ("relations", .list .nil)])
      rfl rfl rfl rfl rfl rfl rfl (Or.inl rfl) rfl rfl rfl rfl).2.1 "2.0.1" _ rfl rfl,
   (C15_latest_tools_optional emptyCollections
      (optionalsDocWith [("latest-tools", .str "two")]) "magic"
      (.ofList [("name", .str "awesome"), ("uuid", .str "some-uuid")])
      (.ofList [("version", .int 1), ("users", .list .nil)])
      (.ofList [("version", .int 1), ("machines", .list .nil)])
      (.ofList [("version", .int 1), ("services", .list .nil)])
      (.ofList [("version", .int 1), ("relations", .list .nil)])
      rfl rfl rfl rfl rfl rfl rfl (Or.inl rfl) rfl rfl rfl rfl).2.2 (.str "two") rfl
      (fun t tools ht hparse => by
        cases ht
        have herr : (version.Parse "two").2 ≠ none := by decide
        exact herr (by rw [hparse]))⟩

/-- C16: the results of `importModelV1`, `importModel` and `DeserializeModel` are
all or nothing: a model with the nil error, or no model with an error. In
`importModelV1` an error of the schema check is returned (annotated) with no
model; once the schema check has passed, an error of the parse of
`latest-tools` is returned with no model, and no model is returned when the
importer of the users, machines, services or relations gives an error. -/
theorem C16_all_or_nothing (c : Collaborators) (source : Entries) (bytes : List Nat) :
    allOrNothing (importModelV1 c source) ∧ allOrNothing (importModel c source) ∧
    allOrNothing (DeserializeModel c bytes) ∧
    (∀ err, fieldMapCoerce c.goSyntax modelV1Fields source = .error err →
      importModelV1 c source = (none, some (Annotate err "model v1 schema check failed"))) ∧
    (∀ valid, fieldMapCoerce c.goSyntax modelV1Fields source = .ok valid →
      (∀ v err, valid.lookup "latest-tools" = some v →
        (version.Parse v.asString).2 = some err →
        importModelV1 c source = (none, some (Trace err))) ∧
      ((c.importUsers ((valid.lookup "users").getD .nothing).asMap).2 ≠ none ∨
        (c.importMachines ((valid.lookup "machines").getD .nothing).asMap).2 ≠ none ∨
        (c.importServices ((valid.lookup "services").getD .nothing).asMap).2 ≠ none ∨
        (c.importRelations ((valid.lookup "relations").getD .nothing).asMap).2 ≠ none →
        ∃ err, importModelV1 c source = (none, some err))) := by
  refine ⟨importModelV1_allOrNothing c source, importModel_allOrNothing c source,
    DeserializeModel_allOrNothing c bytes, ?_, ?_⟩
  · intro err hco
    simp [importModelV1, hco]
  · intro valid hco
    constructor
    · intro v err hl hparse
      have hpair : version.Parse v.asString = ((version.Parse v.asString).1, some err) :=
        Prod.ext rfl hparse
      simp only [importModelV1, hco, hl]
      rw [hpair]
    · intro hfail
      rcases importModelV1_allOrNothing c source with ⟨m, hm⟩ | ⟨err, herr⟩
      · exfalso
        unfold importModelV1 at hm
        rw [hco] at hm
        simp only at hm
        repeat' split at hm
        all_goals simp_all
      · exact ⟨err, herr⟩

/-! ## Accessors and builders -/

/-- C17: the result of `Users()` is a permutation of the users of the model (the
users that `AddUser` has appended: after one more `AddUser` it is a permutation
of the former users and the new one), and it is sorted: the canonical names are
in non-decreasing order. -/
theorem C17_Users_sorted_permutation (c : Collaborators) (m : model) :
    (m.Users c).Perm m.Users_ ∧
    (m.Users c).Sorted (fun a b => c.canonicalName a ≤ c.canonicalName b) ∧
    ∀ args, ((m.AddUser args).Users c).Perm (m.Users_ ++ [newUser args]) := by
  refine ⟨List.perm_insertionSort _ _, ?_, fun args => List.perm_insertionSort _ _⟩
  haveI : IsTotal user (fun a b => ¬ ByNameLess c b a) :=
    ⟨fun a b => by
      unfold ByNameLess
      rcases le_total (c.canonicalName a).toList (c.canonicalName b).toList with h | h
      · exact Or.inl (not_lt.mpr h)
      · exact Or.inr (not_lt.mpr h)⟩
  haveI : IsTrans user (fun a b => ¬ ByNameLess c b a) :=
    ⟨fun a b d hab hbd => by
      unfold ByNameLess at *
      exact not_lt.mpr (le_trans (not_lt.mp hab) (not_lt.mp hbd))⟩
  have hsorted : (m.Users c).Sorted (fun a b => ¬ ByNameLess c b a) :=
    List.sorted_insertionSort _ _
  refine List.Pairwise.imp ?_ hsorted
  intro a b hab
  unfold ByNameLess at hab
  exact String.le_iff_toList_le.mpr (not_lt.mp hab)

/-- C18: `AddMachine`, `AddService` and `AddRelation` append without a
uniqueness check: the accessor after the call is the accessor before the call
followed by the new entity, which is the value the call returns; so the
accessors list the entities in insertion order, and the same arguments added
twice give two entries. -/
theorem C18_Add_appends (m : model) (ma : MachineArgs) (sa : ServiceArgs) (ra : RelationArgs) :
    ((m.AddMachine ma).1.Machines = m.Machines ++ [(m.AddMachine ma).2] ∧
      (m.AddMachine ma).2 = newMachine ma ∧
      ((m.AddMachine ma).1.AddMachine ma).1.Machines =
        m.Machines ++ [newMachine ma, newMachine ma]) ∧
    ((m.AddService sa).1.Services = m.Services ++ [(m.AddService sa).2] ∧
      (m.AddService sa).2 = newService sa ∧
      ((m.AddService sa).1.AddService sa).1.Services =
        m.Services ++ [newService sa, newService sa]) ∧
    ((m.AddRelation ra).1.Relations = m.Relations ++ [(m.AddRelation ra).2] ∧
      (m.AddRelation ra).2 = newRelation ra ∧
      ((m.AddRelation ra).1.AddRelation ra).1.Relations =
        m.Relations ++ [newRelation ra, newRelation ra]) := by
  refine ⟨⟨rfl, rfl, ?_⟩, ⟨rfl, rfl, ?_⟩, ⟨rfl, rfl, ?_⟩⟩
  · simp [model.AddMachine, model.Machines]
  · simp [model.AddService, model.Services]
  · simp [model.AddRelation, model.Relations]

/-- C19: `Tag()` is a total function. When the configuration holds a string under
the key `uuid`, the id of the tag is that string; when the key is not there or
its value is not a string, the tag is the one made from the empty string. -/
theorem C19_Tag (m : model) :
    (∀ s, m.Config_.lookup "uuid" = some (.str s) → m.Tag = NewModelTag s ∧ m.Tag.Id = s) ∧
    (m.Config_.lookup "uuid" = none → m.Tag = NewModelTag "") ∧
    (∀ v, m.Config_.lookup "uuid" = some v → (∀ s, v ≠ .str s) → m.Tag = NewModelTag "") ∧
    ((NewModel { Owner := "magic",
                 Config := .ofList [("name", .str "awesome"), ("uuid", .str "some-uuid")] }).Tag.Id =
      "some-uuid") := by
  refine ⟨?_, ?_, ?_, by decide⟩
  · intro s hs
    simp [model.Tag, hs, ModelTag.Id, NewModelTag]
  · intro hnone
    simp [model.Tag, hnone]
  · intro v hv hnot
    cases v with
    | str s => exact absurd rfl (hnot s)
    | nothing => simp [model.Tag, hv]
    | int n => simp [model.Tag, hv]
    | list items => simp [model.Tag, hv]
    | map entries => simp [model.Tag, hv]
    | other text => simp [model.Tag, hv]

/-- C20 (as amended): on every model on which `Validate` succeeds the owner is
non-empty. `Validate` does not read the configuration: its result is the same
whatever the configuration map is, so a model without the key `uuid` can pass,
and `Tag()` then gives the tag made from the empty string. -/
theorem C20_Validate_owner_only (m : model) :
    (m.Validate = none → m.Owner_ ≠ "") ∧
    (∀ config, ({ m with Config_ := config } : model).Validate = m.Validate) ∧
    (m.Config_.lookup "uuid" = none → m.Tag = NewModelTag "") := by
  refine ⟨fun h => (checks_of_Validate_eq_none m h).1, fun config => rfl, ?_⟩
  intro hnone
  simp [model.Tag, hnone]

/-- C20 (as stated) fails on the model of `TestModelValidationChecksMachinesGood`:
`Validate` succeeds, the owner is set, but the configuration map has no key
`uuid` (it is empty), and the tag is made from the empty string. -/
theorem C20_counterexample :
    validMachineModel.Validate = none ∧ validMachineModel.Owner_ ≠ "" ∧
    validMachineModel.Config_.lookup "uuid" = none ∧
    validMachineModel.Tag = NewModelTag "" := by
  decide

/-! ## The version package -/

/-- C24: `Less` is the strict lexicographic order on major, minor, patch and
build: it is irreflexive and transitive, and of `Less(v, w)`, `Less(w, v)` and
`v = w` exactly one holds. -/
theorem C24_Less_strict_order (v w u : version.Number) :
    (v.Less w = true ↔
      v.Major < w.Major ∨ (v.Major = w.Major ∧ (v.Minor < w.Minor ∨ (v.Minor = w.Minor ∧
        (v.Patch < w.Patch ∨ (v.Patch = w.Patch ∧ v.Build < w.Build)))))) ∧
    v.Less v = false ∧
    (v.Less w = true → w.Less u = true → v.Less u = true) ∧
    ((v.Less w = true ∧ w.Less v = false ∧ v ≠ w) ∨
      (v.Less w = false ∧ w.Less v = true ∧ v ≠ w) ∨
      (v.Less w = false ∧ w.Less v = false ∧ v = w)) := by
  have key : ∀ a b : version.Number, a.Less b = true ↔
      a.Major < b.Major ∨ (a.Major = b.Major ∧ (a.Minor < b.Minor ∨ (a.Minor = b.Minor ∧
        (a.Patch < b.Patch ∨ (a.Patch = b.Patch ∧ a.Build < b.Build))))) := by
    intro a b
    unfold version.Number.Less
    split_ifs with h1 h2 h3 h4
    · rw [decide_eq_true_eq]; omega
    · rw [decide_eq_true_eq]; omega
    · rw [decide_eq_true_eq]; omega
    · rw [decide_eq_true_eq]; omega
    · constructor
      · intro h; cases h
      · intro h; omega
  have hfalse : ∀ a b : version.Number, a.Less b = false ↔ ¬ (a.Less b = true) := by
    intro a b; simp
  refine ⟨key v w, ?_, ?_, ?_⟩
  · rw [hfalse, key]; omega
  · rw [key v w, key w u, key v u]; omega
  · have hext : v = w ↔ v.Major = w.Major ∧ v.Minor = w.Minor ∧ v.Patch = w.Patch ∧
        v.Build = w.Build := by
      constructor
      · intro h; subst h; exact ⟨rfl, rfl, rfl, rfl⟩
      · rintro ⟨h1, h2, h3, h4⟩
        cases v; cases w; simp_all
    rw [hfalse v w, hfalse w v, key v w, key w v, ne_eq, hext]
    omega

/-- C25: `IsDev` is true exactly when the build is greater than zero or one of
major, minor and patch is odd; a negative odd number counts as odd, as in
version -3.0.0. -/
theorem C25_IsDev (v : version.Number) :
    (v.IsDev = true ↔ (v.Build > 0 ∨ Odd v.Major ∨ Odd v.Minor ∨ Odd v.Patch)) ∧
    (version.Number.IsDev { Major := -3 } = true) := by
  have hodd : ∀ x : Int, version.isOdd x = true ↔ Odd x := by
    intro x
    unfold version.isOdd
    rw [decide_eq_true_eq, ne_eq, ← Int.dvd_iff_tmod_eq_zero, ← even_iff_two_dvd,
      Int.not_even_iff_odd]
  refine ⟨?_, by decide⟩
  unfold version.Number.IsDev
  simp only [Bool.or_eq_true, decide_eq_true_eq, hodd]
  tauto

/-! ## Order of the checks and duplicates -/

/-- The method `Validate` succeeds exactly when the four entity checks pass and the
relation check finds nothing. -/
theorem Validate_eq_none_iff_checks (m : model) :
    m.Validate = none ↔
      m.Owner_ ≠ "" ∧ (∀ mc ∈ m.Machines_, mc.Id_ ≠ "") ∧ (∀ s ∈ m.Services_, s.Name_ ≠ "") ∧
        m.openPortUnitsKnown ∧ m.validateRelations = none := by
  constructor
  · intro h
    obtain ⟨howner, hmachines, hservices, hports⟩ := checks_of_Validate_eq_none m h
    refine ⟨howner, hmachines, hservices, hports, ?_⟩
    rw [← Validate_eq_validateRelations m howner hmachines hservices hports]
    exact h
  · rintro ⟨howner, hmachines, hservices, hports, hrels⟩
    rw [Validate_eq_validateRelations m howner hmachines hservices hports]
    exact hrels

/-- Services appended to the model do not change a lookup that finds a service. -/
theorem service_append_of_found (m : model) (more : List service) (name : String)
    (s : service) (h : m.service name = some s) :
    ({ m with Services_ := m.Services_ ++ more } : model).service name = some s := by
  simp only [model.service] at h ⊢
  rw [List.find?_append, h]
  rfl

/-- C21 (as amended): on a model on which `Validate` succeeds every machine id and
every service name is non-empty, but they need not be unique: `Validate` has no
check for that. After `AddMachine` with the id of a machine the model has, or
`AddService` with the name of a service the model has, `Validate` still
succeeds. -/
theorem C21_Validate_allows_duplicates (m : model) (h : m.Validate = none) :
    (∀ mc ∈ m.Machines_, mc.Id_ ≠ "") ∧ (∀ s ∈ m.Services_, s.Name_ ≠ "") ∧
    (∀ mc ∈ m.Machines_, (m.AddMachine { Id := mc.Id_ }).1.Validate = none) ∧
    (∀ s ∈ m.Services_, (m.AddService { Name := s.Name_ }).1.Validate = none) := by
  obtain ⟨howner, hmachines, hservices, hports, hrels⟩ :=
    (Validate_eq_none_iff_checks m).mp h
  refine ⟨hmachines, hservices, ?_, ?_⟩
  · intro mc hmc
    rw [Validate_eq_none_iff_checks]
    refine ⟨howner, ?_, hservices, ?_, hrels⟩
    · intro x hx
      rcases List.mem_append.mp hx with hx | hx
      · exact hmachines x hx
      · rw [List.mem_singleton.mp hx]
        exact hmachines mc hmc
    · intro x hx np hnp pr hpr
      rcases List.mem_append.mp hx with hx | hx
      · exact hports x hx np hnp pr hpr
      · rw [List.mem_singleton.mp hx] at hnp
        simp [newMachine] at hnp
  · intro s hs
    rw [Validate_eq_none_iff_checks]
    refine ⟨howner, hmachines, ?_, ?_, ?_⟩
    · intro x hx
      rcases List.mem_append.mp hx with hx | hx
      · exact hservices x hx
      · rw [List.mem_singleton.mp hx]
        exact hservices s hs
    · intro mc hmc np hnp pr hpr
      obtain ⟨x, hx, u, hu, hun⟩ := hports mc hmc np hnp pr hpr
      exact ⟨x, List.mem_append_left _ hx, u, hu, hun⟩
    · rw [validateRelations_eq_none_iff]
      intro rel hrel ep hep
      have hnone := (validateRelations_eq_none_iff m).mp hrels rel hrel ep hep
      obtain ⟨s0, hs0, -⟩ := (validateEndpoint_eq_none_iff m rel ep).mp hnone
      exact (validateEndpoint_congr m (m.AddService { Name := s.Name_ }).1 rel ep
        ((service_append_of_found m [newService { Name := s.Name_ }] _ s0 hs0).trans
          hs0.symm)).trans hnone

/-- C21 at the wordpress model with all settings: it validates, and it still
validates after one more machine `1` and one more service `mysql`. -/
theorem C21_witness :
    (∀ mc ∈ wordpressModelWithSettings.Machines_, mc.Id_ ≠ "") ∧
    (∀ s ∈ wordpressModelWithSettings.Services_, s.Name_ ≠ "") ∧
    (∀ mc ∈ wordpressModelWithSettings.Machines_,
      (wordpressModelWithSettings.AddMachine { Id := mc.Id_ }).1.Validate = none) ∧
    (∀ s ∈ wordpressModelWithSettings.Services_,
      (wordpressModelWithSettings.AddService { Name := s.Name_ }).1.Validate = none) :=
  C21_Validate_allows_duplicates wordpressModelWithSettings (by decide)

/-- C21 (as stated) fails: `Validate` succeeds on the wordpress model with all
settings, which has two machines with the id `0` (one for `wordpress/0` and one
for `mysql/0`), and on a model with two services of the name `db`. -/
theorem C21_counterexample :
    (wordpressModelWithSettings.Validate = none ∧
      ¬ (wordpressModelWithSettings.Machines_.map (fun mc => mc.Id_)).Nodup) ∧
    (sameNameServicesModel.Validate = none ∧
      ¬ (sameNameServicesModel.Services_.map (fun s => s.Name_)).Nodup) := by
  decide

/-- C27: `Validate` returns at the first check that fails, in this order: the
owner; the machines; the services; the unit names of the open ports; then the
relations in their order and, in a relation, the endpoints in their order; for
an endpoint, the unknown service, then the missing settings, then the settings
for unknown units. Each part below asks nothing of the later checks, so the
error is the one of the earliest check that fails whatever the later ones would
find: `allWrongModel` gets the owner error, and an endpoint with both missing
and extra settings gets the error for the missing ones. -/
theorem C27_check_order (m : model) :
    (m.Owner_ = "" → m.Validate = some (NotValidf "missing model owner")) ∧
    (m.Owner_ ≠ "" → (∃ mc ∈ m.Machines_, mc.Id_ = "") →
      m.Validate = some (Trace (NotValidf "machine missing id"))) ∧
    (m.Owner_ ≠ "" → (∀ mc ∈ m.Machines_, mc.Id_ ≠ "") → (∃ s ∈ m.Services_, s.Name_ = "") →
      m.Validate = some (Trace (NotValidf "service missing name"))) ∧
    (m.Owner_ ≠ "" → (∀ mc ∈ m.Machines_, mc.Id_ ≠ "") → (∀ s ∈ m.Services_, s.Name_ ≠ "") →
      ¬ m.openPortUnitsKnown →
      ∃ L, m.Validate = some (Errorf ("unknown unit names in open ports: " ++ fmtStrings L))) ∧
    (m.Owner_ ≠ "" → (∀ mc ∈ m.Machines_, mc.Id_ ≠ "") → (∀ s ∈ m.Services_, s.Name_ ≠ "") →
      m.openPortUnitsKnown →
      ∀ (rpre rpost : List relation) (rel : relation) (epre epost : List endpoint)
        (ep : endpoint) (e : Err),
        m.Relations_ = rpre ++ rel :: rpost → rel.Endpoints_ = epre ++ ep :: epost →
        (∀ r ∈ rpre, ∀ x ∈ r.Endpoints_, m.validateEndpoint r x = none) →
        (∀ x ∈ epre, m.validateEndpoint rel x = none) →
        m.validateEndpoint rel ep = some e → m.Validate = some e) ∧
    (∀ (rel : relation) (ep : endpoint),
      (m.service ep.ServiceName_ = none →
        m.validateEndpoint rel ep = some (Errorf ("unknown service " ++
          fmtQuote ep.ServiceName_ ++ " for relation id " ++ fmtInt rel.Id_))) ∧
      (∀ s, m.service ep.ServiceName_ = some s →
        (∃ u ∈ s.Units_, ∀ p ∈ ep.UnitSettings_, p.1 ≠ u.Name_) →
        ∃ L, m.validateEndpoint rel ep = some (Errorf ("missing relation settings for units " ++
          fmtStrings L ++ " in relation " ++ fmtInt rel.Id_))) ∧
      (∀ s, m.service ep.ServiceName_ = some s →
        (∀ u ∈ s.Units_, ∃ p ∈ ep.UnitSettings_, p.1 = u.Name_) →
        (∃ p ∈ ep.UnitSettings_, ∀ u ∈ s.Units_, u.Name_ ≠ p.1) →
        ∃ L, m.validateEndpoint rel ep = some (Errorf ("settings for unknown units " ++
          fmtStrings L ++ " in relation " ++ fmtInt rel.Id_)))) ∧
    allWrongModel.Validate = some (NotValidf "missing model owner") ∧
    (wordpressModelWith [("wordpress/0", []), ("wordpress/9", [])] [("mysql/0", [])]).Validate =
      some (Errorf "missing relation settings for units [wordpress/1] in relation 42") := by
  refine ⟨?_, ?_, ?_, ?_, ?_, ?_, by decide, by decide⟩
  · intro howner
    simp [model.Validate, howner]
  · intro howner hmachines
    obtain ⟨pre, x, post, hsplit, hpre, hx⟩ :=
      exists_first_split (fun mc : machine => mc.Id_ = "") m.Machines_ hmachines
    exact Validate_machine_without_id m howner pre post x hsplit hpre hx
  · intro howner hmachines hservices
    obtain ⟨pre, x, post, hsplit, hpre, hx⟩ :=
      exists_first_split (fun s : service => s.Name_ = "") m.Services_ hservices
    exact Validate_service_without_name m howner hmachines pre post x hsplit hpre hx
  · intro howner hmachines hservices hunknown
    obtain ⟨U, A, -, hU, hA, hV⟩ := Validate_after_entity_checks m howner hmachines hservices
    have hpos : (U.Difference A).length > 0 := by
      by_contra hn
      exact hunknown ((openPortUnitsKnown_iff m U A hU hA).mpr hn)
    exact ⟨_, by rw [hV, if_pos hpos]⟩
  · intro howner hmachines hservices hports rpre rpost rel epre epost ep e hrels heps hrpre
      hepre hep
    rw [Validate_eq_validateRelations m howner hmachines hservices hports]
    exact validateRelations_first m rpre rpost rel epre epost ep e hrels heps hrpre hepre hep
  · intro rel ep
    refine ⟨validateEndpoint_unknown m rel ep, ?_, ?_⟩
    · intro s hs hmiss
      refine ⟨_, validateEndpoint_missing m rel ep s hs ?_⟩
      obtain ⟨u, hu, hnone⟩ := hmiss
      refine ⟨u.Name_, (service_mem_unitNames s _).mpr ⟨u, hu, rfl⟩, ?_⟩
      rw [endpoint_mem_unitNames]
      rintro ⟨st, hst⟩
      exact hnone (u.Name_, st) hst rfl
    · intro s hs hall hextra
      refine ⟨_, validateEndpoint_extra m rel ep s hs ?_ ?_⟩
      · intro x hx
        obtain ⟨u, hu, hux⟩ := (service_mem_unitNames s x).mp hx
        obtain ⟨p, hp, hpu⟩ := hall u hu
        rw [endpoint_mem_unitNames]
        exact ⟨p.2, by rw [← hux, ← hpu]; exact hp⟩
      · obtain ⟨p, hp, hnone⟩ := hextra
        refine ⟨p.1, (endpoint_mem_unitNames ep _).mpr ⟨p.2, hp⟩, ?_⟩
        rw [service_mem_unitNames]
        rintro ⟨u, hu, hup⟩
        exact hnone u hu hup

/-- C29: when the first service with the name of an endpoint is `s`, whatever
services come after it (also ones with the same name), the lookup gives `s`;
the check of the endpoint passes exactly when the settings match the units of
`s`; and settings for a unit name that is not a unit of `s`, also one that is a
unit of a later service with the same name, are reported as settings for
unknown units. The open-port check takes a unit of any service, so it passes
for such a unit: on `laterDuplicateModel` the open port for `db/1` is accepted
and the settings for `db/1` are reported as unknown. -/
theorem C29_duplicate_service_names (m : model) (pre post : List service) (s : service)
    (rel : relation) (ep : endpoint)
    (hsplit : m.Services_ = pre ++ s :: post)
    (hpre : ∀ x ∈ pre, x.Name_ ≠ ep.ServiceName_)
    (hs : s.Name_ = ep.ServiceName_) :
    m.service ep.ServiceName_ = some s ∧
    (m.validateEndpoint rel ep = none ↔ ep.settingsMatch s) ∧
    (∀ u, (∀ x ∈ s.Units_, ∃ p ∈ ep.UnitSettings_, p.1 = x.Name_) →
      (∃ p ∈ ep.UnitSettings_, p.1 = u) → (∀ x ∈ s.Units_, x.Name_ ≠ u) →
      ∃ L, m.validateEndpoint rel ep = some (Errorf ("settings for unknown units " ++
        fmtStrings L ++ " in relation " ++ fmtInt rel.Id_)) ∧ u ∈ L) ∧
    (∀ s2 ∈ post, ∀ u ∈ s2.Units_, ∀ mc ∈ m.Machines_, ∀ np ∈ mc.NetworkPorts_,
      ∀ pr ∈ np.OpenPorts_, pr.UnitName_ = u.Name_ →
        ∃ x ∈ m.Services_, ∃ y ∈ x.Units_, y.Name_ = pr.UnitName_) ∧
    (laterDuplicateModel.openPortUnitsKnown ∧
      laterDuplicateModel.Validate =
        some (Errorf "settings for unknown units [db/1] in relation 7")) := by
  have hlookup : m.service ep.ServiceName_ = some s :=
    service_first m ep.ServiceName_ pre post s hsplit hpre hs
  refine ⟨hlookup, ?_, ?_, ?_, by decide⟩
  · rw [validateEndpoint_eq_none_iff_settingsMatch]
    constructor
    · rintro ⟨s0, hs0, hmatch⟩
      rw [hlookup, Option.some.injEq] at hs0
      rw [hs0]
      exact hmatch
    · intro hmatch
      exact ⟨s, hlookup, hmatch⟩
  · intro u hall hu hnot
    refine ⟨(ep.unitNames.Difference s.unitNames).SortedValues, ?_, ?_⟩
    · apply validateEndpoint_extra m rel ep s hlookup
      · intro x hx
        obtain ⟨y, hy, hyx⟩ := (service_mem_unitNames s x).mp hx
        obtain ⟨p, hp, hpy⟩ := hall y hy
        rw [endpoint_mem_unitNames]
        exact ⟨p.2, by rw [← hyx, ← hpy]; exact hp⟩
      · obtain ⟨p, hp, hpu⟩ := hu
        refine ⟨u, (endpoint_mem_unitNames ep u).mpr ⟨p.2, by rw [← hpu]; exact hp⟩, ?_⟩
        rw [service_mem_unitNames]
        rintro ⟨y, hy, hyu⟩
        exact hnot y hy hyu
    · rw [Strings.mem_SortedValues, Strings.mem_Difference, endpoint_mem_unitNames,
        service_mem_unitNames]
      obtain ⟨p, hp, hpu⟩ := hu
      exact ⟨⟨p.2, by rw [← hpu]; exact hp⟩, fun ⟨y, hy, hyu⟩ => hnot y hy hyu⟩
  · intro s2 hs2 u hu mc _ np _ pr _ hpr
    refine ⟨s2, ?_, u, hu, hpr.symm⟩
    rw [hsplit]
    exact List.mem_append_right _ (List.mem_cons_of_mem _ hs2)

/-- C29 at `laterDuplicateModel`: the first `db` owns `db/0`, the second `db/1`. -/
theorem C29_witness :
    laterDuplicateModel.service "db" = some { Name_ := "db", Units_ := [{ Name_ := "db/0" }] } ∧
    laterDuplicateModel.Validate =
      some (Errorf "settings for unknown units [db/1] in relation 7") :=
  ⟨(C29_duplicate_service_names laterDuplicateModel []
      [{ Name_ := "db", Units_ := [{ Name_ := "db/1" }] }]
      { Name_ := "db", Units_ := [{ Name_ := "db/0" }] }
      { Id_ := 7
        Endpoints_ :=
          [{ ServiceName_ := "db", UnitSettings_ := [("db/0", []), ("db/1", [])] }] }
      { ServiceName_ := "db", UnitSettings_ := [("db/0", []), ("db/1", [])] }
      rfl (by decide) rfl).1,
   by decide⟩

/-! ## Decimal digits -/

theorem digitChar_isDigit (k : Nat) (h : k < 10) : (Nat.digitChar k).isDigit = true := by
  interval_cases k <;> decide

theorem digitChar_toNat (k : Nat) (h : k < 10) : (Nat.digitChar k).toNat = 48 + k := by
  interval_cases k <;> decide

/-- The value that `atoi` folds over the characters of a text. -/
theorem atoi_mk (l : List Char) :
    version.atoi (String.mk l) = l.foldl (fun n c => 10 * n + (Int.ofNat c.toNat - 48)) 0 :=
  rfl

/-- What `Nat.toDigitsCore` puts before the digits it is given: a non-empty list
of digits whose value is the number. -/
theorem toDigitsCore_spec (fuel : Nat) : ∀ (n : Nat) (ds : List Char), n < fuel →
    ∃ pre : List Char, Nat.toDigitsCore 10 fuel n ds = pre ++ ds ∧ pre ≠ [] ∧
      (∀ c ∈ pre, c.isDigit = true) ∧
      pre.foldl (fun (n : Int) c => 10 * n + (Int.ofNat c.toNat - 48)) 0 = Int.ofNat n := by
  induction fuel with
  | zero => intro n ds h; omega
  | succ fuel ih =>
    intro n ds hn
    have hmod : n % 10 < 10 := Nat.mod_lt _ (by decide)
    by_cases hq : n / 10 = 0
    · refine ⟨[Nat.digitChar (n % 10)], ?_, by simp, ?_, ?_⟩
      · simp [Nat.toDigitsCore, hq]
      · intro c hc
        rw [List.mem_singleton.mp hc]
        exact digitChar_isDigit _ hmod
      · simp only [List.foldl_cons, List.foldl_nil, digitChar_toNat _ hmod]
        have : n % 10 = n := by omega
        simp only [Int.ofNat_eq_coe]
        omega
    · have hlt : n / 10 < fuel := by omega
      obtain ⟨pre, hpre, -, hdig, hval⟩ := ih (n / 10) (Nat.digitChar (n % 10) :: ds) hlt
      refine ⟨pre ++ [Nat.digitChar (n % 10)], ?_, by simp, ?_, ?_⟩
      · simp only [Nat.toDigitsCore, hq, if_false, hpre, List.append_assoc,
          List.singleton_append]
      · intro c hc
        rcases List.mem_append.mp hc with hc | hc
        · exact hdig c hc
        · rw [List.mem_singleton.mp hc]
          exact digitChar_isDigit _ hmod
      · rw [List.foldl_append, hval]
        simp only [List.foldl_cons, List.foldl_nil, digitChar_toNat _ hmod, Int.ofNat_eq_coe]
        omega

/-- The text of the verb `%d` for a number from 0 to 999999999: a group of 1 to 9
digits whose value, as `atoi` computes it, is the number. -/
theorem fmtInt_digitRun (n : Int) (h0 : 0 ≤ n) (h9 : n ≤ 999999999) :
    digitRun (fmtInt n).toList ∧ version.atoi (fmtInt n) = n := by
  obtain ⟨k, rfl⟩ := Int.eq_ofNat_of_zero_le h0
  have hk : k < 10 ^ 9 := by omega
  obtain ⟨pre, hpre, hne, hdig, hval⟩ := toDigitsCore_spec (k + 1) k [] (by omega)
  rw [List.append_nil] at hpre
  have hrepr : fmtInt (k : Int) = String.mk pre := by
    show Nat.repr k = String.mk pre
    unfold Nat.repr Nat.toDigits
    rw [hpre]
    rfl
  have hlen : pre.length ≤ 9 := by
    have := Nat.repr_length k 9 (by decide) hk
    have hr : Nat.repr k = String.mk pre := hrepr
    rw [hr] at this
    exact this
  rw [hrepr]
  refine ⟨⟨?_, hlen, hdig⟩, ?_⟩
  · cases pre with
    | nil => exact absurd rfl hne
    | cons c r => simp
  · rw [atoi_mk, hval]
    rfl

/-- The group of digits at the start of a text that goes on with something that is
not a digit. -/
theorem digitGroup_append (ds rest : List Char) (hds : digitRun ds)
    (hrest : rest = [] ∨ ∃ c r, rest = c :: r ∧ c.isDigit = false) :
    version.digitGroup (ds ++ rest) = some (ds, rest) := by
  obtain ⟨h1, h9, hdig⟩ := hds
  have htake : (ds ++ rest).takeWhile Char.isDigit = ds := by
    rw [List.takeWhile_append_of_pos hdig]
    rcases hrest with rfl | ⟨c, r, rfl, hc⟩
    · simp
    · simp [List.takeWhile, hc]
  have hdrop : (ds ++ rest).dropWhile Char.isDigit = rest := by
    rw [List.dropWhile_append_of_pos hdig]
    rcases hrest with rfl | ⟨c, r, rfl, hc⟩
    · simp
    · simp [List.dropWhile, hc]
  unfold version.digitGroup
  simp only [htake, hdrop]
  rw [if_pos ⟨h1, h9⟩]

/-- What a group of digits found at the start of a text is: 1 to 9 digits, and
the text goes on with something that is not a digit. -/
theorem digitGroup_eq_some (cs ds rest : List Char)
    (h : version.digitGroup cs = some (ds, rest)) :
    cs = ds ++ rest ∧ digitRun ds ∧ (rest = [] ∨ ∃ c r, rest = c :: r ∧ c.isDigit = false) := by
  unfold version.digitGroup at h
  simp only at h
  split at h
  · rename_i hlen
    simp only [Option.some.injEq, Prod.mk.injEq] at h
    obtain ⟨hds, hrest⟩ := h
    refine ⟨?_, ⟨?_, ?_, ?_⟩, ?_⟩
    · rw [← hds, ← hrest]
      exact (List.takeWhile_append_dropWhile _ _).symm
    · rw [← hds]; exact hlen.1
    · rw [← hds]; exact hlen.2
    · intro c hc
      rw [← hds] at hc
      exact (List.mem_takeWhile_imp hc)
    · rw [← hrest]
      cases hd : cs.dropWhile Char.isDigit with
      | nil => exact Or.inl rfl
      | cons c r =>
        right
        refine ⟨c, r, rfl, ?_⟩
        have hne : cs.dropWhile Char.isDigit ≠ [] := by rw [hd]; simp
        have hhead := List.head_dropWhile_not Char.isDigit cs hne
        simp only [hd, List.head_cons] at hhead
        exact hhead
  · simp at h

theorem dot_not_digit : ('.' : Char).isDigit = false := by decide

theorem hyphen_not_digit : ('-' : Char).isDigit = false := by decide

/-- The match of `numberPat` on three groups of digits with dots between them. -/
theorem numberPatSubmatch_three (A B C : List Char) (hA : digitRun A) (hB : digitRun B)
    (hC : digitRun C) :
    version.numberPatSubmatch (String.mk (A ++ '.' :: (B ++ '.' :: C))) =
      some (String.mk A, String.mk B, String.mk C, "") := by
  have h1 := digitGroup_append A ('.' :: (B ++ '.' :: C)) hA
    (Or.inr ⟨_, _, rfl, dot_not_digit⟩)
  have h2 := digitGroup_append B ('.' :: C) hB (Or.inr ⟨_, _, rfl, dot_not_digit⟩)
  have h3 := digitGroup_append C [] hC (Or.inl rfl)
  rw [List.append_nil] at h3
  simp only [version.numberPatSubmatch, String.toList, h1, h2, h3, if_true]

/-- The match of `numberPat` on four groups of digits with dots between them. -/
theorem numberPatSubmatch_four (A B C D : List Char) (hA : digitRun A) (hB : digitRun B)
    (hC : digitRun C) (hD : digitRun D) :
    version.numberPatSubmatch (String.mk (A ++ '.' :: (B ++ '.' :: (C ++ '.' :: D)))) =
      some (String.mk A, String.mk B, String.mk C, String.mk ('.' :: D)) := by
  have h1 := digitGroup_append A ('.' :: (B ++ '.' :: (C ++ '.' :: D))) hA
    (Or.inr ⟨_, _, rfl, dot_not_digit⟩)
  have h2 := digitGroup_append B ('.' :: (C ++ '.' :: D)) hB
    (Or.inr ⟨_, _, rfl, dot_not_digit⟩)
  have h3 := digitGroup_append C ('.' :: D) hC (Or.inr ⟨_, _, rfl, dot_not_digit⟩)
  have h4 := digitGroup_append D [] hD (Or.inl rfl)
  rw [List.append_nil] at h4
  obtain ⟨hD1, -, -⟩ := hD
  cases D with
  | nil => simp at hD1
  | cons d D' =>
    simp only [version.numberPatSubmatch, String.toList, h1, h2, h3, h4, if_true]

theorem three_groups_text (a b c : String) :
    a ++ "." ++ b ++ "." ++ c = String.mk (a.toList ++ '.' :: (b.toList ++ '.' :: c.toList)) := by
  apply String.ext
  simp [String.data_append]

theorem four_groups_text (a b c d : String) :
    a ++ "." ++ b ++ "." ++ c ++ ("." ++ d) =
      String.mk (a.toList ++ '.' :: (b.toList ++ '.' :: (c.toList ++ '.' :: d.toList))) := by
  apply String.ext
  simp [String.data_append]

/-- The result of `Parse` on the text of a number whose fields are from 0 to
999999999. -/
theorem Parse_String (v : version.Number)
    (hmajor : 0 ≤ v.Major ∧ v.Major ≤ 999999999) (hminor : 0 ≤ v.Minor ∧ v.Minor ≤ 999999999)
    (hpatch : 0 ≤ v.Patch ∧ v.Patch ≤ 999999999) (hbuild : 0 ≤ v.Build ∧ v.Build ≤ 999999999) :
    version.numberPatSubmatch v.String =
        some (fmtInt v.Major, fmtInt v.Minor, fmtInt v.Patch,
          if v.Build > 0 then "." ++ fmtInt v.Build else "") ∧
      version.Parse v.String = (v, none) := by
  obtain ⟨hA, hAv⟩ := fmtInt_digitRun v.Major hmajor.1 hmajor.2
  obtain ⟨hB, hBv⟩ := fmtInt_digitRun v.Minor hminor.1 hminor.2
  obtain ⟨hC, hCv⟩ := fmtInt_digitRun v.Patch hpatch.1 hpatch.2
  obtain ⟨hD, hDv⟩ := fmtInt_digitRun v.Build hbuild.1 hbuild.2
  by_cases hb : v.Build > 0
  · have htext : v.String = String.mk ((fmtInt v.Major).toList ++ '.' ::
        ((fmtInt v.Minor).toList ++ '.' :: ((fmtInt v.Patch).toList ++ '.' ::
          (fmtInt v.Build).toList))) := by
      unfold version.Number.String
      simp only [hb, if_true]
      exact four_groups_text _ _ _ _
    have hmatch := numberPatSubmatch_four _ _ _ _ hA hB hC hD
    rw [← htext] at hmatch
    have hm4 : String.mk ('.' :: (fmtInt v.Build).toList) = "." ++ fmtInt v.Build := by
      apply String.ext
      simp [String.data_append]
    have hne : String.mk ('.' :: (fmtInt v.Build).toList) ≠ "" := by
      intro h
      have := congrArg String.data h
      simp at this
    refine ⟨by rw [hmatch, if_pos hb, hm4]; rfl, ?_⟩
    unfold version.Parse
    rw [hmatch]
    simp only [hne, ne_eq, not_false_eq_true, if_true, String.toList, List.drop_succ_cons,
      List.drop_zero]
    have e1 : version.atoi (String.mk (fmtInt v.Major).data) = v.Major := hAv
    have e2 : version.atoi (String.mk (fmtInt v.Minor).data) = v.Minor := hBv
    have e3 : version.atoi (String.mk (fmtInt v.Patch).data) = v.Patch := hCv
    have e4 : version.atoi (String.mk (fmtInt v.Build).data) = v.Build := hDv
    rw [e1, e2, e3, e4]
    have hne2 : ¬ String.mk ('.' :: (fmtInt v.Build).data) = "" := hne
    rw [if_pos hne2]
  · have hzero : v.Build = 0 := by omega
    have htext : v.String = String.mk ((fmtInt v.Major).toList ++ '.' ::
        ((fmtInt v.Minor).toList ++ '.' :: (fmtInt v.Patch).toList)) := by
      unfold version.Number.String
      simp only [hb, if_false]
      exact three_groups_text _ _ _
    have hmatch := numberPatSubmatch_three _ _ _ hA hB hC
    rw [← htext] at hmatch
    refine ⟨by rw [hmatch, if_neg hb]; rfl, ?_⟩
    unfold version.Parse
    rw [hmatch]
    simp only [ne_eq, not_true_eq_false, if_false]
    have e1 : version.atoi (String.mk (fmtInt v.Major).toList) = v.Major := hAv
    have e2 : version.atoi (String.mk (fmtInt v.Minor).toList) = v.Minor := hBv
    have e3 : version.atoi (String.mk (fmtInt v.Patch).toList) = v.Patch := hCv
    rw [e1, e2, e3, ← hzero]

/-- C22: for a `Number` whose four fields are from 0 to 999999999, `Parse` of its
`String()` succeeds and gives the number back. The build is written only when
it is greater than zero and is read back as 0 when it is not written. For the
number of `MustParse("2.0.1")` the round trip gives that number. -/
theorem C22_version_round_trip (v : version.Number)
    (hmajor : 0 ≤ v.Major ∧ v.Major ≤ 999999999) (hminor : 0 ≤ v.Minor ∧ v.Minor ≤ 999999999)
    (hpatch : 0 ≤ v.Patch ∧ v.Patch ≤ 999999999) (hbuild : 0 ≤ v.Build ∧ v.Build ≤ 999999999) :
    version.Parse v.String = (v, none) ∧
    (v.Build > 0 → v.String =
      fmtInt v.Major ++ "." ++ fmtInt v.Minor ++ "." ++ fmtInt v.Patch ++
        ("." ++ fmtInt v.Build)) ∧
    (v.Build = 0 → v.String = fmtInt v.Major ++ "." ++ fmtInt v.Minor ++ "." ++ fmtInt v.Patch) ∧
    (∃ n, version.MustParse "2.0.1" = some n ∧ n.String = "2.0.1" ∧
      version.Parse n.String = (n, none)) := by
  refine ⟨(Parse_String v hmajor hminor hpatch hbuild).2, ?_, ?_, ?_⟩
  · intro hb
    unfold version.Number.String
    simp only [hb, if_true]
  · intro hb
    unfold version.Number.String
    simp only [hb, gt_iff_lt, lt_self_iff_false, if_false]
  · exact ⟨{ Major := 2, Minor := 0, Patch := 1 }, by decide, by decide, by decide⟩

/-- C22 at 2.0.1 and at 1.22.333.4444. -/
theorem C22_witness :
    version.Parse (version.Number.String { Major := 1, Minor := 22, Patch := 333, Build := 4444 }) =
      ({ Major := 1, Minor := 22, Patch := 333, Build := 4444 }, none) ∧
    version.Number.String { Major := 1, Minor := 22, Patch := 333, Build := 4444 } =
      "1.22.333.4444" ∧
    version.Number.String { Major := 2, Minor := 0, Patch := 1 } = "2.0.1" :=
  ⟨(C22_version_round_trip { Major := 1, Minor := 22, Patch := 333, Build := 4444 }
      (by decide) (by decide) (by decide) (by decide)).1,
   by decide, by decide⟩

/-- What a match of `numberPat` is: three groups of 1 to 9 digits with dots
between them, and either nothing more or a dot and a fourth such group. -/
theorem numberPatSubmatch_eq_some (s m1 m2 m3 m4 : String)
    (h : version.numberPatSubmatch s = some (m1, m2, m3, m4)) :
    ∃ A B C : List Char, digitRun A ∧ digitRun B ∧ digitRun C ∧
      m1 = String.mk A ∧ m2 = String.mk B ∧ m3 = String.mk C ∧
      ((m4 = "" ∧ s.toList = A ++ '.' :: (B ++ '.' :: C)) ∨
        ∃ D, digitRun D ∧ m4 = String.mk ('.' :: D) ∧
          s.toList = A ++ '.' :: (B ++ '.' :: (C ++ '.' :: D))) := by
  unfold version.numberPatSubmatch at h
  split at h
  · rename_i g1 c1 r1 h1
    obtain ⟨e1, hA, -⟩ := digitGroup_eq_some _ _ _ h1
    split at h
    · rename_i hc1
      subst hc1
      split at h
      · rename_i g2 c2 r2 h2
        obtain ⟨e2, hB, -⟩ := digitGroup_eq_some _ _ _ h2
        split at h
        · rename_i hc2
          subst hc2
          split at h
          · rename_i g3 h3
            obtain ⟨e3, hC, -⟩ := digitGroup_eq_some _ _ _ h3
            simp only [Option.some.injEq, Prod.mk.injEq] at h
            obtain ⟨rfl, rfl, rfl, rfl⟩ := h
            refine ⟨g1, g2, g3, hA, hB, hC, rfl, rfl, rfl, Or.inl ⟨rfl, ?_⟩⟩
            rw [e1, e2, e3, List.append_nil]
          · rename_i g3 c3 r3 h3
            obtain ⟨e3, hC, -⟩ := digitGroup_eq_some _ _ _ h3
            split at h
            · rename_i hc3
              subst hc3
              split at h
              · rename_i g4 h4
                obtain ⟨e4, hD, -⟩ := digitGroup_eq_some _ _ _ h4
                simp only [Option.some.injEq, Prod.mk.injEq] at h
                obtain ⟨rfl, rfl, rfl, rfl⟩ := h
                refine ⟨g1, g2, g3, hA, hB, hC, rfl, rfl, rfl, Or.inr ⟨g4, hD, rfl, ?_⟩⟩
                rw [e1, e2, e3, e4, List.append_nil]
              · simp at h
            · simp at h
          · simp at h
        · simp at h
      · simp at h
    · simp at h
  · simp at h

/-- The value that `atoi` computes for digits is their decimal value. -/
theorem atoi_eq_decimalValue (l : List Char) (h : ∀ c ∈ l, c.isDigit = true) :
    version.atoi (String.mk l) = decimalValue l := by
  rw [atoi_mk]
  unfold decimalValue
  induction l using List.reverseRecOn with
  | nil => rfl
  | append_singleton l c ih =>
    have hc : c.isDigit = true := h c (by simp)
    have h48 : 48 ≤ c.toNat := by
      unfold Char.isDigit at hc
      simp only [ge_iff_le, Bool.and_eq_true, decide_eq_true_eq] at hc
      exact hc.1
    rw [List.foldl_append, ih (fun x hx => h x (by simp [hx]))]
    simp only [List.foldl_cons, List.foldl_nil, List.reverse_append, List.reverse_cons,
      List.reverse_nil, List.nil_append, List.singleton_append, List.map_cons,
      Nat.ofDigits_cons, Int.ofNat_eq_coe]
    push_cast
    omega

/-- The decimal value of a group of 1 to 9 digits is from 0 to 999999999. -/
theorem decimalValue_range (l : List Char) (h : digitRun l) :
    0 ≤ decimalValue l ∧ decimalValue l ≤ 999999999 := by
  obtain ⟨-, h9, hdig⟩ := h
  unfold decimalValue
  have hlt : Nat.ofDigits 10 (l.reverse.map (fun c => c.toNat - 48)) <
      10 ^ (l.reverse.map (fun c => c.toNat - 48)).length := by
    apply Nat.ofDigits_lt_base_pow_length (by decide)
    intro x hx
    obtain ⟨c, hc, rfl⟩ := List.mem_map.mp hx
    have hd := hdig c (List.mem_reverse.mp hc)
    unfold Char.isDigit at hd
    simp only [ge_iff_le, Bool.and_eq_true, decide_eq_true_eq] at hd
    have h57 : c.toNat ≤ 57 := hd.2
    omega
  rw [List.length_map, List.length_reverse] at hlt
  have hpow : 10 ^ l.length ≤ 10 ^ 9 := Nat.pow_le_pow_right (by decide) h9
  constructor
  · exact Int.ofNat_nonneg _
  · have : Nat.ofDigits 10 (l.reverse.map (fun c => c.toNat - 48)) ≤ 999999999 := by omega
    show ((Nat.ofDigits 10 (l.reverse.map (fun c => c.toNat - 48)) : Nat) : Int) ≤ 999999999
    omega

/-- C23: `Parse` succeeds exactly on the texts made of three groups of 1 to 9
decimal digits with dots between them, with nothing more or with a dot and a
fourth such group. Major, minor and patch are then the decimal values of the
first three groups, and the build is the decimal value of the fourth group, or
0 without it. On every other text `Parse` gives the zero `Number` and the error
`invalid version` with the text as the verb `%q` writes it: runes that are not
printable are escaped, so U+00A0 after `1.2.` is written `\u00a0` and a tab
`\t`, and printable ones are written as they are. -/
theorem C23_Parse_exactly (s : String) :
    ((version.Parse s).2 = none ↔
      ∃ A B C : List Char, digitRun A ∧ digitRun B ∧ digitRun C ∧
        (s.toList = A ++ '.' :: (B ++ '.' :: C) ∨
          ∃ D, digitRun D ∧ s.toList = A ++ '.' :: (B ++ '.' :: (C ++ '.' :: D)))) ∧
    (∀ A B C : List Char, digitRun A → digitRun B → digitRun C →
      s.toList = A ++ '.' :: (B ++ '.' :: C) →
      version.Parse s = ({ Major := decimalValue A, Minor := decimalValue B,
                           Patch := decimalValue C, Build := 0 }, none)) ∧
    (∀ A B C D : List Char, digitRun A → digitRun B → digitRun C → digitRun D →
      s.toList = A ++ '.' :: (B ++ '.' :: (C ++ '.' :: D)) →
      version.Parse s = ({ Major := decimalValue A, Minor := decimalValue B,
                           Patch := decimalValue C, Build := decimalValue D }, none)) ∧
    ((version.Parse s).2 ≠ none →
      version.Parse s = (version.Zero, some (Errorf ("invalid version " ++ fmtQuote s)))) ∧
    version.Parse "1.2.\u00a0" =
      (version.Zero, some (Errorf "invalid version \"1.2.\\u00a0\"")) ∧
    version.Parse "1.2\t\u200b.3" =
      (version.Zero, some (Errorf "invalid version \"1.2\\t\\u200b.3\"")) ∧
    version.Parse "1.2.3-bêta" =
      (version.Zero, some (Errorf "invalid version \"1.2.3-bêta\"")) := by
  have hthree : ∀ A B C : List Char, digitRun A → digitRun B → digitRun C →
      s.toList = A ++ '.' :: (B ++ '.' :: C) →
      version.Parse s = ({ Major := decimalValue A, Minor := decimalValue B,
                           Patch := decimalValue C, Build := 0 }, none) := by
    intro A B C hA hB hC hs
    have hs2 : s = String.mk (A ++ '.' :: (B ++ '.' :: C)) := String.ext hs
    unfold version.Parse
    rw [hs2, numberPatSubmatch_three A B C hA hB hC]
    simp only [ne_eq, not_true_eq_false, if_false, atoi_eq_decimalValue A hA.2.2,
      atoi_eq_decimalValue B hB.2.2, atoi_eq_decimalValue C hC.2.2]
  have hfour : ∀ A B C D : List Char, digitRun A → digitRun B → digitRun C → digitRun D →
      s.toList = A ++ '.' :: (B ++ '.' :: (C ++ '.' :: D)) →
      version.Parse s = ({ Major := decimalValue A, Minor := decimalValue B,
                           Patch := decimalValue C, Build := decimalValue D }, none) := by
    intro A B C D hA hB hC hD hs
    have hs2 : s = String.mk (A ++ '.' :: (B ++ '.' :: (C ++ '.' :: D))) := String.ext hs
    have hne : ¬ String.mk ('.' :: D) = "" := by
      intro h
      have := congrArg String.data h
      simp at this
    unfold version.Parse
    rw [hs2, numberPatSubmatch_four A B C D hA hB hC hD]
    simp only [ne_eq, hne, not_false_eq_true, if_true, String.toList, List.drop_succ_cons,
      List.drop_zero, atoi_eq_decimalValue A hA.2.2, atoi_eq_decimalValue B hB.2.2,
      atoi_eq_decimalValue C hC.2.2, atoi_eq_decimalValue D hD.2.2]
  refine ⟨⟨?_, ?_⟩, hthree, hfour, ?_, by decide, by decide, by decide⟩
  · intro hok
    cases hm : version.numberPatSubmatch s with
    | none => simp [version.Parse, hm] at hok
    | some m =>
      obtain ⟨m1, m2, m3, m4⟩ := m
      obtain ⟨A, B, C, hA, hB, hC, -, -, -, hcases⟩ := numberPatSubmatch_eq_some s _ _ _ _ hm
      refine ⟨A, B, C, hA, hB, hC, ?_⟩
      rcases hcases with ⟨-, hs⟩ | ⟨D, hD, -, hs⟩
      · exact Or.inl hs
      · exact Or.inr ⟨D, hD, hs⟩
  · rintro ⟨A, B, C, hA, hB, hC, hs | ⟨D, hD, hs⟩⟩
    · rw [hthree A B C hA hB hC hs]
    · rw [hfour A B C D hA hB hC hD hs]
  · intro herr
    cases hm : version.numberPatSubmatch s with
    | none => simp [version.Parse, hm, version.Zero]
    | some m =>
      obtain ⟨m1, m2, m3, m4⟩ := m
      simp [version.Parse, hm] at herr

/-- The group without hyphen at the start of a text that goes on with a hyphen or
ends. -/
theorem hyphenFreeGroup_append (run rest : List Char) (hrun : hyphenFree run)
    (hrest : rest = [] ∨ ∃ r, rest = '-' :: r) :
    version.hyphenFreeGroup (run ++ rest) = some (run, rest) := by
  obtain ⟨hne, hfree⟩ := hrun
  have hp : ∀ c ∈ run, (decide (c ≠ '-')) = true := fun c hc => by simpa using hfree c hc
  have htake : (run ++ rest).takeWhile (fun c => decide (c ≠ '-')) = run := by
    rw [List.takeWhile_append_of_pos hp]
    rcases hrest with rfl | ⟨r, rfl⟩
    · simp
    · simp [List.takeWhile]
  have hdrop : (run ++ rest).dropWhile (fun c => decide (c ≠ '-')) = rest := by
    rw [List.dropWhile_append_of_pos hp]
    rcases hrest with rfl | ⟨r, rfl⟩
    · simp
    · simp [List.dropWhile]
  unfold version.hyphenFreeGroup
  simp only [htake, hdrop]
  rw [if_pos hne]

/-- The match of the end of `binaryPat` on a hyphen, a series, a hyphen and an
architecture. -/
theorem seriesArchSubmatch_text (S R : List Char) (hS : hyphenFree S) (hR : hyphenFree R) :
    version.seriesArchSubmatch ('-' :: (S ++ '-' :: R)) = some (String.mk S, String.mk R) := by
  have h1 := hyphenFreeGroup_append S ('-' :: R) hS (Or.inr ⟨R, rfl⟩)
  have h2 := hyphenFreeGroup_append R [] hR (Or.inl rfl)
  rw [List.append_nil] at h2
  simp only [version.seriesArchSubmatch, h1, h2, if_true]

/-- The match of `binaryPat` on a number of three groups, a series and an
architecture. -/
theorem binaryPatSubmatch_three (A B C S R : List Char) (hA : digitRun A) (hB : digitRun B)
    (hC : digitRun C) (hS : hyphenFree S) (hR : hyphenFree R) :
    version.binaryPatSubmatch
        (String.mk (A ++ '.' :: (B ++ '.' :: (C ++ '-' :: (S ++ '-' :: R))))) =
      some (String.mk A, String.mk B, String.mk C, "", String.mk S, String.mk R) := by
  have h1 := digitGroup_append A ('.' :: (B ++ '.' :: (C ++ '-' :: (S ++ '-' :: R)))) hA
    (Or.inr ⟨_, _, rfl, dot_not_digit⟩)
  have h2 := digitGroup_append B ('.' :: (C ++ '-' :: (S ++ '-' :: R))) hB
    (Or.inr ⟨_, _, rfl, dot_not_digit⟩)
  have h3 := digitGroup_append C ('-' :: (S ++ '-' :: R)) hC
    (Or.inr ⟨_, _, rfl, hyphen_not_digit⟩)
  have h4 := seriesArchSubmatch_text S R hS hR
  have hne : ¬ ('-' : Char) = '.' := by decide
  simp only [version.binaryPatSubmatch, String.toList, h1, h2, h3, h4, if_true, hne, if_false]

/-- The match of `binaryPat` on a number of four groups, a series and an
architecture. -/
theorem binaryPatSubmatch_four (A B C D S R : List Char) (hA : digitRun A) (hB : digitRun B)
    (hC : digitRun C) (hD : digitRun D) (hS : hyphenFree S) (hR : hyphenFree R) :
    version.binaryPatSubmatch
        (String.mk (A ++ '.' :: (B ++ '.' :: (C ++ '.' :: (D ++ '-' :: (S ++ '-' :: R)))))) =
      some (String.mk A, String.mk B, String.mk C, String.mk ('.' :: D), String.mk S,
        String.mk R) := by
  have h1 := digitGroup_append A
    ('.' :: (B ++ '.' :: (C ++ '.' :: (D ++ '-' :: (S ++ '-' :: R))))) hA
    (Or.inr ⟨_, _, rfl, dot_not_digit⟩)
  have h2 := digitGroup_append B ('.' :: (C ++ '.' :: (D ++ '-' :: (S ++ '-' :: R)))) hB
    (Or.inr ⟨_, _, rfl, dot_not_digit⟩)
  have h3 := digitGroup_append C ('.' :: (D ++ '-' :: (S ++ '-' :: R))) hC
    (Or.inr ⟨_, _, rfl, dot_not_digit⟩)
  have h4 := digitGroup_append D ('-' :: (S ++ '-' :: R)) hD
    (Or.inr ⟨_, _, rfl, hyphen_not_digit⟩)
  have h5 := seriesArchSubmatch_text S R hS hR
  simp only [version.binaryPatSubmatch, String.toList, h1, h2, h3, h4, h5, if_true]

/-- The text of a number whose fields are from 0 to 999999999: three or four groups
of digits whose values are the fields. -/
theorem Number_String_groups (v : version.Number)
    (hmajor : 0 ≤ v.Major ∧ v.Major ≤ 999999999) (hminor : 0 ≤ v.Minor ∧ v.Minor ≤ 999999999)
    (hpatch : 0 ≤ v.Patch ∧ v.Patch ≤ 999999999) (hbuild : 0 ≤ v.Build ∧ v.Build ≤ 999999999) :
    ∃ A B C : List Char, digitRun A ∧ digitRun B ∧ digitRun C ∧
      version.atoi (String.mk A) = v.Major ∧ version.atoi (String.mk B) = v.Minor ∧
      version.atoi (String.mk C) = v.Patch ∧
      ((v.Build = 0 ∧ v.String = String.mk (A ++ '.' :: (B ++ '.' :: C))) ∨
        ∃ D, digitRun D ∧ version.atoi (String.mk D) = v.Build ∧
          v.String = String.mk (A ++ '.' :: (B ++ '.' :: (C ++ '.' :: D)))) := by
  obtain ⟨hA, hAv⟩ := fmtInt_digitRun v.Major hmajor.1 hmajor.2
  obtain ⟨hB, hBv⟩ := fmtInt_digitRun v.Minor hminor.1 hminor.2
  obtain ⟨hC, hCv⟩ := fmtInt_digitRun v.Patch hpatch.1 hpatch.2
  obtain ⟨hD, hDv⟩ := fmtInt_digitRun v.Build hbuild.1 hbuild.2
  refine ⟨_, _, _, hA, hB, hC, hAv, hBv, hCv, ?_⟩
  by_cases hb : v.Build > 0
  · right
    refine ⟨_, hD, hDv, ?_⟩
    unfold version.Number.String
    simp only [hb, if_true]
    exact four_groups_text _ _ _ _
  · left
    refine ⟨by omega, ?_⟩
    unfold version.Number.String
    simp only [hb, if_false]
    exact three_groups_text _ _ _

theorem text_append_series_arch (n : List Char) (series arch : String) :
    String.mk n ++ "-" ++ series ++ "-" ++ arch =
      String.mk (n ++ '-' :: (series.toList ++ '-' :: arch.toList)) := by
  apply String.ext
  simp [String.data_append]

/-- C26: for a `Binary` whose four number fields are from 0 to 999999999 and whose
series and architecture are not empty and have no hyphen, `ParseBinary` of its
`String()` succeeds and gives the binary version back; the text is the number,
the series and the architecture with hyphens between them. -/
theorem C26_binary_round_trip (b : version.Binary)
    (hmajor : 0 ≤ b.Major ∧ b.Major ≤ 999999999) (hminor : 0 ≤ b.Minor ∧ b.Minor ≤ 999999999)
    (hpatch : 0 ≤ b.Patch ∧ b.Patch ≤ 999999999) (hbuild : 0 ≤ b.Build ∧ b.Build ≤ 999999999)
    (hseries : hyphenFree b.Series.toList) (harch : hyphenFree b.Arch.toList) :
    version.ParseBinary b.String = (b, none) ∧
    b.String = b.toNumber.String ++ "-" ++ b.Series ++ "-" ++ b.Arch := by
  refine ⟨?_, rfl⟩
  obtain ⟨A, B, C, hA, hB, hC, hAv, hBv, hCv, hcases⟩ :=
    Number_String_groups b.toNumber hmajor hminor hpatch hbuild
  rcases hcases with ⟨hzero, htext⟩ | ⟨D, hD, hDv, htext⟩
  · have hs : b.String = String.mk (A ++ '.' :: (B ++ '.' :: (C ++ '-' ::
        (b.Series.toList ++ '-' :: b.Arch.toList)))) := by
      unfold version.Binary.String
      rw [htext, text_append_series_arch]
      simp
    unfold version.ParseBinary
    rw [hs, binaryPatSubmatch_three A B C _ _ hA hB hC hseries harch]
    simp only [ne_eq, not_true_eq_false, if_false, hAv, hBv, hCv]
    have hz : b.Build = 0 := hzero
    rw [← hz]
    rfl
  · have hs : b.String = String.mk (A ++ '.' :: (B ++ '.' :: (C ++ '.' :: (D ++ '-' ::
        (b.Series.toList ++ '-' :: b.Arch.toList))))) := by
      unfold version.Binary.String
      rw [htext, text_append_series_arch]
      simp
    have hne : ¬ String.mk ('.' :: D) = "" := by
      intro h
      have := congrArg String.data h
      simp at this
    unfold version.ParseBinary
    rw [hs, binaryPatSubmatch_four A B C D _ _ hA hB hC hD hseries harch]
    simp only [ne_eq, hne, not_false_eq_true, if_true, String.toList, List.drop_succ_cons,
      List.drop_zero, hAv, hBv, hCv, hDv]

/-- C26 at 1.2.3-trusty-amd64 and at 1.9.2.7-precise-i386. -/
theorem C26_witness :
    version.ParseBinary "1.2.3-trusty-amd64" =
      ({ Major := 1, Minor := 2, Patch := 3, Series := "trusty", Arch := "amd64" }, none) ∧
    version.Binary.String
        { Major := 1, Minor := 9, Patch := 2, Build := 7, Series := "precise", Arch := "i386" } =
      "1.9.2.7-precise-i386" ∧
    version.ParseBinary (version.Binary.String
        { Major := 1, Minor := 9, Patch := 2, Build := 7, Series := "precise", Arch := "i386" }) =
      ({ Major := 1, Minor := 9, Patch := 2, Build := 7, Series := "precise", Arch := "i386" },
        none) :=
  ⟨by decide, by decide,
   (C26_binary_round_trip
      { Major := 1, Minor := 9, Patch := 2, Build := 7, Series := "precise", Arch := "i386" }
      (by decide) (by decide) (by decide) (by decide) (by decide) (by decide)).1⟩

/-- On a capture of 1 to 9 digits `strconv.Atoi` has no error, for an `int` of 32
bits or more: its result is the value that `atoi` gives. -/
theorem strconvAtoi_digitRun (intSize : Nat) (h : 32 ≤ intSize) (A : List Char)
    (hA : digitRun A) :
    version.strconvAtoi intSize (String.mk A) = some (version.atoi (String.mk A)) := by
  have hval := atoi_eq_decimalValue A hA.2.2
  have hr := decimalValue_range A hA
  rw [← hval] at hr
  obtain ⟨h1, h9, hdig⟩ := hA
  cases A with
  | nil => simp at h1
  | cons c rest =>
    have hc : c.isDigit = true := hdig c (by simp)
    have hminus : ¬ c = '-' := by
      rintro rfl
      exact absurd hc (by decide)
    have hplus : ¬ c = '+' := by
      rintro rfl
      exact absurd hc (by decide)
    have hall : ¬ (c :: rest).all Char.isDigit = false := by
      rw [Bool.not_eq_false, List.all_eq_true]
      exact hdig
    have hpow : (2 : Int) ^ 31 ≤ 2 ^ (intSize - 1) :=
      pow_le_pow_right₀ (by norm_num) (by omega)
    have hfold : List.foldl (fun n c => 10 * n + (Int.ofNat c.toNat - 48)) 0 (c :: rest) =
        version.atoi (String.mk (c :: rest)) := rfl
    unfold version.strconvAtoi
    simp only [String.toList, hminus, hplus, if_false, hall, or_false, List.cons_ne_nil,
      Bool.false_eq_true]
    rw [hfold]
    have hrange : -(2 : Int) ^ (intSize - 1) ≤ version.atoi (String.mk (c :: rest)) ∧
        version.atoi (String.mk (c :: rest)) < 2 ^ (intSize - 1) := by
      constructor <;> omega
    rw [if_pos hrange]
    simp

/-- What `binaryPat` captures when it matches: three groups of 1 to 9 digits and
a fourth group that is empty or a dot and 1 to 9 digits. -/
theorem binaryPatSubmatch_eq_some (s m1 m2 m3 m4 m5 m6 : String)
    (h : version.binaryPatSubmatch s = some (m1, m2, m3, m4, m5, m6)) :
    ∃ A B C : List Char, digitRun A ∧ digitRun B ∧ digitRun C ∧
      m1 = String.mk A ∧ m2 = String.mk B ∧ m3 = String.mk C ∧
      (m4 = "" ∨ ∃ D, digitRun D ∧ m4 = String.mk ('.' :: D)) := by
  unfold version.binaryPatSubmatch at h
  split at h
  · rename_i g1 c1 r1 h1
    obtain ⟨-, hA, -⟩ := digitGroup_eq_some _ _ _ h1
    split at h
    · split at h
      · rename_i g2 c2 r2 h2
        obtain ⟨-, hB, -⟩ := digitGroup_eq_some _ _ _ h2
        split at h
        · split at h
          · rename_i g3 c3 r3 h3
            obtain ⟨-, hC, -⟩ := digitGroup_eq_some _ _ _ h3
            split at h
            · rename_i hc3
              subst hc3
              split at h
              · rename_i g4 r4 h4
                obtain ⟨-, hD, -⟩ := digitGroup_eq_some _ _ _ h4
                split at h
                · simp only [Option.some.injEq, Prod.mk.injEq] at h
                  obtain ⟨rfl, rfl, rfl, rfl, -, -⟩ := h
                  exact ⟨g1, g2, g3, hA, hB, hC, rfl, rfl, rfl, Or.inr ⟨g4, hD, rfl⟩⟩
                · simp at h
              · simp at h
            · split at h
              · simp only [Option.some.injEq, Prod.mk.injEq] at h
                obtain ⟨rfl, rfl, rfl, rfl, -, -⟩ := h
                exact ⟨g1, g2, g3, hA, hB, hC, rfl, rfl, rfl, Or.inl rfl⟩
              · simp at h
          · simp at h
        · simp at h
      · simp at h
    · simp at h
  · simp at h

/-- The conversions of four captures, three of 1 to 9 digits and a fourth that is
empty or a dot and 1 to 9 digits: none fails and each value is from 0 to
999999999. -/
theorem captures_convert (intSize : Nat) (h : 32 ≤ intSize) (m1 m2 m3 m4 : String)
    (hcap : ∃ A B C : List Char, digitRun A ∧ digitRun B ∧ digitRun C ∧
      m1 = String.mk A ∧ m2 = String.mk B ∧ m3 = String.mk C ∧
      (m4 = "" ∨ ∃ D, digitRun D ∧ m4 = String.mk ('.' :: D))) :
    (version.atoiOrPanic intSize m1 = some (version.atoi m1) ∧
     version.atoiOrPanic intSize m2 = some (version.atoi m2) ∧
     version.atoiOrPanic intSize m3 = some (version.atoi m3) ∧
     (if m4 ≠ "" then version.atoiOrPanic intSize (String.mk (m4.toList.drop 1)) else some 0) =
       some (if m4 ≠ "" then version.atoi (String.mk (m4.toList.drop 1)) else 0)) ∧
    (digitRun m1.toList ∧ digitRun m2.toList ∧ digitRun m3.toList ∧
     (m4 ≠ "" → digitRun (m4.toList.drop 1))) ∧
    ((0 ≤ version.atoi m1 ∧ version.atoi m1 ≤ 999999999) ∧
     (0 ≤ version.atoi m2 ∧ version.atoi m2 ≤ 999999999) ∧
     (0 ≤ version.atoi m3 ∧ version.atoi m3 ≤ 999999999) ∧
     (0 ≤ (if m4 ≠ "" then version.atoi (String.mk (m4.toList.drop 1)) else 0) ∧
      (if m4 ≠ "" then version.atoi (String.mk (m4.toList.drop 1)) else 0) ≤ 999999999)) := by
  obtain ⟨A, B, C, hA, hB, hC, rfl, rfl, rfl, hm4⟩ := hcap
  have hrA := decimalValue_range A hA
  have hrB := decimalValue_range B hB
  have hrC := decimalValue_range C hC
  rw [← atoi_eq_decimalValue A hA.2.2] at hrA
  rw [← atoi_eq_decimalValue B hB.2.2] at hrB
  rw [← atoi_eq_decimalValue C hC.2.2] at hrC
  rcases hm4 with rfl | ⟨D, hD, rfl⟩
  · refine ⟨⟨strconvAtoi_digitRun intSize h A hA, strconvAtoi_digitRun intSize h B hB,
      strconvAtoi_digitRun intSize h C hC, ?_⟩, ⟨hA, hB, hC, ?_⟩, hrA, hrB, hrC, ?_⟩
    · simp
    · intro hne
      exact absurd rfl hne
    · simp
  · have hne : String.mk ('.' :: D) ≠ "" := by
      intro h0
      have := congrArg String.data h0
      simp at this
    have hrD := decimalValue_range D hD
    rw [← atoi_eq_decimalValue D hD.2.2] at hrD
    have hdrop : (String.mk ('.' :: D)).toList.drop 1 = D := rfl
    refine ⟨⟨strconvAtoi_digitRun intSize h A hA, strconvAtoi_digitRun intSize h B hB,
      strconvAtoi_digitRun intSize h C hC, ?_⟩, ⟨hA, hB, hC, ?_⟩, hrA, hrB, hrC, ?_⟩
    · rw [if_pos hne, if_pos hne, hdrop]
      exact strconvAtoi_digitRun intSize h D hD
    · intro _
      rw [hdrop]
      exact hD
    · rw [if_pos hne, hdrop]
      exact hrD

/-- C28: for an `int` of 32 bits or more the conversion inside `Parse` and
`ParseBinary` never fails. Every capture that `numberPat` or `binaryPat` passes
to `atoi` is 1 to 9 decimal digits (the build group after its dot is dropped);
on such a text `strconv.Atoi` has no error and the value is from 0 to 999999999,
below 2^31. So `Parse` and `ParseBinary` with the panic kept never panic and
give the results of the total functions, and every parsed field is from 0 to
999999999. -/
theorem C28_atoi_never_fails (intSize : Nat) (h : 32 ≤ intSize) (s : String) :
    (∀ m1 m2 m3 m4 : String, version.numberPatSubmatch s = some (m1, m2, m3, m4) →
      digitRun m1.toList ∧ digitRun m2.toList ∧ digitRun m3.toList ∧
      (m4 ≠ "" → digitRun (m4.toList.drop 1))) ∧
    (∀ m1 m2 m3 m4 m5 m6 : String,
      version.binaryPatSubmatch s = some (m1, m2, m3, m4, m5, m6) →
      digitRun m1.toList ∧ digitRun m2.toList ∧ digitRun m3.toList ∧
      (m4 ≠ "" → digitRun (m4.toList.drop 1))) ∧
    (∀ t : String, digitRun t.toList →
      version.atoiOrPanic intSize t = some (version.atoi t) ∧
      0 ≤ version.atoi t ∧ version.atoi t ≤ 999999999 ∧ version.atoi t < 2 ^ 31) ∧
    version.ParseOrPanic intSize s = some (version.Parse s) ∧
    version.ParseBinaryOrPanic intSize s = some (version.ParseBinary s) ∧
    ((0 ≤ (version.Parse s).1.Major ∧ (version.Parse s).1.Major ≤ 999999999) ∧
     (0 ≤ (version.Parse s).1.Minor ∧ (version.Parse s).1.Minor ≤ 999999999) ∧
     (0 ≤ (version.Parse s).1.Patch ∧ (version.Parse s).1.Patch ≤ 999999999) ∧
     (0 ≤ (version.Parse s).1.Build ∧ (version.Parse s).1.Build ≤ 999999999)) ∧
    ((0 ≤ (version.ParseBinary s).1.Major ∧ (version.ParseBinary s).1.Major ≤ 999999999) ∧
     (0 ≤ (version.ParseBinary s).1.Minor ∧ (version.ParseBinary s).1.Minor ≤ 999999999) ∧
     (0 ≤ (version.ParseBinary s).1.Patch ∧ (version.ParseBinary s).1.Patch ≤ 999999999) ∧
     (0 ≤ (version.ParseBinary s).1.Build ∧ (version.ParseBinary s).1.Build ≤ 999999999)) := by
  have hnum : ∀ m1 m2 m3 m4 : String, version.numberPatSubmatch s = some (m1, m2, m3, m4) →
      ∃ A B C : List Char, digitRun A ∧ digitRun B ∧ digitRun C ∧
        m1 = String.mk A ∧ m2 = String.mk B ∧ m3 = String.mk C ∧
        (m4 = "" ∨ ∃ D, digitRun D ∧ m4 = String.mk ('.' :: D)) := by
    intro m1 m2 m3 m4 hm
    obtain ⟨A, B, C, hA, hB, hC, e1, e2, e3, hcases⟩ := numberPatSubmatch_eq_some s _ _ _ _ hm
    refine ⟨A, B, C, hA, hB, hC, e1, e2, e3, ?_⟩
    rcases hcases with ⟨e4, -⟩ | ⟨D, hD, e4, -⟩
    · exact Or.inl e4
    · exact Or.inr ⟨D, hD, e4⟩
  refine ⟨?_, ?_, ?_, ?_, ?_, ?_, ?_⟩
  · intro m1 m2 m3 m4 hm
    exact (captures_convert intSize h m1 m2 m3 m4 (hnum m1 m2 m3 m4 hm)).2.1
  · intro m1 m2 m3 m4 m5 m6 hm
    exact (captures_convert intSize h m1 m2 m3 m4
      (binaryPatSubmatch_eq_some s m1 m2 m3 m4 m5 m6 hm)).2.1
  · intro t ht
    have hconv := strconvAtoi_digitRun intSize h t.toList ht
    have hr := decimalValue_range t.toList ht
    rw [← atoi_eq_decimalValue t.toList ht.2.2] at hr
    have ht2 : String.mk t.toList = t := rfl
    rw [ht2] at hconv hr
    exact ⟨hconv, hr.1, hr.2, by omega⟩
  · unfold version.ParseOrPanic version.Parse
    cases hm : version.numberPatSubmatch s with
    | none => rfl
    | some m =>
      obtain ⟨m1, m2, m3, m4⟩ := m
      obtain ⟨⟨h1, h2, h3, h4⟩, -, -⟩ :=
        captures_convert intSize h m1 m2 m3 m4 (hnum m1 m2 m3 m4 hm)
      simp only [h1, h2, h3, h4]
  · unfold version.ParseBinaryOrPanic version.ParseBinary
    cases hm : version.binaryPatSubmatch s with
    | none => rfl
    | some m =>
      obtain ⟨m1, m2, m3, m4, m5, m6⟩ := m
      obtain ⟨⟨h1, h2, h3, h4⟩, -, -⟩ :=
        captures_convert intSize h m1 m2 m3 m4
          (binaryPatSubmatch_eq_some s m1 m2 m3 m4 m5 m6 hm)
      simp only [h1, h2, h3, h4]
  · unfold version.Parse
    cases hm : version.numberPatSubmatch s with
    | none =>
      simp only
      refine ⟨⟨?_, ?_⟩, ⟨?_, ?_⟩, ⟨?_, ?_⟩, ?_, ?_⟩ <;> decide
    | some m =>
      obtain ⟨m1, m2, m3, m4⟩ := m
      exact (captures_convert intSize h m1 m2 m3 m4 (hnum m1 m2 m3 m4 hm)).2.2
  · unfold version.ParseBinary
    cases hm : version.binaryPatSubmatch s with
    | none =>
      simp only
      refine ⟨⟨?_, ?_⟩, ⟨?_, ?_⟩, ⟨?_, ?_⟩, ?_, ?_⟩ <;> decide
    | some m =>
      obtain ⟨m1, m2, m3, m4, m5, m6⟩ := m
      exact (captures_convert intSize h m1 m2 m3 m4
        (binaryPatSubmatch_eq_some s m1 m2 m3 m4 m5 m6 hm)).2.2

/-- C28 for an `int` of 32 bits at the largest fields: no panic. -/
theorem C28_witness :
    32 ≤ 32 ∧
    version.ParseOrPanic 32 "999999999.0.999999999.999999999" =
      some ({ Major := 999999999, Minor := 0, Patch := 999999999, Build := 999999999 }, none) ∧
    version.ParseOrPanic 32 "999999999.0.999999999.999999999" =
      some (version.Parse "999999999.0.999999999.999999999") :=
  ⟨by decide, by decide,
   (C28_atoi_never_fails 32 (by decide) "999999999.0.999999999.999999999").2.2.2.1⟩

end migration
